import Mathlib

/-!
The CMP client application apps/cmp.c: capture/replay transport, file-name lists and format resolution

A shallow embedding of parts of `apps/cmp.c` (the CMP client application):

* `next_item`, the splitter of comma/space separated lists (lines 654-671);
* `adjust_format`, the resolution of the input format of a file (lines 739-772);
* `load_pkcs12`, `load_certs_preliminary`, `load_certs_autofmt`, the certificate loaders
  with their retry in a second format (lines 694-736, 804-896);
* `write_PKIMESSAGE`, `read_PKIMESSAGE`, `read_write_req_resp`, the transfer callback that
  captures and replays CMP messages (lines 934-1059);
* `sk_X509_add1_certs`, `load_certs_multifile`, `load_certstore`, the collectors of
  certificates from lists of files (lines 607-651, 915-931, 1185-1243);
* `truststore_set_host_etc` (lines 898-913) and `setup_protection_ctx` (lines 1731-1848);
* `read_config`, `get_opts`, `setup_srv_ctx`, `setup_request_ctx`, as far as they handle
  the numeric options of the mock server and of the request (lines 1332-2005, 2378-2873);
* `atoint`, `parse_addr` (lines 1061-1102) and `prev_item`, `conf_get_string` (lines
  2312-2352);
* the tables `cmp_options` and `cmp_vars` with the index of `read_config` (lines 197-571);
* `write_cert`, `save_certs` and the loop of transactions of `cmp_main` (lines 2244-2293,
  3037-3140).

Conventions of the embedding.

* A C string is the list of its characters before the terminating NUL; a
  `char *` that may be `NULL` is an `Option` of such a list.
* An `int` used as a truth value is an `Int` tested against `0`.
* Library calls whose outcome depends on the outside world (files, network,
  the mock server, memory) are fields of an environment record; every call of
  the transfer callback that touches the outside world is appended to a trace
  of events.
* Diagnostic output (`CMP_err`, `CMP_warn`, `BIO_printf`) is not modelled, except the
  warning of `prev_item`, which is a flag of its result.
-/

namespace Cmp

/-! ## libc -/

/-- The function `isspace` of `<ctype.h>` in the C locale: space, `\t`, `\n`, `\v`, `\f`, `\r`. -/
def isspace (c : Char) : Bool :=
  c.toNat = 32 || (9 ≤ c.toNat && c.toNat ≤ 13)

/-- The function `tolower` of `<ctype.h>` in the C locale. -/
def tolower (c : Char) : Char :=
  if 65 ≤ c.toNat ∧ c.toNat ≤ 90 then Char.ofNat (c.toNat + 32) else c

/-- The call `strncasecmp(s1, s2, n)`: compares at most `n` characters ignoring case; the end of a
list is the terminating NUL.  The result is `0` exactly when the strings agree. -/
def strncasecmp : List Char → List Char → Nat → Int
  | _, _, 0 => 0
  | [], [], _ + 1 => 0
  | [], c :: _, _ + 1 => - ((tolower c).toNat : Int)
  | c :: _, [], _ + 1 => ((tolower c).toNat : Int)
  | a :: as, b :: bs, n + 1 =>
    if tolower a = tolower b then strncasecmp as bs n
    else ((tolower a).toNat : Int) - ((tolower b).toNat : Int)

/-! ## `next_item` (cmp.c 654-671) -/

/-- The first loop of `next_item` (lines 657-662): advance to the separator, unescaping
in place.  Returns the characters now standing between the start and the stop position,
and the text from the stop position on (empty when the stop position is the NUL). -/
def next_item_scan : List Char → List Char × List Char
  | [] => ([], [])
  | c :: cs =>
    if c = ',' ∨ isspace c = true then ([], c :: cs)
    else if c = Char.ofNat 92 then
      match cs with
      | [] => ([c], [])
      | d :: ds => let r := next_item_scan ds; (d :: r.1, r.2)
    else let r := next_item_scan cs; (c :: r.1, r.2)

/-- The loop `while (isspace(*opt)) opt++;` (lines 667-668). -/
def skip_space : List Char → List Char
  | [] => []
  | c :: cs => if isspace c = true then skip_space cs else c :: cs

/-- The call `next_item(opt)`: the first component is the string found at `opt` after the call
(the current item, NUL-terminated by the call), the second the returned pointer
(`none` is `NULL`, the end of input). -/
def next_item (opt : List Char) : List Char × Option (List Char) :=
  let r := next_item_scan opt
  match r.2 with
  | [] => (r.1, none)
  | _ :: after =>
    let rest := skip_space after
    (r.1, if rest = [] then none else some rest)

/-! ## `adjust_format` (cmp.c 739-772) -/

/-- The `FORMAT_*` constants of `apps/include/fmt.h` that this file uses; the header is
not part of the sources at hand, so the constants are taken as distinct symbols. -/
inductive Format
  | FORMAT_PEM
  | FORMAT_ASN1
  | FORMAT_PKCS12
  | FORMAT_ENGINE
  | FORMAT_HTTP
  | FORMAT_OTHER (code : Nat)
  deriving DecidableEq, Repr

open Format

/-- The call `adjust_format(&infile, format, engine_ok)`: returns the updated `*infile` and the
resolved format. -/
def adjust_format (infile : List Char) (format : Format) (engine_ok : Int) :
    List Char × Format :=
  if strncasecmp infile "http://".toList 7 = 0
      ∨ strncasecmp infile "https://".toList 8 = 0 then
    (infile, FORMAT_HTTP)
  else if engine_ok ≠ 0 ∧ strncasecmp infile "engine:".toList 7 = 0 then
    (infile.drop 7, FORMAT_ENGINE)
  else
    let infile := if strncasecmp infile "file:".toList 5 = 0 then infile.drop 5 else infile
    if infile.length ≥ 4 then
      let extension := infile.drop (infile.length - 4)
      if strncasecmp extension ".crt".toList 4 = 0
          ∨ strncasecmp extension ".pem".toList 4 = 0 then
        (infile, FORMAT_PEM)
      else if strncasecmp extension ".cer".toList 4 = 0
          ∨ strncasecmp extension ".der".toList 4 = 0 then
        (infile, FORMAT_ASN1)
      else if strncasecmp extension ".p12".toList 4 = 0 then
        (infile, FORMAT_PKCS12)
      else (infile, format)
    else (infile, format)

/-! ## CMP messages, the client context and the outside world -/

/-- An `ASN1_OCTET_STRING`. -/
abbrev Octets := List Nat

/-- The fields of an `OSSL_CMP_PKIHEADER` that the transfer callback reads; each is an
optional octet string (a `NULL` pointer is `none`). -/
structure PKIHeader where
  transactionID : Option Octets
  senderNonce : Option Octets
  recipNonce : Option Octets
  deriving DecidableEq, Repr

/-- An `OSSL_CMP_MSG`: its header and, as a number, everything else. -/
structure Msg where
  header : PKIHeader
  body : Nat
  deriving DecidableEq, Repr

/-- The fields of an `OSSL_CMP_CTX` that the transfer callback may change: the transaction
state, and as a number everything else (which only the library calls touch). -/
structure Ctx where
  transactionID : Option Octets
  senderNonce : Option Octets
  recipNonce : Option Octets
  other : Nat
  deriving DecidableEq, Repr

/-- A call that touches the outside world, with its outcome. -/
inductive Event
  /-- A call `BIO_new_file(file, "rb")`; `ok` is false when `NULL` was returned -/
  | open_rb (file : List Char) (ok : Bool)
  /-- A call `BIO_new_file(file, "wb")` -/
  | open_wb (file : List Char) (ok : Bool)
  /-- A call of `d2i_OSSL_CMP_MSG_bio` on the file just opened -/
  | d2i (file : List Char) (res : Option Msg)
  /-- A call of `i2d_OSSL_CMP_MSG_bio` of `msg` to the file just opened; `ok` is false on a negative
  return value -/
  | i2d (file : List Char) (msg : Msg) (ok : Bool)
  /-- A call of `OSSL_CMP_MSG_update_transactionID` applied to `msg` -/
  | update_transactionID (msg : Msg) (ok : Bool)
  /-- A call `OSSL_CMP_CTX_server_perform(ctx, req)`, the in-process mock server -/
  | server_perform (req : Option Msg) (res : Option Msg)
  /-- A call `OSSL_CMP_MSG_http_perform(ctx, req)`, the HTTP transport -/
  | http_perform (req : Option Msg) (res : Option Msg)
  deriving DecidableEq, Repr

/-- The outside world as seen by the transfer callback.  Every oracle receives the events
so far, so its answers may depend on what has happened before (files written earlier, the
state of the mock server, ...). -/
structure Env where
  /-- does `BIO_new_file(file, "rb")` return a BIO? -/
  BIO_new_file_rb : List Event → List Char → Bool
  /-- does `BIO_new_file(file, "wb")` return a BIO? -/
  BIO_new_file_wb : List Event → List Char → Bool
  /-- the message decoded from the open file, `none` if it cannot be decoded -/
  d2i_OSSL_CMP_MSG : List Event → List Char → Option Msg
  /-- does writing the message to the open file succeed? -/
  i2d_OSSL_CMP_MSG : List Event → List Char → Msg → Bool
  /-- the context and message after `OSSL_CMP_MSG_update_transactionID`, and its result -/
  OSSL_CMP_MSG_update_transactionID : List Event → Ctx → Msg → Ctx × Msg × Bool
  /-- the context after, and the response of, the mock server -/
  OSSL_CMP_CTX_server_perform : List Event → Ctx → Option Msg → Ctx × Option Msg
  /-- the context after, and the response of, the HTTP exchange -/
  OSSL_CMP_MSG_http_perform : List Event → Ctx → Option Msg → Ctx × Option Msg
  /-- does the copy made by `OSSL_CMP_CTX_set1_senderNonce` succeed? -/
  set1_senderNonce_ok : List Event → Ctx → Bool
  /-- does the copy made by `OSSL_CMP_CTX_set1_transactionID` succeed? -/
  set1_transactionID_ok : List Event → Ctx → Bool

/-- Modelled from the spec: `OSSL_CMP_CTX_set1_senderNonce` (crypto/cmp, not among the
sources at hand) overwrites the sender nonce of the context with a copy of the given
octet string; `ok` says whether the copy could be made. -/
def OSSL_CMP_CTX_set1_senderNonce (ok : Bool) (ctx : Ctx) (nonce : Option Octets) :
    Ctx × Bool :=
  if ok then ({ ctx with senderNonce := nonce }, true) else (ctx, false)

/-- Modelled from the spec: `OSSL_CMP_CTX_set1_transactionID` (crypto/cmp, not among the
sources at hand) overwrites the transactionID of the context with a copy of the given
octet string; `ok` says whether the copy could be made. -/
def OSSL_CMP_CTX_set1_transactionID (ok : Bool) (ctx : Ctx) (tid : Option Octets) :
    Ctx × Bool :=
  if ok then ({ ctx with transactionID := tid }, true) else (ctx, false)

/-- The option variables used by the transfer callback (cmp.c 158-163), the client
context, and the events so far. -/
structure State where
  opt_reqin : Option (List Char)
  opt_reqin_new_tid : Int
  opt_reqout : Option (List Char)
  opt_rspin : Option (List Char)
  opt_rspout : Option (List Char)
  opt_use_mock_srv : Int
  ctx : Ctx
  trace : List Event

/-! ## `write_PKIMESSAGE`, `read_PKIMESSAGE` (cmp.c 934-992) -/

/-- What `write_PKIMESSAGE` leaves behind: `*filenames`, the events, the return value. -/
structure WriteResult where
  filenames : Option (List Char)
  trace : List Event
  ret : Int

/-- What `read_PKIMESSAGE` leaves behind: `*filenames`, the events, the message returned. -/
structure ReadResult where
  filenames : Option (List Char)
  trace : List Event
  ret : Option Msg

/-- The call `write_PKIMESSAGE(msg, &filenames)`; the address `&filenames` itself is never `NULL`. -/
def write_PKIMESSAGE (env : Env) (tr : List Event) (msg : Option Msg)
    (filenames : Option (List Char)) : WriteResult :=
  match msg, filenames with
  | none, _ => ⟨filenames, tr, 0⟩
  | some _, none => ⟨none, tr, 0⟩
  | some m, some file =>
    let it := next_item file
    if env.BIO_new_file_wb tr it.1 = true then
      let tr1 := tr ++ [Event.open_wb it.1 true]
      if env.i2d_OSSL_CMP_MSG tr1 it.1 m = true then
        ⟨it.2, tr1 ++ [Event.i2d it.1 m true], 1⟩
      else ⟨it.2, tr1 ++ [Event.i2d it.1 m false], 0⟩
    else ⟨it.2, tr ++ [Event.open_wb it.1 false], 0⟩

/-- The call `read_PKIMESSAGE(&filenames)`. -/
def read_PKIMESSAGE (env : Env) (tr : List Event) (filenames : Option (List Char)) :
    ReadResult :=
  match filenames with
  | none => ⟨none, tr, none⟩
  | some file =>
    let it := next_item file
    if env.BIO_new_file_rb tr it.1 = true then
      let tr1 := tr ++ [Event.open_rb it.1 true]
      let ret := env.d2i_OSSL_CMP_MSG tr1 it.1
      ⟨it.2, tr1 ++ [Event.d2i it.1 ret], ret⟩
    else ⟨it.2, tr ++ [Event.open_rb it.1 false], none⟩

/-! ## `read_write_req_resp` (cmp.c 1000-1059) -/

/-- Lines 1007-1009: capture of the request.  The flag is false on `goto err`. -/
def capture_request (env : Env) (s : State) (req : Option Msg) : State × Bool :=
  if req.isSome = true ∧ s.opt_reqout.isSome = true then
    let w := write_PKIMESSAGE env s.trace req s.opt_reqout
    ({ s with opt_reqout := w.filenames, trace := w.trace }, decide (w.ret ≠ 0))
  else (s, true)

/-- Lines 1010-1021: the request taken from `-reqin`.  Yields `req_new`; the flag is false
on `goto err`. -/
def replay_request (env : Env) (s : State) : State × Option Msg × Bool :=
  if s.opt_reqin.isSome = true ∧ s.opt_rspin.isNone = true then
    let r := read_PKIMESSAGE env s.trace s.opt_reqin
    let s1 : State := { s with opt_reqin := r.filenames, trace := r.trace }
    match r.ret with
    | none => (s1, none, false)
    | some req_new =>
      if s1.opt_reqin_new_tid ≠ 0 then
        let u := env.OSSL_CMP_MSG_update_transactionID s1.trace s1.ctx req_new
        ({ s1 with ctx := u.1,
                   trace := s1.trace ++ [Event.update_transactionID req_new u.2.2] },
         some u.2.1, u.2.2)
      else (s1, some req_new, true)
  else (s, none, true)

/-- Lines 1023-1031: the response, from `-rspin` or from a transport. -/
def obtain_response (env : Env) (s : State) (req req_new : Option Msg) :
    State × Option Msg :=
  if s.opt_rspin.isSome = true then
    let r := read_PKIMESSAGE env s.trace s.opt_rspin
    ({ s with opt_rspin := r.filenames, trace := r.trace }, r.ret)
  else
    let actual_req := if s.opt_reqin.isSome = true then req_new else req
    if s.opt_use_mock_srv ≠ 0 then
      let t := env.OSSL_CMP_CTX_server_perform s.trace s.ctx actual_req
      ({ s with ctx := t.1, trace := s.trace ++ [Event.server_perform actual_req t.2] }, t.2)
    else
      let t := env.OSSL_CMP_MSG_http_perform s.trace s.ctx actual_req
      ({ s with ctx := t.1, trace := s.trace ++ [Event.http_perform actual_req t.2] }, t.2)

/-- Lines 1035-1049: nonce and transactionID of the context taken from the header of the
response.  The flag is false when the response is freed and `goto err` taken. -/
def adopt_header (env : Env) (s : State) (res : Msg) : State × Bool :=
  if s.opt_reqin.isSome = true ∨ s.opt_rspin.isSome = true then
    let hdr := res.header
    let nonce := hdr.recipNonce
    let tid := hdr.transactionID
    let a := OSSL_CMP_CTX_set1_senderNonce (env.set1_senderNonce_ok s.trace s.ctx) s.ctx nonce
    if a.2 = false then ({ s with ctx := a.1 }, false)
    else
      let b := OSSL_CMP_CTX_set1_transactionID (env.set1_transactionID_ok s.trace a.1) a.1 tid
      ({ s with ctx := b.1 }, b.2)
  else (s, true)

/-- Lines 1051-1054: capture of the response. -/
def capture_response (env : Env) (s : State) (res : Msg) : State × Option Msg :=
  if s.opt_rspout.isSome = true then
    let w := write_PKIMESSAGE env s.trace (some res) s.opt_rspout
    ({ s with opt_rspout := w.filenames, trace := w.trace },
     if w.ret = 0 then none else some res)
  else (s, some res)

/-- The call `read_write_req_resp(ctx, req)`: the state afterwards and the response returned
(`none` is `NULL`). -/
def read_write_req_resp (env : Env) (s : State) (req : Option Msg) : State × Option Msg :=
  let c := capture_request env s req
  if c.2 = false then (c.1, none)
  else
    let q := replay_request env c.1
    if q.2.2 = false then (q.1, none)
    else
      let o := obtain_response env q.1 req q.2.1
      match o.2 with
      | none => (o.1, none)
      | some res =>
        let a := adopt_header env o.1 res
        if a.2 = false then (a.1, none)
        else capture_response env a.1 res

/-! ## Concrete worlds used to run the code -/

/-- A captured response: transactionID `9`, recipient nonce `8`. -/
def captured_rsp : Msg := ⟨⟨some [9], some [7], some [8]⟩, 100⟩

/-- A captured request: transactionID `5`. -/
def captured_req : Msg := ⟨⟨some [5], some [6], none⟩, 200⟩

/-- The request built by the library for the running transaction: transactionID `1`. -/
def live_req : Msg := ⟨⟨some [1], some [2], none⟩, 300⟩

/-- The answer of the server to whatever it is sent. -/
def live_rsp : Msg := ⟨⟨some [1], some [3], some [2]⟩, 400⟩

/-- A world in which every file can be opened and written, the file `rsp.der` holds
`captured_rsp`, every other file read holds `captured_req`, and both transports answer
`live_rsp` and leave the context alone. -/
def quiet_env : Env where
  BIO_new_file_rb := fun _ _ => true
  BIO_new_file_wb := fun _ _ => true
  d2i_OSSL_CMP_MSG := fun _ file =>
    if file = "rsp.der".toList then some captured_rsp else some captured_req
  i2d_OSSL_CMP_MSG := fun _ _ _ => true
  OSSL_CMP_MSG_update_transactionID := fun _ ctx msg => (ctx, msg, true)
  OSSL_CMP_CTX_server_perform := fun _ ctx _ => (ctx, some live_rsp)
  OSSL_CMP_MSG_http_perform := fun _ ctx _ => (ctx, some live_rsp)
  set1_senderNonce_ok := fun _ _ => true
  set1_transactionID_ok := fun _ _ => true

/-- The context of a running transaction: transactionID `1`, sender nonce `2`. -/
def live_ctx : Ctx := ⟨some [1], some [2], none, 0⟩

/-- The state with no capture or replay option given. -/
def plain_state : State :=
  { opt_reqin := none, opt_reqin_new_tid := 0, opt_reqout := none, opt_rspin := none,
    opt_rspout := none, opt_use_mock_srv := 0, ctx := live_ctx, trace := [] }



/-- Is the event a call of a transport (mock server or HTTP)? -/
def Event.is_transport : Event → Bool
  | Event.server_perform _ _ => true
  | Event.http_perform _ _ => true
  | _ => false

/-- Is the event part of writing a message file? -/
def Event.is_write : Event → Bool
  | Event.open_wb _ _ => true
  | Event.i2d _ _ _ => true
  | _ => false

/-- Is the event part of reading a message file? -/
def Event.is_read : Event → Bool
  | Event.open_rb _ _ => true
  | Event.d2i _ _ => true
  | _ => false

/-! ## Lists of file names -/

/-- A name: non-empty and without NUL. -/
def is_name (n : List Char) : Bool := !n.isEmpty && n.all (fun c => c ≠ Char.ofNat 0)

/-- A character as it is written in a list: a comma, a white space character and a
backslash are preceded by a backslash. -/
def written_char (c : Char) : List Char :=
  if c = ',' ∨ isspace c = true ∨ c = Char.ofNat 92 then [Char.ofNat 92, c] else [c]

/-- A name as it is written in a list. -/
def written : List Char → List Char
  | [] => []
  | c :: cs => written_char c ++ written cs

/-- A separator of a list: one comma optionally followed by white space, or a run of
white space. -/
inductive Separator
  | comma (spaces : List Char)
  | blanks (first : Char) (more : List Char)
  deriving DecidableEq, Repr

/-- The characters of a separator. -/
def Separator.chars : Separator → List Char
  | Separator.comma spaces => ',' :: spaces
  | Separator.blanks first more => first :: more

/-- The white space of a separator is white space. -/
def Separator.ok : Separator → Bool
  | Separator.comma spaces => spaces.all isspace
  | Separator.blanks first more => isspace first && more.all isspace

/-- The text after the first name of a list: every further name preceded by its separator,
and possibly one more separator at the very end. -/
def list_tail_text : List (Separator × List Char) → Option Separator → List Char
  | [], none => []
  | [], some t => t.chars
  | (sp, nm) :: r, t => sp.chars ++ (written nm ++ list_tail_text r t)

/-- The text of the list of names `n0 :: r.map Prod.snd`. -/
def list_text (n0 : List Char) (r : List (Separator × List Char)) (t : Option Separator) :
    List Char :=
  written n0 ++ list_tail_text r t

/-- All names are names and all separators are separators. -/
def well_formed (n0 : List Char) (r : List (Separator × List Char)) (t : Option Separator) :
    Bool :=
  is_name n0 && r.all (fun p => p.1.ok && is_name p.2)
    && (match t with
        | none => true
        | some sp => sp.ok)

/-- The events and `*filenames` after `k` successive calls `read_PKIMESSAGE(&filenames)`. -/
def after_reads (env : Env) : Nat → List Event → Option (List Char) →
    List Event × Option (List Char)
  | 0, tr, fl => (tr, fl)
  | k + 1, tr, fl =>
    after_reads env k (read_PKIMESSAGE env tr fl).trace (read_PKIMESSAGE env tr fl).filenames

/-- The events and `*filenames` after `k` successive calls
`write_PKIMESSAGE(msg, &filenames)`, the `i`-th of them with the message `msgs i`. -/
def after_writes (env : Env) (msgs : Nat → Msg) : Nat → List Event → Option (List Char) →
    List Event × Option (List Char)
  | 0, tr, fl => (tr, fl)
  | k + 1, tr, fl =>
    after_writes env (fun i => msgs (i + 1)) k
      (write_PKIMESSAGE env tr (some (msgs 0)) fl).trace
      (write_PKIMESSAGE env tr (some (msgs 0)) fl).filenames

/-- The file names handed to `BIO_new_file`, in order. -/
def files_opened : List Event → List (List Char)
  | [] => []
  | Event.open_rb f _ :: es => f :: files_opened es
  | Event.open_wb f _ :: es => f :: files_opened es
  | _ :: es => files_opened es

/-- The state with `-reqout req1.der`. -/
def reqout_state : State := { plain_state with opt_reqout := some "req1.der".toList }

/-- The state with `-rspout rsp1.der`. -/
def rspout_state : State := { plain_state with opt_rspout := some "rsp1.der".toList }

/-! ## Loading certificates: `load_pkcs12`, `load_certs_preliminary`, `load_certs_autofmt`
(cmp.c 694-736, 804-842, 867-896) -/

/-- An `X509` certificate, as a number. -/
abbrev X509 := Nat

/-- A decoded `PKCS12` container, as a number. -/
abbrev PKCS12 := Nat

/-- The library calls behind the loaders.  A password is a C string; `none` is `NULL`. -/
structure LoadEnv where
  /-- result of `get_passwd(pass, desc)` -/
  get_passwd : Option (List Char) → Option (List Char)
  /-- does `bio_open_default(file, 'r', format)` return a BIO? -/
  bio_open_default : List Char → Format → Bool
  /-- result of `d2i_PKCS12_bio` on the open file -/
  d2i_PKCS12 : List Char → Option PKCS12
  /-- is the result of `PKCS12_verify_mac(p12, pass, len)` non-zero? -/
  PKCS12_verify_mac : PKCS12 → Option (List Char) → Bool
  /-- the password callback: the password typed in, `none` when it reports an error -/
  password_callback : Option (List Char) → List Char → Option (List Char)
  /-- result of `PKCS12_parse(p12, pass, &pkey, &cert, &ca)`: return value, `*cert` and `*ca`
  afterwards, given `*ca` before -/
  PKCS12_parse : PKCS12 → List Char → Option (List X509) → Int × Option X509 × Option (List X509)
  /-- result of `load_cert_pass(file, 0, pass, desc)` -/
  load_cert_pass : List Char → Option (List Char) → Option X509
  /-- result of `load_certs(file, certs, format, pass, desc)` of the apps library: return
  value and `*certs` afterwards, given `*certs` before -/
  load_certs : List Char → Option (List X509) → Format → Option (List Char) →
    Int × Option (List X509)
  /-- does `sk_X509_new_null()` return a stack? -/
  sk_X509_new_null_ok : Bool
  /-- does `sk_X509_insert` succeed? -/
  sk_X509_insert_ok : Bool

/-- The call `load_pkcs12(in, desc, pem_cb, cb_data, &pkey, &cert, &ca)` on the open `file`, with
`cb_data.password = pass`: return value, `*cert` and `*ca` afterwards. -/
def load_pkcs12 (env : LoadEnv) (file : List Char) (pass : Option (List Char))
    (ca : Option (List X509)) : Int × Option X509 × Option (List X509) :=
  match env.d2i_PKCS12 file with
  | none => (0, none, ca)
  | some p12 =>
    if env.PKCS12_verify_mac p12 (some []) = true ∨ env.PKCS12_verify_mac p12 none = true then
      env.PKCS12_parse p12 [] ca
    else
      match env.password_callback pass file with
      | none => (0, none, ca)
      | some tpass =>
        if env.PKCS12_verify_mac p12 (some tpass) = false then (0, none, ca)
        else env.PKCS12_parse p12 tpass ca

/-- The call `load_certs_preliminary(file, &certs, format, pass, desc)`: return value and `*certs`
afterwards. -/
def load_certs_preliminary (env : LoadEnv) (file : List Char) (certs : Option (List X509))
    (format : Format) (pass : Option (List Char)) : Int × Option (List X509) :=
  let first : Int × Option X509 × Option (List X509) :=
    if format = FORMAT_PKCS12 then
      if env.bio_open_default file format = true then load_pkcs12 env file pass certs
      else (0, none, certs)
    else if format = FORMAT_ASN1 then (0, env.load_cert_pass file pass, certs)
    else (0, none, certs)
  if format = FORMAT_PKCS12 ∨ format = FORMAT_ASN1 then
    match first.2.1 with
    | some cert =>
      let stack : Option (List X509) :=
        match first.2.2 with
        | none => if env.sk_X509_new_null_ok = true then some [] else none
        | some l => some l
      match stack with
      | some l =>
        if env.sk_X509_insert_ok = true then ((l.length : Int) + 1, some (cert :: l))
        else (0, some l)
      | none => (first.1, none)
    | none => (first.1, first.2.2)
  else env.load_certs file certs format pass

/-- What `load_certs_autofmt` leaves behind: the return value, `*certs`, and the formats
of the parse attempts made (the calls of `load_certs_preliminary`), in order. -/
structure LoadResult where
  ret : Int
  certs : Option (List X509)
  attempts : List Format
  deriving DecidableEq, Repr

/-- The call `load_certs_autofmt(infile, &certs, exclude_http, pass, desc)`, with the option
variable `opt_certsform` as a parameter. -/
def load_certs_autofmt (env : LoadEnv) (opt_certsform : Format) (infile : List Char)
    (certs : Option (List X509)) (exclude_http : Int) (pass : Option (List Char)) :
    LoadResult :=
  let infile1 := (adjust_format infile opt_certsform 0).1
  let format := (adjust_format infile opt_certsform 0).2
  if exclude_http ≠ 0 ∧ format = FORMAT_HTTP then ⟨0, certs, []⟩
  else
    let pass_string := env.get_passwd pass
    let try1 := load_certs_preliminary env infile1 certs format pass_string
    if try1.1 = 0 ∧ format ≠ FORMAT_HTTP then
      let format2 := if format = FORMAT_PEM then FORMAT_ASN1 else FORMAT_PEM
      let try2 := load_certs_preliminary env infile1 try1.2 format2 pass_string
      ⟨try2.1, try2.2, [format, format2]⟩
    else ⟨try1.1, try1.2, [format]⟩

/-- A world in which no file is a PKCS12 container, the files `cert.pem` and `bundle.p12`
hold DER and PEM certificates respectively but nothing else parses. -/
def mislabelled_env : LoadEnv where
  get_passwd := fun p => p
  bio_open_default := fun _ _ => true
  d2i_PKCS12 := fun _ => none
  PKCS12_verify_mac := fun _ _ => false
  password_callback := fun _ _ => none
  PKCS12_parse := fun _ _ ca => (0, none, ca)
  load_cert_pass := fun file _ => if file = "cert.pem".toList then some 7 else none
  load_certs := fun file _ format _ =>
    if file = "bundle.p12".toList ∧ format = FORMAT_PEM then (1, some [11, 12])
    else (0, none)
  sk_X509_new_null_ok := true
  sk_X509_insert_ok := true

/-! ## Reference for the format resolution, written from the specification -/

/-- Does `s` start with `p`, ignoring case? -/
def starts_with_ignoring_case (p s : List Char) : Bool :=
  decide ((s.take p.length).map tolower = p.map tolower)

/-- The last four characters of a path, in lower case. -/
def last_four_lower (path : List Char) : List Char :=
  (path.drop (path.length - 4)).map tolower

/-- The extension table of the specification: `.crt` and `.pem` mean PEM, `.cer` and `.der`
mean DER, `.p12` means PKCS12; anything else, and any path shorter than four characters,
keeps the declared format. -/
def format_by_extension (path : List Char) (declared : Format) : Format :=
  if path.length < 4 then declared
  else if last_four_lower path = ".crt".toList ∨ last_four_lower path = ".pem".toList then
    FORMAT_PEM
  else if last_four_lower path = ".cer".toList ∨ last_four_lower path = ".der".toList then
    FORMAT_ASN1
  else if last_four_lower path = ".p12".toList then FORMAT_PKCS12
  else declared

/-- The resolution as the specification words it: a path starting with `http://` or
`https://` (ignoring case) is fetched over the network and left unchanged; any other path
is local and, after a leading `file:` is removed, resolved by the extension table. -/
def adjust_format_reference (path : List Char) (declared : Format) : List Char × Format :=
  if starts_with_ignoring_case "http://".toList path = true
      ∨ starts_with_ignoring_case "https://".toList path = true then
    (path, FORMAT_HTTP)
  else if starts_with_ignoring_case "file:".toList path = true then
    (path.drop 5, format_by_extension (path.drop 5) declared)
  else (path, format_by_extension path declared)

/-! ## Walking a list with `next_item` -/

/-- The loop `while (p != NULL) { next = next_item(p); ...; p = next; }` of
`load_certstore` and `load_certs_multifile`, run for at most the given number of rounds:
the items seen, in order, and the pointer the loop is left with. -/
def walk_list : Nat → Option (List Char) → List (List Char) × Option (List Char)
  | 0, p => ([], p)
  | _ + 1, none => ([], none)
  | k + 1, some s =>
    ((next_item s).1 :: (walk_list k (next_item s).2).1, (walk_list k (next_item s).2).2)

/-- The items of a list: a list of `n` characters has at most `n + 1` items, so `n + 1`
rounds walk it to its end. -/
def list_items (s : List Char) : List (List Char) := (walk_list (s.length + 1) (some s)).1

/-- A name that needs no escaping: non-empty, without NUL, comma, white space and
backslash. -/
def is_plain_name (n : List Char) : Bool :=
  !n.isEmpty
    && n.all (fun c => c ≠ Char.ofNat 0 && c ≠ ',' && !isspace c && c ≠ Char.ofNat 92)

/-- The text after the first name of a list whose names are written as they are. -/
def plain_tail_text : List (Separator × List Char) → Option Separator → List Char
  | [], none => []
  | [], some t => t.chars
  | (sp, nm) :: r, t => sp.chars ++ (nm ++ plain_tail_text r t)

/-- The text of the list of the names `n0 :: r.map Prod.snd`, written as they are. -/
def plain_text (n0 : List Char) (r : List (Separator × List Char)) (t : Option Separator) :
    List Char :=
  n0 ++ plain_tail_text r t

/-- All names are plain names and all separators are separators. -/
def plain_well_formed (n0 : List Char) (r : List (Separator × List Char))
    (t : Option Separator) : Bool :=
  is_plain_name n0 && r.all (fun p => p.1.ok && is_plain_name p.2)
    && (match t with
        | none => true
        | some sp => sp.ok)

/-! ## Certificate stacks and stores: `sk_X509_add1_cert`, `sk_X509_add1_certs`,
`sk_X509_to_store`, `load_certstore`, `load_certs_multifile`
(cmp.c 607-651, 915-931, 1185-1243) -/

/-- The library calls behind the functions that collect certificates, on top of those of
the loaders. -/
structure CertsEnv where
  /-- the calls behind `load_certs_autofmt` -/
  load : LoadEnv
  /-- does `X509_up_ref(cert)` succeed? -/
  X509_up_ref_ok : X509 → Bool
  /-- is the result of `X509_check_issued(issuer, subject)` equal to `X509_V_OK`? -/
  X509_check_issued_ok : X509 → X509 → Bool
  /-- does `X509_STORE_new()` return a store? -/
  X509_STORE_new_ok : Bool
  /-- does `X509_STORE_add_cert(store, cert)` succeed? -/
  X509_STORE_add_cert_ok : X509 → Bool

/-- Modelled from the spec: `X509_cmp` (crypto/x509, not among the sources at hand)
compares two certificates by full equality; `0` means equal.  A certificate of the model
is its content, so equal certificates are equal numbers. -/
def X509_cmp (a b : X509) : Int := if a = b then 0 else 1

/-- The call `sk_X509_add1_cert(sk, cert, no_dup, prepend)` on a stack that is not `NULL`:
return value and the stack afterwards. -/
def sk_X509_add1_cert (env : CertsEnv) (sk : List X509) (cert : X509) (no_dup prepend : Int) :
    Int × List X509 :=
  if no_dup ≠ 0 ∧ sk.any (fun c => decide (X509_cmp c cert = 0)) = true then (1, sk)
  else if env.X509_up_ref_ok cert = false then (0, sk)
  else if env.load.sk_X509_insert_ok = false then (0, sk)
  else (1, if prepend ≠ 0 then cert :: sk else sk ++ [cert])

/-- The loop of `sk_X509_add1_certs` (lines 642-649) over the certificates still to add. -/
def sk_X509_add1_certs_loop (env : CertsEnv) (no_self_signed no_dups prepend : Int) :
    List X509 → List X509 → Int × List X509
  | [], sk => (1, sk)
  | cert :: rest, sk =>
    if no_self_signed = 0 ∨ env.X509_check_issued_ok cert cert = false then
      if (sk_X509_add1_cert env sk cert no_dups prepend).1 = 0 then
        (0, (sk_X509_add1_cert env sk cert no_dups prepend).2)
      else
        sk_X509_add1_certs_loop env no_self_signed no_dups prepend rest
          (sk_X509_add1_cert env sk cert no_dups prepend).2
    else sk_X509_add1_certs_loop env no_self_signed no_dups prepend rest sk

/-- The call `sk_X509_add1_certs(sk, certs, no_self_signed, no_dups, prepend)`: return
value and the stack `sk` afterwards. -/
def sk_X509_add1_certs (env : CertsEnv) (sk certs : Option (List X509))
    (no_self_signed no_dups prepend : Int) : Int × Option (List X509) :=
  match sk with
  | none => (0, none)
  | some s =>
    match certs with
    | none => (1, some s)
    | some cs =>
      ((sk_X509_add1_certs_loop env no_self_signed no_dups prepend cs s).1,
       some (sk_X509_add1_certs_loop env no_self_signed no_dups prepend cs s).2)

/-- The loop of `load_certs_multifile` (lines 1224-1234), run for at most the given number
of rounds.  The outer `none` means that the rounds did not suffice; `some none` is the
result `NULL`. -/
def load_certs_multifile_loop (env : CertsEnv) (opt_certsform : Format)
    (pass : Option (List Char)) :
    Nat → Option (List Char) → List X509 → Option (Option (List X509))
  | _, none, result => some (some result)
  | 0, some _, _ => none
  | k + 1, some files, result =>
    if (load_certs_autofmt env.load opt_certsform (next_item files).1 none 0 pass).ret = 0 then
      some none
    else if (sk_X509_add1_certs env (some result)
        (load_certs_autofmt env.load opt_certsform (next_item files).1 none 0 pass).certs
        0 1 0).1 = 0 then
      some none
    else
      match (sk_X509_add1_certs env (some result)
        (load_certs_autofmt env.load opt_certsform (next_item files).1 none 0 pass).certs
        0 1 0).2 with
      | none => some none
      | some r => load_certs_multifile_loop env opt_certsform pass k (next_item files).2 r

/-- The call `load_certs_multifile(files, pass, desc)`.  The rounds given to the loop
always suffice: see `load_certs_multifile_returns`. -/
def load_certs_multifile (env : CertsEnv) (opt_certsform : Format)
    (files : Option (List Char)) (pass : Option (List Char)) :
    Option (Option (List X509)) :=
  match files with
  | none => some none
  | some f =>
    if env.load.sk_X509_new_null_ok = false then some none
    else load_certs_multifile_loop env opt_certsform pass (f.length + 1) (some f) []

/-- Modelled from the spec: `X509_STORE_add_cert` (crypto/x509, not among the sources at
hand) adds the certificate to the store; a store of the model is the list of the
certificates added to it. -/
def X509_STORE_add_cert (store : List X509) (cert : X509) : List X509 := store ++ [cert]

/-- The loop of `sk_X509_to_store` (lines 924-929): `none` when a certificate cannot be
added, in which case the store is freed. -/
def sk_X509_to_store_loop (env : CertsEnv) : List X509 → List X509 → Option (List X509)
  | [], store => some store
  | cert :: rest, store =>
    if env.X509_STORE_add_cert_ok cert = false then none
    else sk_X509_to_store_loop env rest (X509_STORE_add_cert store cert)

/-- The call `sk_X509_to_store(store, certs)`; `sk_X509_num(NULL)` is `-1`, so a `NULL`
stack adds nothing. -/
def sk_X509_to_store (env : CertsEnv) (store certs : Option (List X509)) :
    Option (List X509) :=
  match (match store with
         | none => if env.X509_STORE_new_ok = true then some [] else none
         | some st => some st) with
  | none => none
  | some st =>
    match certs with
    | none => some st
    | some cs => sk_X509_to_store_loop env cs st

/-- The loop of `load_certstore` (lines 1193-1206), run for at most the given number of
rounds.  The outer `none` means that the rounds did not suffice; `some none` is the result
`NULL`. -/
def load_certstore_loop (env : CertsEnv) (opt_certsform : Format)
    (opt_otherpass : Option (List Char)) :
    Nat → Option (List Char) → Option (List X509) → Option (Option (List X509))
  | _, none, store => some store
  | 0, some _, _ => none
  | k + 1, some input, store =>
    if (load_certs_autofmt env.load opt_certsform (next_item input).1 none 1
        opt_otherpass).ret = 0 then
      some none
    else
      match sk_X509_to_store env store
        (load_certs_autofmt env.load opt_certsform (next_item input).1 none 1
          opt_otherpass).certs with
      | none => some none
      | some st =>
        load_certstore_loop env opt_certsform opt_otherpass k (next_item input).2 (some st)

/-- The call `load_certstore(input, desc)`.  The rounds given to the loop always suffice:
see `load_certstore_returns`. -/
def load_certstore (env : CertsEnv) (opt_certsform : Format) (input : Option (List Char))
    (opt_otherpass : Option (List Char)) : Option (Option (List X509)) :=
  match input with
  | none => some none
  | some i => load_certstore_loop env opt_certsform opt_otherpass (i.length + 1) (some i) none

/-- A stack with the certificates of `certs` added at its end, in order, each one unless an
equal certificate is already there. -/
def add_new_certs (sk certs : List X509) : List X509 :=
  certs.foldl (fun acc c => if c ∈ acc then acc else acc ++ [c]) sk

/-- The certificates of a list in order, every one that equals an earlier one left out. -/
def first_occurrences (certs : List X509) : List X509 := add_new_certs [] certs

/-- A world of three files: `a.pem` holds the certificates `1, 2`, `b.pem` holds `2, 3, 1`
and `c.pem` holds `4`; every certificate is self-signed; nothing fails. -/
def three_files_env : CertsEnv where
  load :=
    { get_passwd := fun p => p
      bio_open_default := fun _ _ => true
      d2i_PKCS12 := fun _ => none
      PKCS12_verify_mac := fun _ _ => false
      password_callback := fun _ _ => none
      PKCS12_parse := fun _ _ ca => (0, none, ca)
      load_cert_pass := fun _ _ => none
      load_certs := fun file _ format _ =>
        if format = FORMAT_PEM then
          if file = "a.pem".toList then (1, some [1, 2])
          else if file = "b.pem".toList then (1, some [2, 3, 1])
          else if file = "c.pem".toList then (1, some [4])
          else (0, none)
        else (0, none)
      sk_X509_new_null_ok := true
      sk_X509_insert_ok := true }
  X509_up_ref_ok := fun _ => true
  X509_check_issued_ok := fun _ _ => true
  X509_STORE_new_ok := true
  X509_STORE_add_cert_ok := fun _ => true

/-- The rounds of `load_certs_multifile_loop` seen as a recursion over the items of the
list: `none` is the result `NULL`. -/
def multifile_over_items (env : CertsEnv) (opt_certsform : Format)
    (pass : Option (List Char)) : List (List Char) → List X509 → Option (List X509)
  | [], result => some result
  | file :: rest, result =>
    if (load_certs_autofmt env.load opt_certsform file none 0 pass).ret = 0 then none
    else if (sk_X509_add1_certs env (some result)
        (load_certs_autofmt env.load opt_certsform file none 0 pass).certs 0 1 0).1 = 0 then
      none
    else
      match (sk_X509_add1_certs env (some result)
        (load_certs_autofmt env.load opt_certsform file none 0 pass).certs 0 1 0).2 with
      | none => none
      | some r => multifile_over_items env opt_certsform pass rest r

/-- The rounds of `load_certstore_loop` seen as a recursion over the items of the list:
`none` is the result `NULL`. -/
def certstore_over_items (env : CertsEnv) (opt_certsform : Format)
    (opt_otherpass : Option (List Char)) :
    List (List Char) → Option (List X509) → Option (List X509)
  | [], store => store
  | file :: rest, store =>
    if (load_certs_autofmt env.load opt_certsform file none 1 opt_otherpass).ret = 0 then none
    else
      match sk_X509_to_store env store
        (load_certs_autofmt env.load opt_certsform file none 1 opt_otherpass).certs with
      | none => none
      | some st => certstore_over_items env opt_certsform opt_otherpass rest (some st)

/-! ## Option processing: `read_config`, `opt_str`, `opt_nat`, `get_opts`
(cmp.c 2378-2873), and the mock server set up from the options (`setup_srv_ctx`,
lines 1446-1482) -/

/-- The least `int`. -/
def INT_MIN : Int := -2147483648

/-- The greatest `int`. -/
def INT_MAX : Int := 2147483647

/-- Modelled from the spec: the constant `OSSL_CRMF_POPO_NONE` of `openssl/crmf.h`, which
is not among the sources at hand; `-1`, the least value of the message of line 2682. -/
def OSSL_CRMF_POPO_NONE : Int := -1

/-- Modelled from the spec: the constant `OSSL_CRMF_POPO_KEYENC` of `openssl/crmf.h`, which
is not among the sources at hand; `2`, the greatest value of the message of line 2682. -/
def OSSL_CRMF_POPO_KEYENC : Int := 2

/-- Modelled from the spec: the constant `CRL_REASON_NONE` of `openssl/x509v3.h`, which is
not among the sources at hand; `-1`, the least value of the message of line 2709. -/
def CRL_REASON_NONE : Int := -1

/-- Modelled from the spec: the constant `CRL_REASON_AA_COMPROMISE` of `openssl/x509v3.h`,
which is not among the sources at hand; `10`, the greatest value of the message of line
2709. -/
def CRL_REASON_AA_COMPROMISE : Int := 10

/-- Modelled from the spec: the constant `OSSL_CMP_PKIFAILUREINFO_MAX` of `openssl/cmp.h`,
which is not among the sources at hand; `26`, the greatest failure index of the help text
of `-failure` (line 484). -/
def OSSL_CMP_PKIFAILUREINFO_MAX : Int := 26

/-- Modelled from the spec: the constant `OSSL_CMP_PKIFAILUREINFO_MAX_BIT_PATTERN` of
`openssl/cmp.h`, which is not among the sources at hand; `2^27 - 1`, the greatest value of
the help text of `-failurebits` (line 486). -/
def OSSL_CMP_PKIFAILUREINFO_MAX_BIT_PATTERN : Int := 2 ^ 27 - 1

/-- The option variables that hold numbers and the status string (cmp.c 81-82, 125, 134,
180-194). -/
structure Options where
  opt_msg_timeout : Int
  opt_total_timeout : Int
  opt_popo : Int
  opt_revreason : Int
  opt_poll_count : Int
  opt_check_after : Int
  opt_grant_implicitconf : Int
  opt_pkistatus : Int
  opt_failure : Int
  opt_failurebits : Int
  opt_statusstring : Option (List Char)
  opt_send_error : Int
  opt_send_unprotected : Int
  opt_send_unprot_err : Int
  opt_accept_unprotected : Int
  opt_accept_unprot_err : Int
  opt_accept_raverified : Int
  deriving DecidableEq

/-- The initial values of the option variables. -/
def default_options : Options :=
  { opt_msg_timeout := -1, opt_total_timeout := -1,
    opt_popo := OSSL_CRMF_POPO_NONE - 1, opt_revreason := CRL_REASON_NONE,
    opt_poll_count := 0, opt_check_after := 1, opt_grant_implicitconf := 0,
    opt_pkistatus := 0, opt_failure := INT_MIN, opt_failurebits := 0,
    opt_statusstring := none, opt_send_error := 0, opt_send_unprotected := 0,
    opt_send_unprot_err := 0, opt_accept_unprotected := 0, opt_accept_unprot_err := 0,
    opt_accept_raverified := 0 }

/-- What the configuration file, in the sections in use, gives for the name of an option:
the result of `conf_get_number_e` (a `long`; `none` when it returns `0`) and of
`conf_get_string`. -/
structure ConfValues where
  number : List Char → Option Int
  text : List Char → Option (List Char)

/-- One round of the loop of `read_config` for an option of type `'-'` or `'n'` that is
neither a provider nor a verification option (lines 2409-2415 and 2464-2474): the new value
of the variable, `none` when `read_config` returns `0`. -/
def read_config_int (conf : ConfValues) (name : List Char) (var : Int) : Option Int :=
  match conf.number name with
  | none => some var
  | some num => if num < INT_MIN ∨ INT_MAX < num then none else some num

/-- One round of the loop of `read_config` for an option of type `'s'` (lines 2423-2429 and
2478-2482): the new value of the variable. -/
def read_config_txt (conf : ConfValues) (name : List Char) (var : Option (List Char)) :
    Option (List Char) :=
  match conf.text name with
  | none => var
  | some txt => if txt = [] then none else some txt

/-- One round of the loop of `read_config` for the `int` variable read by `get` and
written by `set`, after the rounds before it; `none` when `read_config` has returned `0`. -/
def read_config_round (conf : ConfValues) (name : List Char) (get : Options → Int)
    (set : Options → Int → Options) (before : Option Options) : Option Options :=
  match before with
  | none => none
  | some o =>
    match read_config_int conf name (get o) with
    | none => none
    | some v => some (set o v)

/-- The rounds of `read_config` for the variables of `Options`, in the order of the rows of
`cmp_options`; `none` when `read_config` returns `0`. -/
def read_config (conf : ConfValues) (o : Options) : Option Options :=
  some o
  |> read_config_round conf "popo".toList (fun o => o.opt_popo)
      (fun o v => { o with opt_popo := v })
  |> read_config_round conf "revreason".toList (fun o => o.opt_revreason)
      (fun o v => { o with opt_revreason := v })
  |> read_config_round conf "msg_timeout".toList (fun o => o.opt_msg_timeout)
      (fun o v => { o with opt_msg_timeout := v })
  |> read_config_round conf "total_timeout".toList (fun o => o.opt_total_timeout)
      (fun o v => { o with opt_total_timeout := v })
  |> read_config_round conf "poll_count".toList (fun o => o.opt_poll_count)
      (fun o v => { o with opt_poll_count := v })
  |> read_config_round conf "check_after".toList (fun o => o.opt_check_after)
      (fun o v => { o with opt_check_after := v })
  |> read_config_round conf "grant_implicitconf".toList (fun o => o.opt_grant_implicitconf)
      (fun o v => { o with opt_grant_implicitconf := v })
  |> read_config_round conf "pkistatus".toList (fun o => o.opt_pkistatus)
      (fun o v => { o with opt_pkistatus := v })
  |> read_config_round conf "failure".toList (fun o => o.opt_failure)
      (fun o v => { o with opt_failure := v })
  |> read_config_round conf "failurebits".toList (fun o => o.opt_failurebits)
      (fun o v => { o with opt_failurebits := v })
  |> Option.map (fun o =>
      { o with opt_statusstring :=
          read_config_txt conf "statusstring".toList o.opt_statusstring })
  |> read_config_round conf "send_error".toList (fun o => o.opt_send_error)
      (fun o v => { o with opt_send_error := v })
  |> read_config_round conf "send_unprotected".toList (fun o => o.opt_send_unprotected)
      (fun o v => { o with opt_send_unprotected := v })
  |> read_config_round conf "send_unprot_err".toList (fun o => o.opt_send_unprot_err)
      (fun o v => { o with opt_send_unprot_err := v })
  |> read_config_round conf "accept_unprotected".toList (fun o => o.opt_accept_unprotected)
      (fun o v => { o with opt_accept_unprotected := v })
  |> read_config_round conf "accept_unprot_err".toList (fun o => o.opt_accept_unprot_err)
      (fun o v => { o with opt_accept_unprot_err := v })
  |> read_config_round conf "accept_raverified".toList (fun o => o.opt_accept_raverified)
      (fun o v => { o with opt_accept_raverified := v })

/-- What `opt_next` returns for one option of the command line, of those that set a
variable of `Options`.  For an option with a number, `arg` is what `opt_int(opt_arg(), &v)`
makes of the argument: the number stored, `none` when it returns `0`.  `OPT_OTHER` is any
option whose case leaves the variables of `Options` alone. -/
inductive CliOption
  | OPT_ERR
  | OPT_HELP
  | OPT_MSG_TIMEOUT (arg : Option Int)
  | OPT_TOTAL_TIMEOUT (arg : Option Int)
  | OPT_POPO (arg : Option Int)
  | OPT_REVREASON (arg : Option Int)
  | OPT_POLL_COUNT (arg : Option Int)
  | OPT_CHECK_AFTER (arg : Option Int)
  | OPT_GRANT_IMPLICITCONF
  | OPT_PKISTATUS (arg : Option Int)
  | OPT_FAILURE (arg : Option Int)
  | OPT_FAILUREBITS (arg : Option Int)
  | OPT_STATUSSTRING (arg : List Char)
  | OPT_SEND_ERROR
  | OPT_SEND_UNPROTECTED
  | OPT_SEND_UNPROT_ERR
  | OPT_ACCEPT_UNPROTECTED
  | OPT_ACCEPT_UNPROT_ERR
  | OPT_ACCEPT_RAVERIFIED
  | OPT_OTHER
  deriving DecidableEq, Repr

/-- The call `opt_str(opt)`, given the argument `opt_arg()`. -/
def opt_str (arg : List Char) : Option (List Char) :=
  if arg = [] then none else some arg

/-- The call `opt_nat()`, given what `opt_int(opt_arg(), &result)` makes of the argument:
`result` starts as `-1` and is returned whatever its sign. -/
def opt_nat (arg : Option Int) : Int :=
  match arg with
  | some result => result
  | none => -1

/-- The loop of `get_opts` (lines 2521-2860) over the options still to come: the value
`get_opts` would return, were nothing left over on the command line, and the variables. -/
def get_opts_loop : List CliOption → Options → Int × Options
  | [], o => (1, o)
  | CliOption.OPT_ERR :: _, o => (0, o)
  | CliOption.OPT_HELP :: _, o => (-1, o)
  | CliOption.OPT_MSG_TIMEOUT arg :: rest, o =>
    if opt_nat arg < 0 then (0, { o with opt_msg_timeout := opt_nat arg })
    else get_opts_loop rest { o with opt_msg_timeout := opt_nat arg }
  | CliOption.OPT_TOTAL_TIMEOUT arg :: rest, o =>
    if opt_nat arg < 0 then (0, { o with opt_total_timeout := opt_nat arg })
    else get_opts_loop rest { o with opt_total_timeout := opt_nat arg }
  | CliOption.OPT_POPO arg :: rest, o =>
    match arg with
    | none => (0, o)
    | some v =>
      if v < OSSL_CRMF_POPO_NONE ∨ v > OSSL_CRMF_POPO_KEYENC then (0, { o with opt_popo := v })
      else get_opts_loop rest { o with opt_popo := v }
  | CliOption.OPT_REVREASON arg :: rest, o =>
    match arg with
    | none => (0, o)
    | some v =>
      if v < CRL_REASON_NONE ∨ v > CRL_REASON_AA_COMPROMISE ∨ v = 7 then
        (0, { o with opt_revreason := v })
      else get_opts_loop rest { o with opt_revreason := v }
  | CliOption.OPT_POLL_COUNT arg :: rest, o =>
    get_opts_loop rest { o with opt_poll_count := opt_nat arg }
  | CliOption.OPT_CHECK_AFTER arg :: rest, o =>
    get_opts_loop rest { o with opt_check_after := opt_nat arg }
  | CliOption.OPT_GRANT_IMPLICITCONF :: rest, o =>
    get_opts_loop rest { o with opt_grant_implicitconf := 1 }
  | CliOption.OPT_PKISTATUS arg :: rest, o =>
    get_opts_loop rest { o with opt_pkistatus := opt_nat arg }
  | CliOption.OPT_FAILURE arg :: rest, o =>
    get_opts_loop rest { o with opt_failure := opt_nat arg }
  | CliOption.OPT_FAILUREBITS arg :: rest, o =>
    get_opts_loop rest { o with opt_failurebits := opt_nat arg }
  | CliOption.OPT_STATUSSTRING arg :: rest, o =>
    get_opts_loop rest { o with opt_statusstring := opt_str arg }
  | CliOption.OPT_SEND_ERROR :: rest, o => get_opts_loop rest { o with opt_send_error := 1 }
  | CliOption.OPT_SEND_UNPROTECTED :: rest, o =>
    get_opts_loop rest { o with opt_send_unprotected := 1 }
  | CliOption.OPT_SEND_UNPROT_ERR :: rest, o =>
    get_opts_loop rest { o with opt_send_unprot_err := 1 }
  | CliOption.OPT_ACCEPT_UNPROTECTED :: rest, o =>
    get_opts_loop rest { o with opt_accept_unprotected := 1 }
  | CliOption.OPT_ACCEPT_UNPROT_ERR :: rest, o =>
    get_opts_loop rest { o with opt_accept_unprot_err := 1 }
  | CliOption.OPT_ACCEPT_RAVERIFIED :: rest, o =>
    get_opts_loop rest { o with opt_accept_raverified := 1 }
  | CliOption.OPT_OTHER :: rest, o => get_opts_loop rest o

/-- The call `get_opts(argc, argv)`: the options `opt_next` yields one after the other, and
`opt_num_rest()`, the number of arguments left over.  Returns `1` on success, `0` on error,
`-1` on `-help`. -/
def get_opts (argv : List CliOption) (num_rest : Nat) (o : Options) : Int × Options :=
  if (get_opts_loop argv o).1 ≠ 1 then get_opts_loop argv o
  else if num_rest ≠ 0 then (0, (get_opts_loop argv o).2)
  else (1, (get_opts_loop argv o).2)

/-- Option processing in `cmp_main` (lines 2910-2918): `read_config` when a configuration
file is in use, then `get_opts`; `none` when `cmp_main` goes to `err`. -/
def process_options (conf : Option ConfValues) (argv : List CliOption) (num_rest : Nat)
    (o : Options) : Option Options :=
  match (match conf with
         | none => some o
         | some c => read_config c o) with
  | none => none
  | some o1 => if (get_opts argv num_rest o1).1 ≤ 0 then none else some (get_opts argv num_rest o1).2

/-- What `setup_srv_ctx` hands to the mock server in lines 1446-1482: the arguments of
`ossl_cmp_mock_srv_set_pollCount`, `ossl_cmp_mock_srv_set_checkAfterTime` and
`ossl_cmp_mock_srv_set_statusInfo`, and for each switch whether its setter is called. -/
structure MockServer where
  pollCount : Int
  checkAfterTime : Int
  grant_implicit_confirm : Bool
  pkistatus : Int
  failurebits : Int
  statusstring : Option (List Char)
  send_error : Bool
  send_unprotected : Bool
  send_unprotected_errors : Bool
  accept_unprotected : Bool
  accept_unprotected_errors : Bool
  accept_raverified : Bool
  deriving DecidableEq

/-- The library calls behind `setup_srv_ctx`: whether lines 1335-1445 (the new server
context, its credentials, trust store and certificates) get through without `goto err`, and
whether `ossl_cmp_mock_srv_set_statusInfo` accepts its arguments. -/
structure SrvEnv where
  credentials_ok : Bool
  set_statusInfo_ok : Int → Int → Option (List Char) → Bool

/-- The call `setup_srv_ctx(e)`: `none` is `NULL`. -/
def setup_srv_ctx (env : SrvEnv) (o : Options) : Option MockServer :=
  if env.credentials_ok = false then none
  else if o.opt_failure ≠ INT_MIN
      ∧ (o.opt_failure < 0 ∨ OSSL_CMP_PKIFAILUREINFO_MAX < o.opt_failure) then none
  else
    let opt_failurebits : Int :=
      if o.opt_failure ≠ INT_MIN ∧ o.opt_failurebits = 0 then 2 ^ o.opt_failure.toNat
      else o.opt_failurebits
    if opt_failurebits % 2 ^ 32 > OSSL_CMP_PKIFAILUREINFO_MAX_BIT_PATTERN then none
    else if env.set_statusInfo_ok o.opt_pkistatus opt_failurebits o.opt_statusstring = false
      then none
    else
      some
        { pollCount := o.opt_poll_count, checkAfterTime := o.opt_check_after,
          grant_implicit_confirm := decide (o.opt_grant_implicitconf ≠ 0),
          pkistatus := o.opt_pkistatus, failurebits := opt_failurebits,
          statusstring := o.opt_statusstring,
          send_error := decide (o.opt_send_error ≠ 0),
          send_unprotected := decide (o.opt_send_unprotected ≠ 0),
          send_unprotected_errors := decide (o.opt_send_unprot_err ≠ 0),
          accept_unprotected := decide (o.opt_accept_unprotected ≠ 0),
          accept_unprotected_errors := decide (o.opt_accept_unprot_err ≠ 0),
          accept_raverified := decide (o.opt_accept_raverified ≠ 0) }

/-- A world in which every step of `setup_srv_ctx` that is left to the library
succeeds. -/
def willing_srv_env : SrvEnv where
  credentials_ok := true
  set_statusInfo_ok := fun _ _ _ => true

/-- The library calls behind `setup_request_ctx`: whether lines 1858-1960 (names, keys,
subject alternative names, policies) and lines 1965-1994 (CSR, old certificate) get through
without `goto err`. -/
structure RequestEnv where
  names_keys_policies_ok : Bool
  csr_oldcert_ok : Bool

/-- The options of `OSSL_CMP_CTX_set_option` set in lines 1962-1963 and 1996-1998. -/
inductive CtxOption
  | OSSL_CMP_OPT_POPO_METHOD
  | OSSL_CMP_OPT_REVOCATION_REASON
  deriving DecidableEq, Repr

/-- The call `setup_request_ctx(ctx, e)`: return value and the calls
`OSSL_CMP_CTX_set_option(ctx, opt, val)` of lines 1962-1963 and 1996-1998, whose results
are discarded. -/
def setup_request_ctx (env : RequestEnv) (o : Options) : Int × List (CtxOption × Int) :=
  if env.names_keys_policies_ok = false then (0, [])
  else
    let popo : List (CtxOption × Int) :=
      if o.opt_popo ≥ OSSL_CRMF_POPO_NONE then [(CtxOption.OSSL_CMP_OPT_POPO_METHOD, o.opt_popo)]
      else []
    if env.csr_oldcert_ok = false then (0, popo)
    else if o.opt_revreason > CRL_REASON_NONE then
      (1, popo ++ [(CtxOption.OSSL_CMP_OPT_REVOCATION_REASON, o.opt_revreason)])
    else (1, popo)

/-- A world in which every step of `setup_request_ctx` that is left to the library
succeeds. -/
def willing_request_env : RequestEnv where
  names_keys_policies_ok := true
  csr_oldcert_ok := true

/-- A configuration file that gives `popo = 5` and `revreason = 7` and nothing else. -/
def odd_conf : ConfValues where
  number := fun name =>
    if name = "popo".toList then some 5
    else if name = "revreason".toList then some 7
    else none
  text := fun _ => none

/-! ## The identity expected of a peer: `truststore_set_host_etc` (cmp.c 898-913) -/

/-- The part of an `X509_VERIFY_PARAM` that `truststore_set_host_etc` touches: the expected
host names, the expected IP address (its octets), the expected e-mail address and the host
flags. -/
structure X509_VERIFY_PARAM where
  hosts : List (List Char)
  ip : Option (List Nat)
  email : Option (List Char)
  hostflags : Nat
  deriving DecidableEq, Repr

/-- Modelled from the spec: flag bit "always check subject" of `include/openssl/x509v3.h`,
not among the sources at hand. -/
def X509_CHECK_FLAG_ALWAYS_CHECK_SUBJECT : Nat := 1

/-- Modelled from the spec: flag bit "no partial wildcards" of `include/openssl/x509v3.h`,
not among the sources at hand. -/
def X509_CHECK_FLAG_NO_PARTIAL_WILDCARDS : Nat := 4

/-- The library calls behind `truststore_set_host_etc` whose outcome depends on the
argument. -/
structure VpmEnv where
  /-- the octets that `X509_VERIFY_PARAM_set1_ip_asc(vpm, host)` records when it returns
  `1`, which it does when `host` is the text of an IP address; `none` when it returns `0` -/
  set1_ip_asc : List Char → Option (List Nat)
  /-- does `X509_VERIFY_PARAM_set1_host(vpm, name, 0)` with a name that is not empty
  succeed? -/
  set1_host_ok : List Char → Bool

/-- Modelled from the spec: `X509_VERIFY_PARAM_set1_host(vpm, name, 0)` (crypto/x509, not
among the sources at hand) drops the expected host names and, given a name that is not
empty, records it as the only one; given `NULL` or the empty name it records none and
returns `1`.  Return value and parameters afterwards. -/
def X509_VERIFY_PARAM_set1_host (env : VpmEnv) (vpm : X509_VERIFY_PARAM)
    (name : Option (List Char)) : Int × X509_VERIFY_PARAM :=
  match name with
  | none => (1, { vpm with hosts := [] })
  | some n =>
    if n = [] then (1, { vpm with hosts := [] })
    else if env.set1_host_ok n = true then (1, { vpm with hosts := [n] })
    else (0, { vpm with hosts := [] })

/-- Modelled from the spec: `X509_VERIFY_PARAM_set1_ip(vpm, NULL, 0)` (crypto/x509, not
among the sources at hand) drops the expected IP address. -/
def X509_VERIFY_PARAM_set1_ip_null (vpm : X509_VERIFY_PARAM) : Int × X509_VERIFY_PARAM :=
  (1, { vpm with ip := none })

/-- Modelled from the spec: `X509_VERIFY_PARAM_set1_email(vpm, NULL, 0)` (crypto/x509, not
among the sources at hand) drops the expected e-mail address. -/
def X509_VERIFY_PARAM_set1_email_null (vpm : X509_VERIFY_PARAM) : Int × X509_VERIFY_PARAM :=
  (1, { vpm with email := none })

/-- Modelled from the spec: `X509_VERIFY_PARAM_set_hostflags(vpm, flags)` (crypto/x509, not
among the sources at hand) replaces the host flags. -/
def X509_VERIFY_PARAM_set_hostflags (vpm : X509_VERIFY_PARAM) (flags : Nat) :
    X509_VERIFY_PARAM :=
  { vpm with hostflags := flags }

/-- Modelled from the spec: `X509_VERIFY_PARAM_set1_ip_asc(vpm, ipasc)` (crypto/x509, not
among the sources at hand) records the address that the text stands for and returns `1`,
or returns `0` and leaves the parameters alone when the text is no IP address. -/
def X509_VERIFY_PARAM_set1_ip_asc (env : VpmEnv) (vpm : X509_VERIFY_PARAM)
    (ipasc : List Char) : Int × X509_VERIFY_PARAM :=
  match env.set1_ip_asc ipasc with
  | some octets => (1, { vpm with ip := some octets })
  | none => (0, vpm)

/-- The call `truststore_set_host_etc(ts, host)`: return value and the verification
parameters of the store `ts` afterwards, given those before. -/
def truststore_set_host_etc (env : VpmEnv) (ts_vpm : X509_VERIFY_PARAM)
    (host : Option (List Char)) : Int × X509_VERIFY_PARAM :=
  let r1 := X509_VERIFY_PARAM_set1_host env ts_vpm none
  if r1.1 = 0 then (0, r1.2)
  else
    let r2 := X509_VERIFY_PARAM_set1_ip_null r1.2
    if r2.1 = 0 then (0, r2.2)
    else
      let r3 := X509_VERIFY_PARAM_set1_email_null r2.2
      if r3.1 = 0 then (0, r3.2)
      else
        let v4 := X509_VERIFY_PARAM_set_hostflags r3.2
          (X509_CHECK_FLAG_ALWAYS_CHECK_SUBJECT ||| X509_CHECK_FLAG_NO_PARTIAL_WILDCARDS)
        let r5 : Int × X509_VERIFY_PARAM :=
          match host with
          | none => (0, v4)
          | some h => X509_VERIFY_PARAM_set1_ip_asc env v4 h
        if r5.1 ≠ 0 then (1, r5.2)
        else
          let r6 := X509_VERIFY_PARAM_set1_host env r5.2 host
          (if r6.1 ≠ 0 then 1 else 0, r6.2)

/-- A world in which `192.0.2.1` is the only text of an IP address and every host name but
`bad` can be recorded (the empty name is never recorded). -/
def one_address_env : VpmEnv where
  set1_ip_asc := fun h => if h = "192.0.2.1".toList then some [192, 0, 2, 1] else none
  set1_host_ok := fun n => decide (n ≠ "bad".toList)

/-- Verification parameters left over from an earlier purpose. -/
def used_vpm : X509_VERIFY_PARAM :=
  { hosts := ["old.example".toList], ip := some [10, 0, 0, 1],
    email := some "ca@old.example".toList, hostflags := 0 }

/-! ## Protection of the requests: `setup_certs`, `setup_protection_ctx`
(cmp.c 1248-1271, 1731-1848) and what follows it (cmp.c 2215-2226, 3033-3037) -/

/-- A private key as loaded, as a number. -/
abbrev EVP_PKEY := Nat

/-- The option variables that `setup_protection_ctx` reads; `none` is `NULL`. -/
structure ProtectionOptions where
  opt_unprotected_requests : Int
  opt_secret : Option (List Char)
  opt_cert : Option (List Char)
  opt_key : Option (List Char)
  opt_keypass : Option (List Char)
  opt_ref : Option (List Char)
  opt_subject : Option (List Char)
  opt_srvcert : Option (List Char)
  opt_trusted : Option (List Char)
  opt_extracerts : Option (List Char)
  opt_otherpass : Option (List Char)
  opt_digest : Option (List Char)
  opt_mac : Option (List Char)
  opt_certsform : Format

/-- The options of `OSSL_CMP_CTX_set_option` set by `setup_protection_ctx`. -/
inductive ProtectionCtxOption
  | OSSL_CMP_OPT_UNPROTECTED_SEND
  | OSSL_CMP_OPT_DIGEST_ALGNID
  | OSSL_CMP_OPT_OWF_ALGNID
  | OSSL_CMP_OPT_MAC_ALGNID
  deriving DecidableEq, Repr

/-- What `setup_protection_ctx` does outside itself: the passwords it fetches, the files
it loads keys and certificates from, and what it sets in the CMP context. -/
inductive ProtectionEvent
  | get_passwd (source : Option (List Char))
  | OSSL_CMP_CTX_set1_secretValue (secret : List Char)
  | OSSL_CMP_CTX_set1_referenceValue (ref : List Char)
  | load_key (file : List Char)
  | OSSL_CMP_CTX_set1_pkey (pkey : EVP_PKEY)
  | load_certs_autofmt (file : List Char)
  | OSSL_CMP_CTX_set1_cert (cert : X509)
  | add_untrusted_certs (certs : List X509)
  | load_certs_multifile (files : List Char)
  | OSSL_CMP_CTX_set1_extraCertsOut (certs : List X509)
  | OSSL_CMP_CTX_set_option (opt : ProtectionCtxOption) (val : Int)
  deriving DecidableEq, Repr

/-- The library calls behind `setup_protection_ctx`. -/
structure ProtectionEnv where
  /-- the calls behind the loaders of certificates -/
  certs : CertsEnv
  /-- does `OSSL_CMP_CTX_set1_secretValue` succeed? -/
  set1_secretValue_ok : List Char → Bool
  /-- does `OSSL_CMP_CTX_set1_referenceValue` succeed? -/
  set1_referenceValue_ok : List Char → Bool
  /-- result of `load_key(uri, format, 0, pass_string, e, desc)` of the apps library -/
  load_key : List Char → Option (List Char) → Option EVP_PKEY
  /-- does `OSSL_CMP_CTX_set1_pkey` succeed? -/
  set1_pkey_ok : EVP_PKEY → Bool
  /-- does `OSSL_CMP_CTX_set1_cert` succeed? -/
  set1_cert_ok : X509 → Bool
  /-- result of `OSSL_CMP_CTX_get0_untrusted_certs(ctx)` -/
  get0_untrusted_certs : Option (List X509)
  /-- does `OSSL_CMP_CTX_set1_untrusted_certs` succeed? -/
  set1_untrusted_certs_ok : Option (List X509) → Bool
  /-- does `OSSL_CMP_CTX_set1_extraCertsOut` succeed? -/
  set1_extraCertsOut_ok : List X509 → Bool
  /-- result of `OBJ_ln2nid(name)`; `0` is `NID_undef` -/
  OBJ_ln2nid : List Char → Int

/-- The value `NID_undef` of `include/openssl/obj_mac.h`. -/
def NID_undef : Int := 0

/-- The call `load_key_pwd(uri, format, pass, e, desc)` (lines 673-680): the key, and the
calls made. -/
def load_key_pwd (env : ProtectionEnv) (uri : List Char) (pass : Option (List Char)) :
    Option EVP_PKEY × List ProtectionEvent :=
  (env.load_key uri (env.certs.load.get_passwd pass),
   [ProtectionEvent.get_passwd pass, ProtectionEvent.load_key uri])

/-- The call `setup_certs(files, desc, ctx, addn_fn, NULL)` with
`addn_fn = OSSL_CMP_CTX_set1_extraCertsOut`: return value and the calls made.  The outer
`none` means that the rounds of `load_certs_multifile` did not suffice. -/
def setup_certs (env : ProtectionEnv) (opt_certsform : Format) (files : Option (List Char))
    (opt_otherpass : Option (List Char)) : Option (Int × List ProtectionEvent) :=
  match files with
  | none => some (1, [])
  | some f =>
    match load_certs_multifile env.certs opt_certsform (some f) opt_otherpass with
    | none => none
    | some none => some (0, [ProtectionEvent.load_certs_multifile f])
    | some (some certs) =>
      some (if env.set1_extraCertsOut_ok certs = true then 1 else 0,
            [ProtectionEvent.load_certs_multifile f,
             ProtectionEvent.OSSL_CMP_CTX_set1_extraCertsOut certs])

/-- Lines 1753-1768 of `setup_protection_ctx`, the shared secret: `0` for `goto err`, and
the calls made. -/
def protection_secret (env : ProtectionEnv) (o : ProtectionOptions) :
    Int × List ProtectionEvent :=
  match o.opt_secret with
  | none => (1, [])
  | some secret =>
    match env.certs.load.get_passwd (some secret) with
    | none => (1, [ProtectionEvent.get_passwd (some secret)])
    | some pass_string =>
      (if env.set1_secretValue_ok pass_string = true then 1 else 0,
       [ProtectionEvent.get_passwd (some secret),
        ProtectionEvent.OSSL_CMP_CTX_set1_secretValue pass_string])

/-- Lines 1769-1772 of `setup_protection_ctx`, the reference value. -/
def protection_reference (env : ProtectionEnv) (o : ProtectionOptions) :
    Int × List ProtectionEvent :=
  match o.opt_ref with
  | none => (1, [])
  | some ref =>
    (if env.set1_referenceValue_ok ref = true then 1 else 0,
     [ProtectionEvent.OSSL_CMP_CTX_set1_referenceValue ref])

/-- Lines 1774-1784 of `setup_protection_ctx`, the private key. -/
def protection_key (env : ProtectionEnv) (o : ProtectionOptions) :
    Int × List ProtectionEvent :=
  match o.opt_key with
  | none => (1, [])
  | some key =>
    match (load_key_pwd env key o.opt_keypass).1 with
    | none => (0, (load_key_pwd env key o.opt_keypass).2)
    | some pkey =>
      (if env.set1_pkey_ok pkey = true then 1 else 0,
       (load_key_pwd env key o.opt_keypass).2 ++ [ProtectionEvent.OSSL_CMP_CTX_set1_pkey pkey])

/-- Lines 1790-1820 of `setup_protection_ctx`, the client certificate and the
certificates that come with it. -/
def protection_cert (env : ProtectionEnv) (o : ProtectionOptions) :
    Int × List ProtectionEvent :=
  match o.opt_cert with
  | none => (1, [])
  | some file =>
    let loaded := load_certs_autofmt env.certs.load o.opt_certsform file none 0 o.opt_keypass
    if loaded.ret = 0 then (0, [ProtectionEvent.load_certs_autofmt file])
    else
      match loaded.certs with
      | none => (0, [ProtectionEvent.load_certs_autofmt file])
      | some [] => (0, [ProtectionEvent.load_certs_autofmt file])
      | some (cert :: certs) =>
        if env.set1_cert_ok cert = false then
          (0, [ProtectionEvent.load_certs_autofmt file,
               ProtectionEvent.OSSL_CMP_CTX_set1_cert cert])
        else
          let ok : Int :=
            match env.get0_untrusted_certs with
            | some untrusted =>
              (sk_X509_add1_certs env.certs (some untrusted) (some certs) 0 1 0).1
            | none => if env.set1_untrusted_certs_ok (some certs) = true then 1 else 0
          (if ok ≠ 0 then 1 else 0,
           [ProtectionEvent.load_certs_autofmt file,
            ProtectionEvent.OSSL_CMP_CTX_set1_cert cert,
            ProtectionEvent.add_untrusted_certs certs])

/-- Lines 1828-1846 of `setup_protection_ctx`, the options of the context. -/
def protection_algorithms (env : ProtectionEnv) (o : ProtectionOptions) :
    Int × List ProtectionEvent :=
  let unprotected : List ProtectionEvent :=
    if o.opt_unprotected_requests ≠ 0 then
      [ProtectionEvent.OSSL_CMP_CTX_set_option
        ProtectionCtxOption.OSSL_CMP_OPT_UNPROTECTED_SEND 1]
    else []
  let digest : Int × List ProtectionEvent :=
    match o.opt_digest with
    | none => (1, [])
    | some name =>
      if env.OBJ_ln2nid name = NID_undef then (0, [])
      else
        (1, [ProtectionEvent.OSSL_CMP_CTX_set_option
               ProtectionCtxOption.OSSL_CMP_OPT_DIGEST_ALGNID (env.OBJ_ln2nid name),
             ProtectionEvent.OSSL_CMP_CTX_set_option
               ProtectionCtxOption.OSSL_CMP_OPT_OWF_ALGNID (env.OBJ_ln2nid name)])
  if digest.1 = 0 then (0, unprotected)
  else
    match o.opt_mac with
    | none => (1, unprotected ++ digest.2)
    | some name =>
      if env.OBJ_ln2nid name = NID_undef then (0, unprotected ++ digest.2)
      else
        (1, unprotected ++ digest.2 ++
          [ProtectionEvent.OSSL_CMP_CTX_set_option
            ProtectionCtxOption.OSSL_CMP_OPT_MAC_ALGNID (env.OBJ_ln2nid name)])

/-- The call `setup_protection_ctx(ctx, e)`: return value and the calls made, in order.
The outer `none` means that the rounds of `load_certs_multifile` did not suffice. -/
def setup_protection_ctx (env : ProtectionEnv) (o : ProtectionOptions) :
    Option (Int × List ProtectionEvent) :=
  if o.opt_unprotected_requests = 0 ∧ o.opt_secret = none ∧ o.opt_cert = none then
    some (0, [])
  else if o.opt_ref = none ∧ o.opt_cert = none ∧ o.opt_subject = none then some (0, [])
  else if o.opt_secret = none ∧ o.opt_cert.isNone ≠ o.opt_key.isNone then some (0, [])
  else
    let secret := protection_secret env o
    if secret.1 = 0 then some (0, secret.2)
    else
      let reference := protection_reference env o
      if reference.1 = 0 then some (0, secret.2 ++ reference.2)
      else
        let key := protection_key env o
        if key.1 = 0 then some (0, secret.2 ++ reference.2 ++ key.2)
        else if o.opt_secret = none ∧ o.opt_srvcert = none ∧ o.opt_trusted = none then
          some (0, secret.2 ++ reference.2 ++ key.2)
        else
          let cert := protection_cert env o
          if cert.1 = 0 then some (0, secret.2 ++ reference.2 ++ key.2 ++ cert.2)
          else
            match setup_certs env o.opt_certsform o.opt_extracerts o.opt_otherpass with
            | none => none
            | some extra =>
              if extra.1 = 0 then
                some (0, secret.2 ++ reference.2 ++ key.2 ++ cert.2 ++ extra.2)
              else
                let algorithms := protection_algorithms env o
                some (algorithms.1,
                  secret.2 ++ reference.2 ++ key.2 ++ cert.2 ++ extra.2 ++ algorithms.2)

/-- Whether a call of `setup_protection_ctx` fetches a password or loads a key or
certificates. -/
def ProtectionEvent.is_load : ProtectionEvent → Bool
  | ProtectionEvent.get_passwd _ => true
  | ProtectionEvent.load_key _ => true
  | ProtectionEvent.load_certs_autofmt _ => true
  | ProtectionEvent.load_certs_multifile _ => true
  | _ => false

/-- What the client part of `cmp_main` needs to know of the rest of `setup_client_ctx` and
of the sessions. -/
structure ClientEnv where
  /-- the calls behind `setup_protection_ctx` -/
  protection : ProtectionEnv
  /-- do lines 2081-2213 of `setup_client_ctx` get through without `goto err`? -/
  before_protection_ok : Bool
  /-- do lines 2218-2226 of `setup_client_ctx` (request context, recipient, expected
  sender, general info) get through without `goto err`? -/
  after_protection_ok : Bool
  /-- does the session of round `i` (lines 3040-3098) succeed? -/
  session_ok : Nat → Bool

/-- The call `setup_client_ctx(ctx, e)` as far as `setup_protection_ctx` is concerned (lines
2081-2234): return value and the calls made by `setup_protection_ctx`. -/
def setup_client_ctx (env : ClientEnv) (o : ProtectionOptions) :
    Option (Int × List ProtectionEvent) :=
  if env.before_protection_ok = false then some (0, [])
  else
    match setup_protection_ctx env.protection o with
    | none => none
    | some protection =>
      if protection.1 = 0 then some (0, protection.2)
      else if env.after_protection_ok = false then some (0, protection.2)
      else some (1, protection.2)

/-- The loop of sessions of `cmp_main` (lines 3037-3098) from round `i` on, with `n` rounds
to go: the rounds whose session was started. -/
def cmp_main_sessions (session_ok : Nat → Bool) : Nat → Nat → List Nat
  | 0, _ => []
  | n + 1, i => i :: (if session_ok i = true then cmp_main_sessions session_ok n (i + 1) else [])

/-- The client part of `cmp_main` from line 3033 on: the rounds whose session (a
transaction with the server) was started. -/
def cmp_main_client (env : ClientEnv) (o : ProtectionOptions) (opt_repeat : Int) :
    Option (List Nat) :=
  match setup_client_ctx env o with
  | none => none
  | some setup =>
    if setup.1 = 0 then some []
    else some (cmp_main_sessions env.session_ok opt_repeat.toNat 0)

/-- A world in which every library call behind the client succeeds; the file `cl.pem`
holds the certificates `7` and `8`, the file `cl.key` the key `5`. -/
def willing_client_env : ClientEnv where
  protection :=
    { certs :=
        { three_files_env with
          load :=
            { three_files_env.load with
              load_certs := fun file _ format _ =>
                if format = FORMAT_PEM ∧ file = "cl.pem".toList then (1, some [7, 8])
                else (0, none) } }
      set1_secretValue_ok := fun _ => true
      set1_referenceValue_ok := fun _ => true
      load_key := fun file _ => if file = "cl.key".toList then some 5 else none
      set1_pkey_ok := fun _ => true
      set1_cert_ok := fun _ => true
      get0_untrusted_certs := some []
      set1_untrusted_certs_ok := fun _ => true
      set1_extraCertsOut_ok := fun _ => true
      OBJ_ln2nid := fun _ => 1 }
  before_protection_ok := true
  after_protection_ok := true
  session_ok := fun _ => true

/-- Options with nothing given but a reference value and a trust anchor. -/
def bare_protection_options : ProtectionOptions :=
  { opt_unprotected_requests := 0, opt_secret := none, opt_cert := none, opt_key := none,
    opt_keypass := none, opt_ref := some "ref".toList, opt_subject := none,
    opt_srvcert := none, opt_trusted := some "trusted.pem".toList, opt_extracerts := none,
    opt_otherpass := none, opt_digest := none, opt_mac := none, opt_certsform := FORMAT_PEM }

/-! ## Numbers and addresses: `atoint`, `parse_addr` (cmp.c 1061-1102) -/

/-- The function `isdigit` of `<ctype.h>`. -/
def isdigit (c : Char) : Bool := 48 ≤ c.toNat && c.toNat ≤ 57

/-- The least `long`, of 64 bits. -/
def LONG_MIN : Int := -9223372036854775808

/-- The greatest `long`, of 64 bits. -/
def LONG_MAX : Int := 9223372036854775807

/-- The digits loop of `strtol` in base 10: the number that the leading digits add to `acc`,
and the text after them. -/
def strtol_digits : List Char → Nat → Nat × List Char
  | [], acc => (acc, [])
  | c :: cs, acc =>
    if isdigit c = true then strtol_digits cs (10 * acc + (c.toNat - 48)) else (acc, c :: cs)

/-- The call `strtol(str, &tailptr, 10)` of `<stdlib.h>`, for a `long` of 64 bits: the result
and the text at `tailptr`.  White space is skipped, then an optional sign is read, then the
digits; a number out of range is replaced by `LONG_MIN` or `LONG_MAX`; when no digit is
found the result is `0` and `tailptr` is `str`. -/
def strtol (str : List Char) : Int × List Char :=
  let start := str.dropWhile isspace
  let negative : Bool :=
    match start with
    | '-' :: _ => true
    | _ => false
  let digits : List Char :=
    match start with
    | '-' :: r => r
    | '+' :: r => r
    | _ => start
  match digits with
  | [] => (0, str)
  | d :: _ =>
    if isdigit d = false then (0, str)
    else
      let number : Int :=
        if negative = true then -((strtol_digits digits 0).1 : Int)
        else ((strtol_digits digits 0).1 : Int)
      (if number < LONG_MIN then LONG_MIN else if number > LONG_MAX then LONG_MAX else number,
       (strtol_digits digits 0).2)

/-- The call `atoint(str)`. -/
def atoint (str : List Char) : Int :=
  let res := (strtol str).1
  let tailptr := (strtol str).2
  if tailptr ≠ [] ∨ res < INT_MIN ∨ res > INT_MAX then INT_MIN else res

/-- Modelled from the spec: the constant `OSSL_HTTP_PREFIX` of `openssl/http.h`, which is
not among the sources at hand. -/
def OSSL_HTTP_PREFIX : List Char := "http://".toList

/-- Modelled from the spec: the constant `OSSL_HTTPS_PREFIX` of `openssl/http.h`, which is
not among the sources at hand. -/
def OSSL_HTTPS_PREFIX : List Char := "https://".toList

/-- The call `strrchr(s, c)` of `<string.h>` for a character `c` other than NUL: the offset
of the last `c` in `s`, `none` for `NULL`. -/
def strrchr : List Char → Char → Option Nat
  | [], _ => none
  | x :: xs, c =>
    match strrchr xs c with
    | some k => some (k + 1)
    | none => if x = c then some 0 else none

/-- The call `parse_addr(&opt_string, port, name)`: return value and `*opt_string`
afterwards. -/
def parse_addr (opt_string : List Char) (port : Int) : Int × List Char :=
  let stripped : List Char × Int :=
    if strncasecmp opt_string OSSL_HTTP_PREFIX OSSL_HTTP_PREFIX.length = 0 then
      (opt_string.drop OSSL_HTTP_PREFIX.length, port)
    else if strncasecmp opt_string OSSL_HTTPS_PREFIX OSSL_HTTPS_PREFIX.length = 0 then
      (opt_string.drop OSSL_HTTPS_PREFIX.length, if port = 0 then 443 else port)
    else (opt_string, port)
  match strrchr stripped.1 ':' with
  | none => (stripped.2, stripped.1)
  | some k =>
    let port := atoint (stripped.1.drop (k + 1))
    if port ≤ 0 ∨ port > 65535 then (-1, stripped.1.take k) else (port, stripped.1.take k)

/-! ### Reference for numbers and addresses, written from the specification -/

/-- A well-formed decimal integer as `strtol` takes it: optional white space, an optional
sign, then one or more digits and nothing else. -/
def is_decimal_integer (s : List Char) : Bool :=
  let t := s.dropWhile isspace
  let u :=
    match t with
    | '-' :: r => r
    | '+' :: r => r
    | _ => t
  !u.isEmpty && u.all isdigit

/-- The number that a string of digits stands for. -/
def digits_value (u : List Char) : Nat := u.foldl (fun acc c => 10 * acc + (c.toNat - 48)) 0

/-- The value of a well-formed decimal integer. -/
def decimal_value (s : List Char) : Int :=
  match s.dropWhile isspace with
  | '-' :: r => -(digits_value r : Int)
  | '+' :: r => (digits_value r : Int)
  | t => (digits_value t : Int)

/-- The server string without a leading `http://` or `https://`, ignoring case. -/
def address_and_port (server : List Char) : List Char :=
  if starts_with_ignoring_case "http://".toList server = true then server.drop 7
  else if starts_with_ignoring_case "https://".toList server = true then server.drop 8
  else server

/-- The port to use when the server string names none: the default given, except `443`
when the string starts with `https://` and the default is `0`. -/
def port_by_default (server : List Char) (port : Int) : Int :=
  if starts_with_ignoring_case "https://".toList server = true ∧ port = 0 then 443 else port

/-! ## Sections of the configuration file: `prev_item`, `conf_get_string`
(cmp.c 2312-2352) -/

/-- The constant `SECTION_NAME_MAX` (line 51). -/
def SECTION_NAME_MAX : Nat := 40

/-- The first loop of `prev_item` (lines 2322-2323), on offsets into `opt`: step back from
`beg` while `beg != opt` and `beg[-1]` is neither a comma nor white space. -/
def prev_item_begin (opt : List Char) : Nat → Nat
  | 0 => 0
  | beg + 1 =>
    if opt.getD beg (Char.ofNat 0) = ',' ∨ isspace (opt.getD beg (Char.ofNat 0)) = true then
      beg + 1
    else prev_item_begin opt beg

/-- The last loop of `prev_item` (lines 2334-2335): step back from `beg` while `beg != opt`
and `beg[-1]` is a comma or white space. -/
def prev_item_skip (opt : List Char) : Nat → Nat
  | 0 => 0
  | beg + 1 =>
    if opt.getD beg (Char.ofNat 0) = ',' ∨ isspace (opt.getD beg (Char.ofNat 0)) = true then
      prev_item_skip opt beg
    else beg + 1

/-- What a call of `prev_item` leaves behind when it does not return `NULL`: the pointer
returned (an offset into `opt`), the buffer `opt_item`, and whether the warning of lines
2331-2333 was issued. -/
structure PrevItem where
  ret : Nat
  opt_item : List Char
  warned : Bool
  deriving DecidableEq, Repr

/-- The call `prev_item(opt, end)`, with `end` as an offset into `opt`; `none` is `NULL`. -/
def prev_item (opt : List Char) (end_ : Nat) : Option PrevItem :=
  if end_ = 0 then none
  else
    let beg := prev_item_begin opt end_
    let len := end_ - beg
    let len := if len > SECTION_NAME_MAX then SECTION_NAME_MAX else len
    some
      { ret := prev_item_skip opt beg
        opt_item := (opt.drop beg).take len
        warned := decide (len > SECTION_NAME_MAX) }

/-- The loop of `conf_get_string` (lines 2347-2350), run for at most the given number of
rounds from the offset `end`; `NCONF_get_string` gives the value of a name in a section.
The outer `none` means that the rounds did not suffice; `some none` is the result
`NULL`. -/
def conf_get_string_loop (NCONF_get_string : List Char → List Char → Option (List Char))
    (groups name : List Char) : Nat → Nat → Option (Option (List Char))
  | 0, _ => none
  | k + 1, end_ =>
    match prev_item groups end_ with
    | none => some none
    | some r =>
      match NCONF_get_string r.opt_item name with
      | some res => some (some res)
      | none => conf_get_string_loop NCONF_get_string groups name k r.ret

/-- The call `conf_get_string(src_conf, groups, name)`.  The rounds given to the loop
always suffice: every call of `prev_item` returns an offset below the one it was given. -/
def conf_get_string (NCONF_get_string : List Char → List Char → Option (List Char))
    (groups name : List Char) : Option (Option (List Char)) :=
  conf_get_string_loop NCONF_get_string groups name (groups.length + 1) groups.length

/-- A section name of a `-section` list: not empty, without comma and white space, of at
most `SECTION_NAME_MAX` characters. -/
def is_section_name (n : List Char) : Bool :=
  !n.isEmpty && n.all (fun c => c ≠ ',' && !isspace c) && decide (n.length ≤ SECTION_NAME_MAX)

/-- A run of commas and white space, not empty. -/
def is_separator_run (l : List Char) : Bool :=
  !l.isEmpty && l.all (fun c => c = ',' || isspace c)

/-- The text of the `-section` list of `first` and the names of `more`, each of these
preceded by its separators. -/
def sections_text (first : List Char) (more : List (List Char × List Char)) : List Char :=
  first ++ (more.map (fun p => p.1 ++ p.2)).flatten

/-- All names are section names and all separators are runs of commas and white space. -/
def sections_well_formed (first : List Char) (more : List (List Char × List Char)) : Bool :=
  is_section_name first && more.all (fun p => is_separator_run p.1 && is_section_name p.2)

/-- A configuration file with the sections `cmp` and `ca1`: both define `server`, only
`cmp` defines `path`. -/
def two_sections_conf (sect name : List Char) : Option (List Char) :=
  if sect = "cmp".toList ∧ name = "server".toList then some "a.example".toList
  else if sect = "cmp".toList ∧ name = "path".toList then some "pkix/".toList
  else if sect = "ca1".toList ∧ name = "server".toList then some "b.example".toList
  else none

/-- Modelled from the spec: `NCONF_get_string(conf, group, name)` (crypto/conf, not among
the sources at hand) gives the value that the section `group` of the configuration file
defines for the name and, when that section defines none, the value that the section
`default` defines for it, the fall-back that the message of cmp.c 2897-2898 speaks of;
`none` is `NULL`.  The file is given by what each section itself defines. -/
def NCONF_get_string (conf : List Char → List Char → Option (List Char))
    (group name : List Char) : Option (List Char) :=
  match conf group name with
  | some v => some v
  | none => conf "default".toList name

/-- A configuration file with the sections `default`, `cmp` and `ca1`: `server` is defined
by `default` and `cmp`, `path` by `default` only, `cert` by `ca1` only. -/
def default_section_conf (sect name : List Char) : Option (List Char) :=
  if sect = "default".toList ∧ name = "server".toList then some "d.example".toList
  else if sect = "default".toList ∧ name = "path".toList then some "pkix/".toList
  else if sect = "cmp".toList ∧ name = "server".toList then some "a.example".toList
  else if sect = "ca1".toList ∧ name = "cert".toList then some "cl.pem".toList
  else none

/-! ## Saving certificates and the loop of transactions: `write_cert`, `save_certs`,
`cmp_main` (cmp.c 2244-2293, 3037-3140) -/

/-- What the loop of `cmp_main` does outside itself, with the outcome. -/
inductive MainEvent
  /-- The command of one round has been performed (the `switch` of lines 3039-3083) -/
  | command (ok : Bool)
  /-- A call `BIO_write_filename(bio, destFile)`, which opens the file for writing -/
  | BIO_write_filename (file : List Char) (ok : Bool)
  /-- A call `write_cert(bio, cert)` on the file just opened -/
  | write_cert (file : List Char) (cert : X509) (ok : Bool)
  /-- A call `OSSL_CMP_CTX_reinit(cmp_ctx)` -/
  | OSSL_CMP_CTX_reinit (ok : Bool)
  deriving DecidableEq, Repr

/-- The library calls behind the loop of `cmp_main`.  Every oracle receives the events so
far, so its answers may differ from round to round. -/
structure MainEnv where
  /-- result of `OSSL_CMP_exec_IR_ses`, `..._KUR_ses`, `..._CR_ses`, `..._P10CR_ses`,
  according to the command -/
  exec_ses : List MainEvent → Int → Option X509
  /-- does `OSSL_CMP_exec_RR_ses` return a certificate? -/
  exec_RR_ses_ok : List MainEvent → Bool
  /-- does `OSSL_CMP_ITAV_create` return an ITAV? -/
  ITAV_create_ok : List MainEvent → Bool
  /-- does `OSSL_CMP_exec_GENM_ses` return a stack? -/
  exec_GENM_ses_ok : List MainEvent → Bool
  /-- result of `OSSL_CMP_CTX_get1_caPubs(cmp_ctx)` -/
  get1_caPubs : List MainEvent → Option (List X509)
  /-- result of `OSSL_CMP_CTX_get1_extraCertsIn(cmp_ctx)` -/
  get1_extraCertsIn : List MainEvent → Option (List X509)
  /-- does `sk_X509_new_null()` return a stack? -/
  sk_X509_new_null_ok : List MainEvent → Bool
  /-- does `sk_X509_push` succeed? -/
  sk_X509_push_ok : List MainEvent → Bool
  /-- does `BIO_new(BIO_s_file())` return a BIO? -/
  BIO_new_ok : List MainEvent → Bool
  /-- does `BIO_write_filename(bio, file)` succeed? -/
  BIO_write_filename_ok : List MainEvent → List Char → Bool
  /-- does `PEM_write_bio_X509(bio, cert)` succeed on the open file? -/
  PEM_write_bio_X509_ok : List MainEvent → List Char → X509 → Bool
  /-- does `i2d_X509_bio(bio, cert)` succeed on the open file? -/
  i2d_X509_bio_ok : List MainEvent → List Char → X509 → Bool
  /-- does `OSSL_CMP_CTX_reinit(cmp_ctx)` succeed? -/
  OSSL_CMP_CTX_reinit_ok : List MainEvent → Bool

/-- The call `sk_X509_num(certs)`: `-1` for `NULL`. -/
def sk_X509_num (certs : Option (List X509)) : Int :=
  match certs with
  | none => -1
  | some l => l.length

/-- The call `write_cert(bio, cert)` on the file `file` (lines 2244-2255). -/
def write_cert (env : MainEnv) (opt_certform : Format) (tr : List MainEvent)
    (file : List Char) (cert : X509) : Int :=
  if (opt_certform = FORMAT_PEM ∧ env.PEM_write_bio_X509_ok tr file cert = true)
      ∨ (opt_certform = FORMAT_ASN1 ∧ env.i2d_X509_bio_ok tr file cert = true) then 1
  else 0

/-- The loop of `save_certs` (lines 2281-2287) over the certificates still to write:
whether it ran to its end, and the events afterwards. -/
def save_certs_loop (env : MainEnv) (opt_certform : Format) (file : List Char) :
    List X509 → List MainEvent → Bool × List MainEvent
  | [], tr => (true, tr)
  | cert :: rest, tr =>
    if write_cert env opt_certform tr file cert = 0 then
      (false, tr ++ [MainEvent.write_cert file cert false])
    else
      save_certs_loop env opt_certform file rest (tr ++ [MainEvent.write_cert file cert true])

/-- The call `save_certs(ctx, certs, destFile, desc)`: return value and the events
afterwards. -/
def save_certs (env : MainEnv) (opt_certform : Format) (tr : List MainEvent)
    (certs : Option (List X509)) (destFile : Option (List Char)) : Int × List MainEvent :=
  let n := sk_X509_num certs
  match destFile with
  | none => (-1, tr)
  | some file =>
    if env.BIO_new_ok tr = false then (-1, tr)
    else if env.BIO_write_filename_ok tr file = false then
      (-1, tr ++ [MainEvent.BIO_write_filename file false])
    else
      let written := save_certs_loop env opt_certform file (certs.getD [])
        (tr ++ [MainEvent.BIO_write_filename file true])
      (if written.1 = true then n else -1, written.2)

/-- The enumerators of `cmp_cmd_t` (lines 64-71). -/
def CMP_IR : Int := 0

/-- See `CMP_IR`. -/
def CMP_KUR : Int := 1

/-- See `CMP_IR`. -/
def CMP_CR : Int := 2

/-- See `CMP_IR`. -/
def CMP_P10CR : Int := 3

/-- See `CMP_IR`. -/
def CMP_RR : Int := 4

/-- See `CMP_IR`. -/
def CMP_GENM : Int := 5

/-- The option variables that the loop of `cmp_main` reads. -/
structure MainOptions where
  opt_cmd : Int
  opt_infotype : Int
  opt_cacertsout : Option (List Char)
  opt_extracertsout : Option (List Char)
  opt_certout : Option (List Char)
  opt_certform : Format
  opt_repeat : Int

/-- The `switch` of lines 3039-3083: `0` for `goto err`, and `newcert` afterwards. -/
def perform_command (env : MainEnv) (o : MainOptions) (tr : List MainEvent)
    (newcert : Option X509) : Int × Option X509 :=
  if o.opt_cmd = CMP_IR ∨ o.opt_cmd = CMP_KUR ∨ o.opt_cmd = CMP_CR ∨ o.opt_cmd = CMP_P10CR then
    match env.exec_ses tr o.opt_cmd with
    | none => (0, none)
    | some cert => (1, some cert)
  else if o.opt_cmd = CMP_RR then
    (if env.exec_RR_ses_ok tr = true then 1 else 0, newcert)
  else if o.opt_cmd = CMP_GENM then
    if o.opt_infotype ≠ NID_undef ∧ env.ITAV_create_ok tr = false then (0, newcert)
    else (if env.exec_GENM_ses_ok tr = true then 1 else 0, newcert)
  else (1, newcert)

/-- Lines 3104-3113, the CA certificates: `0` for `goto err`, and the events afterwards. -/
def save_cacerts (env : MainEnv) (o : MainOptions) (tr : List MainEvent) :
    Int × List MainEvent :=
  match o.opt_cacertsout with
  | none => (1, tr)
  | some file =>
    if sk_X509_num (env.get1_caPubs tr) > 0 then
      if (save_certs env o.opt_certform tr (env.get1_caPubs tr) (some file)).1 < 0 then
        (0, (save_certs env o.opt_certform tr (env.get1_caPubs tr) (some file)).2)
      else (1, (save_certs env o.opt_certform tr (env.get1_caPubs tr) (some file)).2)
    else (1, tr)

/-- Lines 3115-3124, the extra certificates. -/
def save_extracerts (env : MainEnv) (o : MainOptions) (tr : List MainEvent) :
    Int × List MainEvent :=
  match o.opt_extracertsout with
  | none => (1, tr)
  | some file =>
    if sk_X509_num (env.get1_extraCertsIn tr) > 0 then
      if (save_certs env o.opt_certform tr (env.get1_extraCertsIn tr) (some file)).1 < 0 then
        (0, (save_certs env o.opt_certform tr (env.get1_extraCertsIn tr) (some file)).2)
      else (1, (save_certs env o.opt_certform tr (env.get1_extraCertsIn tr) (some file)).2)
    else (1, tr)

/-- Lines 3126-3136, the new certificate. -/
def save_newcert (env : MainEnv) (o : MainOptions) (newcert : Option X509)
    (tr : List MainEvent) : Int × List MainEvent :=
  match o.opt_certout, newcert with
  | some file, some cert =>
    if env.sk_X509_new_null_ok tr = false then (0, tr)
    else if env.sk_X509_push_ok tr = false then (0, tr)
    else if (save_certs env o.opt_certform tr (some [cert]) (some file)).1 < 0 then
      (0, (save_certs env o.opt_certform tr (some [cert]) (some file)).2)
    else (1, (save_certs env o.opt_certform tr (some [cert]) (some file)).2)
  | _, _ => (1, tr)

/-- The state of the loop of `cmp_main` after a round: `ret` is `0` when the round left by
`goto err`. -/
structure MainState where
  ret : Int
  newcert : Option X509
  trace : List MainEvent
  deriving DecidableEq, Repr

/-- One round of the loop of `cmp_main` (lines 3038-3139). -/
def cmp_main_round (env : MainEnv) (o : MainOptions) (newcert : Option X509)
    (tr : List MainEvent) : MainState :=
  let cmd := perform_command env o tr newcert
  let tr1 := tr ++ [MainEvent.command (decide (cmd.1 ≠ 0))]
  if cmd.1 = 0 then ⟨0, cmd.2, tr1⟩
  else
    let ca := save_cacerts env o tr1
    if ca.1 = 0 then ⟨0, cmd.2, ca.2⟩
    else
      let extra := save_extracerts env o ca.2
      if extra.1 = 0 then ⟨0, cmd.2, extra.2⟩
      else
        let own := save_newcert env o cmd.2 extra.2
        if own.1 = 0 then ⟨0, cmd.2, own.2⟩
        else if env.OSSL_CMP_CTX_reinit_ok own.2 = false then
          ⟨0, cmd.2, own.2 ++ [MainEvent.OSSL_CMP_CTX_reinit false]⟩
        else ⟨1, cmd.2, own.2 ++ [MainEvent.OSSL_CMP_CTX_reinit true]⟩

/-- The number of rounds begun: the commands performed. -/
def transactions_started (tr : List MainEvent) : Nat :=
  tr.countP (fun ev =>
    match ev with
    | MainEvent.command _ => true
    | _ => false)

/-- A world in which round `j` enrols the certificate `100 + j` and the server sends the CA
certificates `1` and `2`; every file can be opened but `ro.pem`, and every certificate can
be written but to `full.pem`; the session of the third round fails. -/
def three_rounds_env : MainEnv where
  exec_ses := fun tr _ =>
    if transactions_started tr = 2 then none else some (100 + transactions_started tr)
  exec_RR_ses_ok := fun _ => true
  ITAV_create_ok := fun _ => true
  exec_GENM_ses_ok := fun _ => true
  get1_caPubs := fun _ => some [1, 2]
  get1_extraCertsIn := fun _ => some []
  sk_X509_new_null_ok := fun _ => true
  sk_X509_push_ok := fun _ => true
  BIO_new_ok := fun _ => true
  BIO_write_filename_ok := fun _ file => decide (file ≠ "ro.pem".toList)
  PEM_write_bio_X509_ok := fun _ file _ => decide (file ≠ "full.pem".toList)
  i2d_X509_bio_ok := fun _ file _ => decide (file ≠ "full.pem".toList)
  OSSL_CMP_CTX_reinit_ok := fun _ => true

/-- The options `-cmd ir -certout new.pem -cacertsout ca.pem -extracertsout extra.pem
-repeat 3`. -/
def three_rounds_options : MainOptions :=
  { opt_cmd := CMP_IR, opt_infotype := NID_undef, opt_cacertsout := some "ca.pem".toList,
    opt_extracertsout := some "extra.pem".toList, opt_certout := some "new.pem".toList,
    opt_certform := FORMAT_PEM, opt_repeat := 3 }

/-! ## The tables of options and of variables: `cmp_options`, `cmp_vars`, and the index of
`read_config` (cmp.c 197-571, 2390-2406) -/

/-- A row of `cmp_options`, by what `read_config` makes of it: a section header (its name is
`OPT_SECTION_STR`), a continuation of a help text (its name is `OPT_MORE_STR`), a provider
option or a verification option (by its `retval`), or a plain option with its name and
value type. -/
inductive OptRow
  | header
  | more
  | provider (valtype : Char)
  | verification (valtype : Char)
  | plain (name : List Char) (valtype : Char)
  deriving DecidableEq, Repr

/-- The enumerator `OPT_HELP` of `OPTION_choice` (line 198). -/
def OPT_HELP : Nat := 1

/-- The enumerator `OPT_SECTION` of `OPTION_choice` (line 199). -/
def OPT_SECTION : Nat := 3

/-- Rows 0 to 2 of `cmp_options` (lines 257-261). -/
def cmp_options_first : List OptRow :=
  [
    OptRow.plain "help".toList '-', OptRow.plain "config".toList 's',
    OptRow.plain "section".toList 's'
  ]

/-- The rows of `cmp_options` from the first section header to the row before
`OPT_PROV_OPTIONS` (lines 263-408), engine support compiled in. -/
def cmp_options_client : List OptRow :=
  [
    OptRow.header, OptRow.plain "cmd".toList 's', OptRow.plain "infotype".toList 's',
    OptRow.plain "geninfo".toList 's', OptRow.more, OptRow.header,
    OptRow.plain "newkey".toList 's', OptRow.plain "newkeypass".toList 's',
    OptRow.plain "subject".toList 's', OptRow.more, OptRow.more, OptRow.plain "issuer".toList 's',
    OptRow.more, OptRow.plain "days".toList 'n', OptRow.plain "reqexts".toList 's',
    OptRow.plain "sans".toList 's', OptRow.plain "san_nodefault".toList '-',
    OptRow.plain "policies".toList 's', OptRow.plain "policy_oids".toList 's',
    OptRow.plain "policy_oids_critical".toList '-', OptRow.plain "popo".toList 'n', OptRow.more,
    OptRow.plain "csr".toList 's', OptRow.plain "out_trusted".toList 's',
    OptRow.plain "implicit_confirm".toList '-', OptRow.plain "disable_confirm".toList '-',
    OptRow.more, OptRow.plain "certout".toList 's', OptRow.header,
    OptRow.plain "oldcert".toList 's', OptRow.more, OptRow.more,
    OptRow.plain "revreason".toList 'n', OptRow.more, OptRow.header,
    OptRow.plain "server".toList 's', OptRow.more, OptRow.plain "proxy".toList 's',
    OptRow.plain "no_proxy".toList 's', OptRow.more, OptRow.plain "path".toList 's',
    OptRow.plain "msg_timeout".toList 'n', OptRow.plain "total_timeout".toList 'n', OptRow.header,
    OptRow.plain "trusted".toList 's', OptRow.more, OptRow.plain "untrusted".toList 's',
    OptRow.plain "srvcert".toList 's', OptRow.plain "recipient".toList 's',
    OptRow.plain "expect_sender".toList 's', OptRow.plain "ignore_keyusage".toList '-',
    OptRow.plain "unprotected_errors".toList '-', OptRow.more, OptRow.more,
    OptRow.plain "extracertsout".toList 's', OptRow.plain "cacertsout".toList 's', OptRow.header,
    OptRow.plain "ref".toList 's', OptRow.plain "secret".toList 's',
    OptRow.plain "cert".toList 's', OptRow.more, OptRow.plain "key".toList 's',
    OptRow.plain "keypass".toList 's', OptRow.plain "digest".toList 's',
    OptRow.plain "mac".toList 's', OptRow.plain "extracerts".toList 's',
    OptRow.plain "unprotected_requests".toList '-', OptRow.header,
    OptRow.plain "certform".toList 's', OptRow.more, OptRow.plain "keyform".toList 's',
    OptRow.plain "certsform".toList 's', OptRow.plain "otherpass".toList 's',
    OptRow.plain "engine".toList 's', OptRow.more, OptRow.more, OptRow.more
  ]

/-- The rows of `cmp_options` between `OPT_PROV_OPTIONS` and `OPT_V_OPTIONS` (lines
411-503). -/
def cmp_options_tls_and_mock : List OptRow :=
  [
    OptRow.header, OptRow.plain "tls_used".toList '-', OptRow.plain "tls_cert".toList 's',
    OptRow.plain "tls_key".toList 's', OptRow.plain "tls_keypass".toList 's',
    OptRow.plain "tls_extra".toList 's', OptRow.plain "tls_trusted".toList 's', OptRow.more,
    OptRow.plain "tls_host".toList 's', OptRow.header, OptRow.plain "batch".toList '-',
    OptRow.plain "repeat".toList 'n', OptRow.plain "reqin".toList 's',
    OptRow.plain "reqin_new_tid".toList '-', OptRow.plain "reqout".toList 's',
    OptRow.plain "rspin".toList 's', OptRow.plain "rspout".toList 's',
    OptRow.plain "use_mock_srv".toList '-', OptRow.header, OptRow.plain "port".toList 's',
    OptRow.plain "max_msgs".toList 'n', OptRow.plain "srv_ref".toList 's',
    OptRow.plain "srv_secret".toList 's', OptRow.plain "srv_cert".toList 's',
    OptRow.plain "srv_key".toList 's', OptRow.plain "srv_keypass".toList 's',
    OptRow.plain "srv_trusted".toList 's', OptRow.plain "srv_untrusted".toList 's',
    OptRow.plain "rsp_cert".toList 's', OptRow.plain "rsp_extracerts".toList 's',
    OptRow.plain "rsp_capubs".toList 's', OptRow.plain "poll_count".toList 'n',
    OptRow.plain "check_after".toList 'n', OptRow.plain "grant_implicitconf".toList '-',
    OptRow.plain "pkistatus".toList 'n', OptRow.plain "failure".toList 'n',
    OptRow.plain "failurebits".toList 'n', OptRow.plain "statusstring".toList 's',
    OptRow.plain "send_error".toList '-', OptRow.plain "send_unprotected".toList '-',
    OptRow.plain "send_unprot_err".toList '-', OptRow.more, OptRow.more,
    OptRow.plain "accept_unprotected".toList '-', OptRow.plain "accept_unprot_err".toList '-',
    OptRow.plain "accept_raverified".toList '-'
  ]

/-- The table `cmp_options` before its terminating entry.  The rows that the macros
`OPT_PROV_OPTIONS` and `OPT_V_OPTIONS` stand for come from `apps/include/opt.h`, which is not
among the sources at hand; they are parameters. -/
def cmp_options (prov_options v_options : List OptRow) : List OptRow :=
  cmp_options_first ++ cmp_options_client ++ prov_options ++ cmp_options_tls_and_mock
    ++ v_options

/-- The table `cmp_vars` before its terminating `NULL` entry (lines 515-568): the names of
the variables referred to. -/
def cmp_vars : List (List Char) :=
  [
    "opt_config".toList, "opt_section".toList, "opt_cmd_s".toList, "opt_infotype_s".toList,
    "opt_geninfo".toList, "opt_newkey".toList, "opt_newkeypass".toList, "opt_subject".toList,
    "opt_issuer".toList, "opt_days".toList, "opt_reqexts".toList, "opt_sans".toList,
    "opt_san_nodefault".toList, "opt_policies".toList, "opt_policy_oids".toList,
    "opt_policy_oids_critical".toList, "opt_popo".toList, "opt_csr".toList,
    "opt_out_trusted".toList, "opt_implicit_confirm".toList, "opt_disable_confirm".toList,
    "opt_certout".toList, "opt_oldcert".toList, "opt_revreason".toList, "opt_server".toList,
    "opt_proxy".toList, "opt_no_proxy".toList, "opt_path".toList, "opt_msg_timeout".toList,
    "opt_total_timeout".toList, "opt_trusted".toList, "opt_untrusted".toList, "opt_srvcert".toList,
    "opt_recipient".toList, "opt_expect_sender".toList, "opt_ignore_keyusage".toList,
    "opt_unprotected_errors".toList, "opt_extracertsout".toList, "opt_cacertsout".toList,
    "opt_ref".toList, "opt_secret".toList, "opt_cert".toList, "opt_key".toList,
    "opt_keypass".toList, "opt_digest".toList, "opt_mac".toList, "opt_extracerts".toList,
    "opt_unprotected_requests".toList, "opt_certform_s".toList, "opt_keyform_s".toList,
    "opt_certsform_s".toList, "opt_otherpass".toList, "opt_engine".toList, "opt_tls_used".toList,
    "opt_tls_cert".toList, "opt_tls_key".toList, "opt_tls_keypass".toList, "opt_tls_extra".toList,
    "opt_tls_trusted".toList, "opt_tls_host".toList, "opt_batch".toList, "opt_repeat".toList,
    "opt_reqin".toList, "opt_reqin_new_tid".toList, "opt_reqout".toList, "opt_rspin".toList,
    "opt_rspout".toList, "opt_use_mock_srv".toList, "opt_port".toList, "opt_max_msgs".toList,
    "opt_srv_ref".toList, "opt_srv_secret".toList, "opt_srv_cert".toList, "opt_srv_key".toList,
    "opt_srv_keypass".toList, "opt_srv_trusted".toList, "opt_srv_untrusted".toList,
    "opt_rsp_cert".toList, "opt_rsp_extracerts".toList, "opt_rsp_capubs".toList,
    "opt_poll_count".toList, "opt_check_after".toList, "opt_grant_implicitconf".toList,
    "opt_pkistatus".toList, "opt_failure".toList, "opt_failurebits".toList,
    "opt_statusstring".toList, "opt_send_error".toList, "opt_send_unprotected".toList,
    "opt_send_unprot_err".toList, "opt_accept_unprotected".toList, "opt_accept_unprot_err".toList,
    "opt_accept_raverified".toList
  ]

/-- The variables declared `static int` in lines 49-193. -/
def int_variables : List (List Char) :=
  [
    "opt_msg_timeout".toList, "opt_total_timeout".toList, "opt_ignore_keyusage".toList,
    "opt_unprotected_errors".toList, "opt_unprotected_requests".toList, "opt_cmd".toList,
    "opt_infotype".toList, "opt_days".toList, "opt_san_nodefault".toList,
    "opt_policy_oids_critical".toList, "opt_popo".toList, "opt_implicit_confirm".toList,
    "opt_disable_confirm".toList, "opt_revreason".toList, "opt_certform".toList,
    "opt_keyform".toList, "opt_certsform".toList, "opt_tls_used".toList, "opt_batch".toList,
    "opt_repeat".toList, "opt_reqin_new_tid".toList, "opt_use_mock_srv".toList,
    "opt_max_msgs".toList, "opt_poll_count".toList, "opt_check_after".toList,
    "opt_grant_implicitconf".toList, "opt_pkistatus".toList, "opt_failure".toList,
    "opt_failurebits".toList, "opt_send_error".toList, "opt_send_unprotected".toList,
    "opt_send_unprot_err".toList, "opt_accept_unprotected".toList, "opt_accept_unprot_err".toList,
    "opt_accept_raverified".toList
  ]

/-- The variables declared `static char *` in lines 49-193. -/
def string_variables : List (List Char) :=
  [
    "opt_config".toList, "opt_section".toList, "opt_server".toList, "opt_proxy".toList,
    "opt_no_proxy".toList, "opt_path".toList, "opt_trusted".toList, "opt_untrusted".toList,
    "opt_srvcert".toList, "opt_recipient".toList, "opt_expect_sender".toList,
    "opt_extracertsout".toList, "opt_cacertsout".toList, "opt_ref".toList, "opt_secret".toList,
    "opt_cert".toList, "opt_key".toList, "opt_keypass".toList, "opt_digest".toList,
    "opt_mac".toList, "opt_extracerts".toList, "opt_cmd_s".toList, "opt_geninfo".toList,
    "opt_infotype_s".toList, "opt_newkey".toList, "opt_newkeypass".toList, "opt_subject".toList,
    "opt_issuer".toList, "opt_reqexts".toList, "opt_sans".toList, "opt_policies".toList,
    "opt_policy_oids".toList, "opt_csr".toList, "opt_out_trusted".toList, "opt_certout".toList,
    "opt_oldcert".toList, "opt_certform_s".toList, "opt_keyform_s".toList,
    "opt_certsform_s".toList, "opt_otherpass".toList, "opt_engine".toList, "opt_tls_cert".toList,
    "opt_tls_key".toList, "opt_tls_keypass".toList, "opt_tls_extra".toList,
    "opt_tls_trusted".toList, "opt_tls_host".toList, "opt_reqin".toList, "opt_reqout".toList,
    "opt_rspin".toList, "opt_rspout".toList, "opt_port".toList, "opt_srv_ref".toList,
    "opt_srv_secret".toList, "opt_srv_cert".toList, "opt_srv_key".toList, "opt_srv_keypass".toList,
    "opt_srv_trusted".toList, "opt_srv_untrusted".toList, "opt_rsp_cert".toList,
    "opt_rsp_extracerts".toList, "opt_rsp_capubs".toList, "opt_statusstring".toList
  ]

/-- The entry `cmp_vars[i]`: the variable referred to, `some none` for the terminating
`NULL` entry, `none` outside the array. -/
def cmp_vars_at (i : Nat) : Option (Option (List Char)) :=
  if i < cmp_vars.length then some cmp_vars[i]?
  else if i = cmp_vars.length then some none
  else none

/-- The value types that the `switch` of lines 2407-2435 knows. -/
def read_config_knows (valtype : Char) : Bool :=
  valtype = '-' || valtype = 'n' || valtype = 'l' || valtype = '<' || valtype = 's'
    || valtype = 'M'

/-- The entry of `cmp_vars` read for a provider or verification option: the index is
decreased first (line 2404); an `unsigned int` `0` would become `UINT_MAX`, outside the
array. -/
def cmp_vars_before (i : Nat) : Option (Option (List Char)) :=
  if i = 0 then none else cmp_vars_at (i - 1)

/-- The walk of `read_config` over the rows from `opt` on, with the index `i` (lines
2390-2406, and the `switch` of lines 2407-2435 as far as it ends the walk): for every plain
row its name, its value type and the index at which `cmp_vars` is read for it, and the
index after the last row; `none` when the walk ends with an internal error or reads outside
`cmp_vars`.  A header or continuation row decreases the index and the step of the loop
increases it again, a provider or verification row decreases it, reads `cmp_vars`, and the
step of the loop increases it again; a plain row reads `cmp_vars` and the step of the loop
increases the index, which is below the length of `cmp_vars` then, so that no `unsigned
int` overflows. -/
def read_config_walk : List OptRow → Nat → Option (List (List Char × Char × Nat) × Nat)
  | [], i => some ([], i)
  | OptRow.header :: rest, i => read_config_walk rest i
  | OptRow.more :: rest, i => read_config_walk rest i
  | OptRow.provider valtype :: rest, i =>
    match cmp_vars_before i with
    | some (some _) => if read_config_knows valtype = true then read_config_walk rest i else none
    | _ => none
  | OptRow.verification valtype :: rest, i =>
    match cmp_vars_before i with
    | some (some _) => if read_config_knows valtype = true then read_config_walk rest i else none
    | _ => none
  | OptRow.plain name valtype :: rest, i =>
    match cmp_vars_at i with
    | some (some _) =>
      if read_config_knows valtype = true then
        match read_config_walk rest (i + 1) with
        | some (found, last) => some ((name, valtype, i) :: found, last)
        | none => none
      else none
    | _ => none

/-- The walk of `read_config` as it starts: at row `OPT_SECTION` of `cmp_options`, with the
index `OPT_SECTION - OPT_HELP`. -/
def read_config_indices (prov_options v_options : List OptRow) :
    Option (List (List Char × Char × Nat) × Nat) :=
  read_config_walk ((cmp_options prov_options v_options).drop OPT_SECTION)
    (OPT_SECTION - OPT_HELP)

/-- A row that is no plain option and whose value type `read_config` knows. -/
def OptRow.is_aside : OptRow → Bool
  | OptRow.header => true
  | OptRow.more => true
  | OptRow.provider valtype => read_config_knows valtype
  | OptRow.verification valtype => read_config_knows valtype
  | OptRow.plain _ _ => false

/-- The name of a plain option. -/
def OptRow.plain_name : OptRow → Option (List Char)
  | OptRow.plain name _ => some name
  | _ => none

/-- The variable of an option, as the specification pairs them: `opt_` before the name of
the option, and `_s` after it for the five options whose text is decoded into a number
later (`cmd`, `infotype`, `certform`, `keyform`, `certsform`). -/
def variable_of (name : List Char) : List Char :=
  "opt_".toList ++ name
    ++ (if name ∈ ["cmd".toList, "infotype".toList, "certform".toList, "keyform".toList,
          "certsform".toList] then "_s".toList else [])

/-- Whether the index found for a plain option selects the variable of that option, an
`int` for the value types `'-'` and `'n'` and a string for `'s'`. -/
def in_lockstep (found : List Char × Char × Nat) : Bool :=
  decide (found.2.2 < cmp_vars.length)
    && decide (cmp_vars[found.2.2]? = some (variable_of found.1))
    && (((found.2.1 = '-' || found.2.1 = 'n') && decide (variable_of found.1 ∈ int_variables)
          && decide (variable_of found.1 ∉ string_variables))
        || (found.2.1 = 's' && decide (variable_of found.1 ∈ string_variables)
          && decide (variable_of found.1 ∉ int_variables)))

/-- The plain rows that the walk of `read_config` finds in the given rows, with the index
of each. -/
def read_config_found (rows : List OptRow) (i : Nat) : List (List Char × Char × Nat) :=
  ((read_config_walk rows i).map Prod.fst).getD []

/-! ## Outcomes of the file primitives -/

theorem write_PKIMESSAGE_filenames (env : Env) (tr : List Event) (m : Msg) (file : List Char) :
    (write_PKIMESSAGE env tr (some m) (some file)).filenames = (next_item file).2 := by
  simp only [write_PKIMESSAGE]
  split_ifs <;> rfl

theorem write_PKIMESSAGE_outcome (env : Env) (tr : List Event) (m : Msg) (file : List Char) :
    ((write_PKIMESSAGE env tr (some m) (some file)).ret = 1
      ∧ (write_PKIMESSAGE env tr (some m) (some file)).trace
          = tr ++ [Event.open_wb (next_item file).1 true, Event.i2d (next_item file).1 m true])
    ∨ ((write_PKIMESSAGE env tr (some m) (some file)).ret = 0
      ∧ ((write_PKIMESSAGE env tr (some m) (some file)).trace
            = tr ++ [Event.open_wb (next_item file).1 false]
        ∨ (write_PKIMESSAGE env tr (some m) (some file)).trace
            = tr ++ [Event.open_wb (next_item file).1 true,
                     Event.i2d (next_item file).1 m false])) := by
  simp only [write_PKIMESSAGE]
  split_ifs <;> simp

theorem read_PKIMESSAGE_filenames (env : Env) (tr : List Event) (file : List Char) :
    (read_PKIMESSAGE env tr (some file)).filenames = (next_item file).2 := by
  simp only [read_PKIMESSAGE]
  split_ifs <;> rfl

theorem read_PKIMESSAGE_outcome (env : Env) (tr : List Event) (file : List Char) :
    ((read_PKIMESSAGE env tr (some file)).ret = none
      ∧ (read_PKIMESSAGE env tr (some file)).trace
          = tr ++ [Event.open_rb (next_item file).1 false])
    ∨ (read_PKIMESSAGE env tr (some file)).trace
          = tr ++ [Event.open_rb (next_item file).1 true,
                   Event.d2i (next_item file).1 (read_PKIMESSAGE env tr (some file)).ret] := by
  simp only [read_PKIMESSAGE]
  split_ifs <;> simp


/-! ## What each block of `read_write_req_resp` leaves untouched -/

theorem capture_request_frame (env : Env) (s : State) (req : Option Msg) :
    (capture_request env s req).1.opt_reqin = s.opt_reqin
    ∧ (capture_request env s req).1.opt_rspin = s.opt_rspin
    ∧ (capture_request env s req).1.opt_rspout = s.opt_rspout
    ∧ (capture_request env s req).1.opt_use_mock_srv = s.opt_use_mock_srv
    ∧ (capture_request env s req).1.opt_reqin_new_tid = s.opt_reqin_new_tid
    ∧ (capture_request env s req).1.ctx = s.ctx := by
  simp only [capture_request]
  split_ifs <;> simp

theorem capture_request_trace (env : Env) (s : State) (req : Option Msg) :
    ∃ new, (capture_request env s req).1.trace = s.trace ++ new
      ∧ ∀ e ∈ new, e.is_write = true := by
  simp only [capture_request]
  split_ifs with hc
  · obtain ⟨hq, ho⟩ := hc
    obtain ⟨m, rfl⟩ := Option.isSome_iff_exists.mp hq
    obtain ⟨l, hl⟩ := Option.isSome_iff_exists.mp ho
    rw [hl]
    rcases write_PKIMESSAGE_outcome env s.trace m l with ⟨_, ht⟩ | ⟨_, ht | ht⟩ <;>
      exact ⟨_, ht, by simp [Event.is_write]⟩
  · exact ⟨[], by simp, by simp⟩

theorem replay_request_frame (env : Env) (s : State) :
    (replay_request env s).1.opt_reqout = s.opt_reqout
    ∧ (replay_request env s).1.opt_rspin = s.opt_rspin
    ∧ (replay_request env s).1.opt_rspout = s.opt_rspout
    ∧ (replay_request env s).1.opt_use_mock_srv = s.opt_use_mock_srv
    ∧ (replay_request env s).1.opt_reqin_new_tid = s.opt_reqin_new_tid := by
  simp only [replay_request]
  split_ifs <;> first | (split <;> simp) | simp

theorem adopt_header_frame (env : Env) (s : State) (res : Msg) :
    (adopt_header env s res).1.opt_reqin = s.opt_reqin
    ∧ (adopt_header env s res).1.opt_reqout = s.opt_reqout
    ∧ (adopt_header env s res).1.opt_rspin = s.opt_rspin
    ∧ (adopt_header env s res).1.opt_rspout = s.opt_rspout
    ∧ (adopt_header env s res).1.trace = s.trace := by
  simp only [adopt_header]
  split_ifs <;> simp

theorem capture_response_frame (env : Env) (s : State) (res : Msg) :
    (capture_response env s res).1.opt_reqin = s.opt_reqin
    ∧ (capture_response env s res).1.opt_reqout = s.opt_reqout
    ∧ (capture_response env s res).1.opt_rspin = s.opt_rspin
    ∧ (capture_response env s res).1.ctx = s.ctx := by
  simp only [capture_response]
  split_ifs <;> simp

theorem capture_response_trace (env : Env) (s : State) (res : Msg) :
    ∃ new, (capture_response env s res).1.trace = s.trace ++ new
      ∧ ∀ e ∈ new, e.is_write = true := by
  cases hl : s.opt_rspout with
  | none => exact ⟨[], by simp [capture_response, hl], by simp⟩
  | some l =>
    simp only [capture_response, hl, Option.isSome_some, if_true]
    rcases write_PKIMESSAGE_outcome env s.trace res l with ⟨_, ht⟩ | ⟨_, ht | ht⟩ <;>
      exact ⟨_, ht, by simp [Event.is_write]⟩

theorem capture_response_written (env : Env) (s : State) (res r : Msg) (l : List Char)
    (h : s.opt_rspout = some l) (hr : (capture_response env s res).2 = some r) :
    r = res
    ∧ (capture_response env s res).1.trace
        = s.trace ++ [Event.open_wb (next_item l).1 true, Event.i2d (next_item l).1 res true]
    ∧ (capture_response env s res).1.opt_rspout = (next_item l).2 := by
  simp only [capture_response, h, Option.isSome_some, if_true] at hr ⊢
  rcases write_PKIMESSAGE_outcome env s.trace res l with ⟨h1, ht⟩ | ⟨h0, _⟩
  · simp only [h1] at hr
    simp at hr
    exact ⟨hr.symm, ht, write_PKIMESSAGE_filenames env s.trace res l⟩
  · simp [h0] at hr


theorem capture_response_some (env : Env) (s : State) (res r : Msg)
    (h : (capture_response env s res).2 = some r) : r = res := by
  simp only [capture_response] at h
  split_ifs at h <;> simp_all

/-! ## The paths through `read_write_req_resp` -/

theorem rwrr_err_capture (env : Env) (s : State) (req : Option Msg)
    (h1 : (capture_request env s req).2 = false) :
    read_write_req_resp env s req = ((capture_request env s req).1, none) := by
  simp only [read_write_req_resp, h1, if_true]

theorem rwrr_err_replay (env : Env) (s : State) (req : Option Msg)
    (h1 : (capture_request env s req).2 = true)
    (h2 : (replay_request env (capture_request env s req).1).2.2 = false) :
    read_write_req_resp env s req
      = ((replay_request env (capture_request env s req).1).1, none) := by
  simp only [read_write_req_resp, h1, h2, if_true, Bool.true_eq_false, if_false]

theorem rwrr_err_response (env : Env) (s : State) (req : Option Msg)
    (h1 : (capture_request env s req).2 = true)
    (h2 : (replay_request env (capture_request env s req).1).2.2 = true)
    (h3 : (obtain_response env (replay_request env (capture_request env s req).1).1 req
            (replay_request env (capture_request env s req).1).2.1).2 = none) :
    read_write_req_resp env s req
      = ((obtain_response env (replay_request env (capture_request env s req).1).1 req
            (replay_request env (capture_request env s req).1).2.1).1, none) := by
  simp only [read_write_req_resp, h1, h2, h3, Bool.true_eq_false, if_false]

theorem rwrr_err_adopt (env : Env) (s : State) (req : Option Msg) (res : Msg)
    (h1 : (capture_request env s req).2 = true)
    (h2 : (replay_request env (capture_request env s req).1).2.2 = true)
    (h3 : (obtain_response env (replay_request env (capture_request env s req).1).1 req
            (replay_request env (capture_request env s req).1).2.1).2 = some res)
    (h4 : (adopt_header env
            (obtain_response env (replay_request env (capture_request env s req).1).1 req
              (replay_request env (capture_request env s req).1).2.1).1 res).2 = false) :
    read_write_req_resp env s req
      = ((adopt_header env
            (obtain_response env (replay_request env (capture_request env s req).1).1 req
              (replay_request env (capture_request env s req).1).2.1).1 res).1, none) := by
  simp only [read_write_req_resp, h1, h2, h3, h4, Bool.true_eq_false, if_false, if_true]

theorem rwrr_response (env : Env) (s : State) (req : Option Msg) (res : Msg)
    (h1 : (capture_request env s req).2 = true)
    (h2 : (replay_request env (capture_request env s req).1).2.2 = true)
    (h3 : (obtain_response env (replay_request env (capture_request env s req).1).1 req
            (replay_request env (capture_request env s req).1).2.1).2 = some res)
    (h4 : (adopt_header env
            (obtain_response env (replay_request env (capture_request env s req).1).1 req
              (replay_request env (capture_request env s req).1).2.1).1 res).2 = true) :
    read_write_req_resp env s req
      = capture_response env (adopt_header env
            (obtain_response env (replay_request env (capture_request env s req).1).1 req
              (replay_request env (capture_request env s req).1).2.1).1 res).1 res := by
  simp only [read_write_req_resp, h1, h2, h3, h4, Bool.true_eq_false, if_false]

theorem replay_request_trace (env : Env) (s : State) :
    ∃ new, (replay_request env s).1.trace = s.trace ++ new
      ∧ ∀ e ∈ new, e.is_write = false ∧ e.is_transport = false := by
  by_cases hc : s.opt_reqin.isSome = true ∧ s.opt_rspin.isNone = true
  · obtain ⟨l, hl⟩ := Option.isSome_iff_exists.mp hc.1
    have hout := read_PKIMESSAGE_outcome env s.trace l
    rw [← hl] at hout
    simp only [replay_request, if_pos hc]
    cases hr : (read_PKIMESSAGE env s.trace s.opt_reqin).ret with
    | none =>
      dsimp only
      rcases hout with ⟨_, ht⟩ | ht <;>
        exact ⟨_, ht, by simp [Event.is_write, Event.is_transport]⟩
    | some req_new =>
      have ht : (read_PKIMESSAGE env s.trace s.opt_reqin).trace
          = s.trace ++ [Event.open_rb (next_item l).1 true,
              Event.d2i (next_item l).1 (some req_new)] := by
        rcases hout with ⟨hn, _⟩ | ht
        · rw [hr] at hn; cases hn
        · rw [hr] at ht; exact ht
      dsimp only
      by_cases hn : s.opt_reqin_new_tid ≠ 0
      · rw [if_pos hn]
        refine ⟨[Event.open_rb (next_item l).1 true, Event.d2i (next_item l).1 (some req_new),
          Event.update_transactionID req_new (env.OSSL_CMP_MSG_update_transactionID
            (read_PKIMESSAGE env s.trace s.opt_reqin).trace s.ctx req_new).2.2], ?_, ?_⟩
        · show _ ++ _ = _
          rw [ht]
          simp
        · simp [Event.is_write, Event.is_transport]
      · rw [if_neg hn]
        exact ⟨_, ht, by simp [Event.is_write, Event.is_transport]⟩
  · rw [replay_request, if_neg hc]
    exact ⟨[], by simp, by simp⟩

theorem obtain_response_frame (env : Env) (s : State) (req req_new : Option Msg) :
    (obtain_response env s req req_new).1.opt_reqin = s.opt_reqin
    ∧ (obtain_response env s req req_new).1.opt_reqout = s.opt_reqout
    ∧ (obtain_response env s req req_new).1.opt_rspout = s.opt_rspout := by
  simp only [obtain_response]
  split_ifs <;> simp

theorem obtain_response_trace (env : Env) (s : State) (req req_new : Option Msg) :
    ∃ new, (obtain_response env s req req_new).1.trace = s.trace ++ new
      ∧ ∀ e ∈ new, e.is_write = false := by
  simp only [obtain_response]
  split_ifs with hc
  · obtain ⟨l, hl⟩ := Option.isSome_iff_exists.mp hc
    rw [hl]
    rcases read_PKIMESSAGE_outcome env s.trace l with ⟨_, ht⟩ | ht <;>
      exact ⟨_, ht, by simp [Event.is_write]⟩
  all_goals exact ⟨_, rfl, by simp [Event.is_write]⟩

/-- A response is returned only along the one path on which no block fails. -/
theorem rwrr_some_inv (env : Env) (s : State) (req : Option Msg) (res : Msg)
    (h : (read_write_req_resp env s req).2 = some res) :
    (capture_request env s req).2 = true
    ∧ (replay_request env (capture_request env s req).1).2.2 = true
    ∧ (obtain_response env (replay_request env (capture_request env s req).1).1 req
        (replay_request env (capture_request env s req).1).2.1).2 = some res
    ∧ (adopt_header env
        (obtain_response env (replay_request env (capture_request env s req).1).1 req
          (replay_request env (capture_request env s req).1).2.1).1 res).2 = true
    ∧ read_write_req_resp env s req
      = capture_response env (adopt_header env
          (obtain_response env (replay_request env (capture_request env s req).1).1 req
            (replay_request env (capture_request env s req).1).2.1).1 res).1 res := by
  cases h1 : (capture_request env s req).2 with
  | false => rw [rwrr_err_capture env s req h1] at h; cases h
  | true =>
    cases h2 : (replay_request env (capture_request env s req).1).2.2 with
    | false => rw [rwrr_err_replay env s req h1 h2] at h; cases h
    | true =>
      cases h3 : (obtain_response env (replay_request env (capture_request env s req).1).1
          req (replay_request env (capture_request env s req).1).2.1).2 with
      | none => rw [rwrr_err_response env s req h1 h2 h3] at h; cases h
      | some res0 =>
        cases h4 : (adopt_header env
            (obtain_response env (replay_request env (capture_request env s req).1).1 req
              (replay_request env (capture_request env s req).1).2.1).1 res0).2 with
        | false => rw [rwrr_err_adopt env s req res0 h1 h2 h3 h4] at h; cases h
        | true =>
          have he := rwrr_response env s req res0 h1 h2 h3 h4
          rw [he] at h
          have := capture_response_some env _ res0 res h
          subst this
          exact ⟨rfl, rfl, rfl, h4, he⟩

/-- Whatever path is taken, the events of the blocks after the capture of the request are
appended to those of the capture, and `opt_reqout` is not touched again. -/
theorem rwrr_after_capture (env : Env) (s : State) (req : Option Msg) :
    ∃ rest, (read_write_req_resp env s req).1.trace
        = (capture_request env s req).1.trace ++ rest
      ∧ (read_write_req_resp env s req).1.opt_reqout
        = (capture_request env s req).1.opt_reqout := by
  obtain ⟨hq1, -, -, -, -⟩ := replay_request_frame env (capture_request env s req).1
  obtain ⟨n2, hn2, -⟩ := replay_request_trace env (capture_request env s req).1
  obtain ⟨-, ho2, -⟩ := obtain_response_frame env
    (replay_request env (capture_request env s req).1).1 req
    (replay_request env (capture_request env s req).1).2.1
  obtain ⟨n3, hn3, -⟩ := obtain_response_trace env
    (replay_request env (capture_request env s req).1).1 req
    (replay_request env (capture_request env s req).1).2.1
  cases h1 : (capture_request env s req).2 with
  | false => rw [rwrr_err_capture env s req h1]; exact ⟨[], by simp, rfl⟩
  | true =>
    cases h2 : (replay_request env (capture_request env s req).1).2.2 with
    | false => rw [rwrr_err_replay env s req h1 h2]; exact ⟨n2, hn2, hq1⟩
    | true =>
      cases h3 : (obtain_response env (replay_request env (capture_request env s req).1).1
          req (replay_request env (capture_request env s req).1).2.1).2 with
      | none =>
        rw [rwrr_err_response env s req h1 h2 h3]
        exact ⟨n2 ++ n3, by rw [← List.append_assoc, ← hn2]; exact hn3, ho2.trans hq1⟩
      | some res0 =>
        obtain ⟨-, ha2, -, -, ha5⟩ := adopt_header_frame env
          (obtain_response env (replay_request env (capture_request env s req).1).1 req
            (replay_request env (capture_request env s req).1).2.1).1 res0
        cases h4 : (adopt_header env
            (obtain_response env (replay_request env (capture_request env s req).1).1 req
              (replay_request env (capture_request env s req).1).2.1).1 res0).2 with
        | false =>
          rw [rwrr_err_adopt env s req res0 h1 h2 h3 h4]
          exact ⟨n2 ++ n3, by rw [← List.append_assoc, ← hn2]; exact ha5.trans hn3,
            ha2.trans (ho2.trans hq1)⟩
        | true =>
          rw [rwrr_response env s req res0 h1 h2 h3 h4]
          obtain ⟨-, hp2, -, -⟩ := capture_response_frame env (adopt_header env
            (obtain_response env (replay_request env (capture_request env s req).1).1 req
              (replay_request env (capture_request env s req).1).2.1).1 res0).1 res0
          obtain ⟨n5, hn5, -⟩ := capture_response_trace env (adopt_header env
            (obtain_response env (replay_request env (capture_request env s req).1).1 req
              (replay_request env (capture_request env s req).1).2.1).1 res0).1 res0
          refine ⟨n2 ++ n3 ++ n5, ?_, ?_⟩
          · rw [hn5, ha5, hn3, hn2]; simp
          · rw [hp2, ha2, ho2, hq1]


/-! ## Claims about `read_write_req_resp` -/

/-- C1, evaluated where it fails: `-rspin` names one file, whose response carries
transactionID `9` and recipient nonce `8`.  The response is returned, yet the context still
holds its old transactionID `1` and sender nonce `2`: reading the last file has set
`opt_rspin` to `NULL` before line 1035 tests it. -/
theorem C1_last_replayed_response_not_adopted :
    (read_write_req_resp quiet_env { plain_state with opt_rspin := some "rsp.der".toList }
        (some live_req)).2 = some captured_rsp
    ∧ captured_rsp.header.transactionID = some [9]
    ∧ captured_rsp.header.recipNonce = some [8]
    ∧ (read_write_req_resp quiet_env { plain_state with opt_rspin := some "rsp.der".toList }
        (some live_req)).1.ctx.transactionID = some [1]
    ∧ (read_write_req_resp quiet_env { plain_state with opt_rspin := some "rsp.der".toList }
        (some live_req)).1.ctx.senderNonce = some [2] := by
  decide

theorem adopt_header_adopts (env : Env) (s : State) (res : Msg)
    (hl : s.opt_reqin ≠ none ∨ s.opt_rspin ≠ none)
    (h : (adopt_header env s res).2 = true) :
    (adopt_header env s res).1.ctx.transactionID = res.header.transactionID
    ∧ (adopt_header env s res).1.ctx.senderNonce = res.header.recipNonce := by
  have hc : s.opt_reqin.isSome = true ∨ s.opt_rspin.isSome = true := by
    rcases hl with hl | hl
    · exact Or.inl (Option.isSome_iff_ne_none.mpr hl)
    · exact Or.inr (Option.isSome_iff_ne_none.mpr hl)
  rw [adopt_header, if_pos hc] at h ⊢
  cases h1 : env.set1_senderNonce_ok s.trace s.ctx
  · simp [h1, OSSL_CMP_CTX_set1_senderNonce] at h
  · cases h2 : env.set1_transactionID_ok s.trace
        { s.ctx with senderNonce := res.header.recipNonce }
    · simp [h1, h2, OSSL_CMP_CTX_set1_senderNonce, OSSL_CMP_CTX_set1_transactionID] at h
    · simp [h1, h2, OSSL_CMP_CTX_set1_senderNonce, OSSL_CMP_CTX_set1_transactionID]

/-- What does hold of C1: when a response is returned and one of the two replay lists
still names a file after the exchange, the context has the transactionID of the response
and, as sender nonce, its recipient nonce. -/
theorem adoption_while_a_list_remains (env : Env) (s : State) (req : Option Msg) (res : Msg)
    (h : (read_write_req_resp env s req).2 = some res)
    (hl : (read_write_req_resp env s req).1.opt_reqin ≠ none
        ∨ (read_write_req_resp env s req).1.opt_rspin ≠ none) :
    (read_write_req_resp env s req).1.ctx.transactionID = res.header.transactionID
    ∧ (read_write_req_resp env s req).1.ctx.senderNonce = res.header.recipNonce := by
  obtain ⟨-, -, -, h4, he⟩ := rwrr_some_inv env s req res h
  obtain ⟨ha1, -, ha3, -, -⟩ := adopt_header_frame env
    (obtain_response env (replay_request env (capture_request env s req).1).1 req
      (replay_request env (capture_request env s req).1).2.1).1 res
  obtain ⟨hp1, -, hp3, hp4⟩ := capture_response_frame env (adopt_header env
    (obtain_response env (replay_request env (capture_request env s req).1).1 req
      (replay_request env (capture_request env s req).1).2.1).1 res).1 res
  rw [he] at hl ⊢
  rw [hp1, hp3, ha1, ha3] at hl
  rw [hp4]
  exact adopt_header_adopts env _ res hl h4

/-- C3, evaluated where it fails: `-reqin` names one file and the mock server is used.
The file is read, but the message handed to the mock server is the request of the caller,
not the one read: reading the last file has set `opt_reqin` to `NULL` before line 1026
tests it. -/
theorem C3_last_reqin_file_not_sent :
    (read_write_req_resp quiet_env
        { plain_state with opt_reqin := some "req.der".toList, opt_use_mock_srv := 1 }
        (some live_req)).1.trace
      = [Event.open_rb "req.der".toList true,
         Event.d2i "req.der".toList (some captured_req),
         Event.server_perform (some live_req) (some live_rsp)]
    ∧ captured_req ≠ live_req := by
  decide

/-- C4 as stated fails: with `-reqout req1.der` the first exchange uses up the list; the
second exchange then writes nothing, calls the transport and returns its response. -/
theorem C4_exhausted_reqout_does_not_fail :
    (read_write_req_resp quiet_env
        { plain_state with opt_reqout := some "req1.der".toList } (some live_req)).1.opt_reqout
      = none
    ∧ (read_write_req_resp quiet_env
        (read_write_req_resp quiet_env
          { plain_state with opt_reqout := some "req1.der".toList } (some live_req)).1
        (some live_req)).2 = some live_rsp
    ∧ (read_write_req_resp quiet_env
        (read_write_req_resp quiet_env
          { plain_state with opt_reqout := some "req1.der".toList } (some live_req)).1
        (some live_req)).1.trace
      = [Event.open_wb "req1.der".toList true, Event.i2d "req1.der".toList live_req true,
         Event.http_perform (some live_req) (some live_rsp),
         Event.http_perform (some live_req) (some live_rsp)] := by
  decide

theorem capture_request_outcome (env : Env) (s : State) (m : Msg) (l : List Char)
    (h : s.opt_reqout = some l) :
    (capture_request env s (some m)).1.opt_reqout = (next_item l).2
    ∧ (((capture_request env s (some m)).2 = true
        ∧ (capture_request env s (some m)).1.trace
          = s.trace ++ [Event.open_wb (next_item l).1 true, Event.i2d (next_item l).1 m true])
      ∨ ((capture_request env s (some m)).2 = false
        ∧ ((capture_request env s (some m)).1.trace
            = s.trace ++ [Event.open_wb (next_item l).1 false]
          ∨ (capture_request env s (some m)).1.trace
            = s.trace ++ [Event.open_wb (next_item l).1 true,
                          Event.i2d (next_item l).1 m false]))) := by
  simp only [capture_request, h, Option.isSome_some, and_self, if_true]
  refine ⟨write_PKIMESSAGE_filenames env s.trace m l, ?_⟩
  rcases write_PKIMESSAGE_outcome env s.trace m l with ⟨h1, ht⟩ | ⟨h0, ht⟩
  · exact Or.inl ⟨by simp [h1], ht⟩
  · exact Or.inr ⟨by simp [h0], ht⟩

/-- C4, amended: while `-reqout` still names a file, the request of the caller is written
to the next file of the list before anything else happens; if the file cannot be opened
or written, the exchange ends there with no response, the replay lists untouched and no
other event.  The name is used up either way, and once none is left the capture is
skipped without failing. -/
theorem C4_reqout_written_first (env : Env) (s : State) (m : Msg) (l : List Char)
    (h : s.opt_reqout = some l) :
    (read_write_req_resp env s (some m)).1.opt_reqout = (next_item l).2
    ∧ ((∃ rest, (read_write_req_resp env s (some m)).1.trace
          = s.trace ++ [Event.open_wb (next_item l).1 true, Event.i2d (next_item l).1 m true]
              ++ rest)
      ∨ ((read_write_req_resp env s (some m)).2 = none
          ∧ (read_write_req_resp env s (some m)).1.opt_reqin = s.opt_reqin
          ∧ (read_write_req_resp env s (some m)).1.opt_rspin = s.opt_rspin
          ∧ ((read_write_req_resp env s (some m)).1.trace
                = s.trace ++ [Event.open_wb (next_item l).1 false]
            ∨ (read_write_req_resp env s (some m)).1.trace
                = s.trace ++ [Event.open_wb (next_item l).1 true,
                              Event.i2d (next_item l).1 m false])))
    ∧ ∀ (s' : State) (req' : Option Msg), s'.opt_reqout = none →
        capture_request env s' req' = (s', true) := by
  obtain ⟨hfn, hout⟩ := capture_request_outcome env s m l h
  obtain ⟨rest, hrest, hro⟩ := rwrr_after_capture env s (some m)
  obtain ⟨hf1, hf2, -, -, -, -⟩ := capture_request_frame env s (some m)
  refine ⟨hro.trans hfn, ?_, ?_⟩
  · rcases hout with ⟨_, ht⟩ | ⟨h0, ht⟩
    · exact Or.inl ⟨rest, by rw [hrest, ht]⟩
    · right
      rw [rwrr_err_capture env s (some m) h0]
      exact ⟨rfl, hf1, hf2, ht⟩
  · intro s' req' hs'
    simp [capture_request, hs']

theorem C4_reqout_written_first_witness :
    reqout_state.opt_reqout = some "req1.der".toList
    ∧ (read_write_req_resp quiet_env reqout_state (some live_req)).1.opt_reqout
        = (next_item "req1.der".toList).2
    ∧ ∀ (s1 : State) (req1 : Option Msg), s1.opt_reqout = none →
        capture_request quiet_env s1 req1 = (s1, true) :=
  ⟨rfl,
   (C4_reqout_written_first quiet_env reqout_state live_req "req1.der".toList rfl).1,
   (C4_reqout_written_first quiet_env reqout_state live_req "req1.der".toList rfl).2.2⟩

/-- C5 as stated fails: with `-rspout rsp1.der` the first exchange uses up the list; the
second exchange then returns the answer of the transport without writing it anywhere. -/
theorem C5_exhausted_rspout_returns_unwritten :
    (read_write_req_resp quiet_env rspout_state (some live_req)).1.opt_rspout = none
    ∧ (read_write_req_resp quiet_env
        (read_write_req_resp quiet_env rspout_state (some live_req)).1 (some live_req)).2
      = some live_rsp
    ∧ (read_write_req_resp quiet_env
        (read_write_req_resp quiet_env rspout_state (some live_req)).1 (some live_req)).1.trace
      = [Event.http_perform (some live_req) (some live_rsp),
         Event.open_wb "rsp1.der".toList true, Event.i2d "rsp1.der".toList live_rsp true,
         Event.http_perform (some live_req) (some live_rsp)] := by
  decide

/-- C5, amended: while `-rspout` still names a file (`opt_rspout` is not `NULL` at entry), a
response is returned only after it has been written to the next file of that list, as the
last thing the exchange does; an exchange whose last event is a failed open or write
returns no response.  Once the list is used up (`opt_rspout` is `NULL`), a response is
passed on without being written. -/
theorem C5_response_captured_before_return (env : Env) (s : State) (req : Option Msg)
    (l : List Char) (h : s.opt_rspout = some l) :
    (∀ res, (read_write_req_resp env s req).2 = some res →
      (∃ before, (read_write_req_resp env s req).1.trace
          = s.trace ++ before
              ++ [Event.open_wb (next_item l).1 true, Event.i2d (next_item l).1 res true])
      ∧ (read_write_req_resp env s req).1.opt_rspout = (next_item l).2)
    ∧ (∀ f m, ((read_write_req_resp env s req).1.trace.getLast? = some (Event.open_wb f false)
          ∨ (read_write_req_resp env s req).1.trace.getLast? = some (Event.i2d f m false)) →
        (read_write_req_resp env s req).2 = none)
    ∧ ∀ (s1 : State) (res1 : Msg), s1.opt_rspout = none →
        capture_response env s1 res1 = (s1, some res1) := by
  have key : ∀ res, (read_write_req_resp env s req).2 = some res →
      (∃ before, (read_write_req_resp env s req).1.trace
          = s.trace ++ before
              ++ [Event.open_wb (next_item l).1 true, Event.i2d (next_item l).1 res true])
      ∧ (read_write_req_resp env s req).1.opt_rspout = (next_item l).2 := by
    intro res hres
    obtain ⟨-, -, -, -, he⟩ := rwrr_some_inv env s req res hres
    obtain ⟨-, -, hc3, -, -, -⟩ := capture_request_frame env s req
    obtain ⟨n1, hn1, -⟩ := capture_request_trace env s req
    obtain ⟨-, -, hq3, -, -⟩ := replay_request_frame env (capture_request env s req).1
    obtain ⟨n2, hn2, -⟩ := replay_request_trace env (capture_request env s req).1
    obtain ⟨-, -, ho3⟩ := obtain_response_frame env
      (replay_request env (capture_request env s req).1).1 req
      (replay_request env (capture_request env s req).1).2.1
    obtain ⟨n3, hn3, -⟩ := obtain_response_trace env
      (replay_request env (capture_request env s req).1).1 req
      (replay_request env (capture_request env s req).1).2.1
    obtain ⟨-, -, -, ha4, ha5⟩ := adopt_header_frame env
      (obtain_response env (replay_request env (capture_request env s req).1).1 req
        (replay_request env (capture_request env s req).1).2.1).1 res
    have hl : (adopt_header env
        (obtain_response env (replay_request env (capture_request env s req).1).1 req
          (replay_request env (capture_request env s req).1).2.1).1 res).1.opt_rspout
        = some l := by rw [ha4, ho3, hq3, hc3, h]
    rw [he] at hres
    obtain ⟨-, hwt, hwf⟩ := capture_response_written env _ res res l hl hres
    rw [he]
    refine ⟨⟨n1 ++ n2 ++ n3, ?_⟩, hwf⟩
    rw [hwt, ha5, hn3, hn2, hn1]
    simp
  refine ⟨key, ?_, fun s1 res1 h1 => by simp [capture_response, h1]⟩
  intro f m hlast
  cases hr : (read_write_req_resp env s req).2 with
  | none => rfl
  | some res =>
    obtain ⟨⟨before, hb⟩, -⟩ := key res hr
    rw [hb] at hlast
    simp at hlast


theorem C5_response_captured_before_return_witness :
    rspout_state.opt_rspout = some "rsp1.der".toList
    ∧ ∀ res, (read_write_req_resp quiet_env rspout_state (some live_req)).2 = some res →
      (∃ before, (read_write_req_resp quiet_env rspout_state (some live_req)).1.trace
          = rspout_state.trace ++ before
              ++ [Event.open_wb (next_item "rsp1.der".toList).1 true,
                  Event.i2d (next_item "rsp1.der".toList).1 res true])
      ∧ (read_write_req_resp quiet_env rspout_state (some live_req)).1.opt_rspout
          = (next_item "rsp1.der".toList).2 :=
  ⟨rfl,
   (C5_response_captured_before_return quiet_env rspout_state (some live_req)
      "rsp1.der".toList rfl).1⟩

/-! ## `next_item` on well-formed lists -/

theorem next_item_scan_cons (c : Char) (cs : List Char) :
    next_item_scan (c :: cs)
      = if c = ',' ∨ isspace c = true then ([], c :: cs)
        else if c = Char.ofNat 92 then
          match cs with
          | [] => ([c], [])
          | d :: ds => (d :: (next_item_scan ds).1, (next_item_scan ds).2)
        else (c :: (next_item_scan cs).1, (next_item_scan cs).2) := by
  rw [next_item_scan.eq_def]

theorem next_item_scan_written (n rest : List Char)
    (hrest : rest = [] ∨ ∃ c cs, rest = c :: cs ∧ (c = ',' ∨ isspace c = true)) :
    next_item_scan (written n ++ rest) = (n, rest) := by
  induction n with
  | nil =>
    rcases hrest with rfl | ⟨c, cs, rfl, hc⟩
    · rfl
    · rw [written, List.nil_append, next_item_scan_cons, if_pos hc]
  | cons a n ih =>
    by_cases ha : a = ',' ∨ isspace a = true ∨ a = Char.ofNat 92
    · have hb : ¬(Char.ofNat 92 = ',' ∨ isspace (Char.ofNat 92) = true) := by decide
      rw [written, written_char, if_pos ha]
      simp only [List.cons_append, List.nil_append]
      rw [next_item_scan_cons, if_neg hb, if_pos rfl]
      simp only [ih]
    · have hsep : ¬(a = ',' ∨ isspace a = true) := fun h => ha (by tauto)
      have hbs : ¬ a = Char.ofNat 92 := fun h => ha (by tauto)
      rw [written, written_char, if_neg ha]
      simp only [List.cons_append, List.nil_append]
      rw [next_item_scan_cons, if_neg hsep, if_neg hbs, ih]

theorem skip_space_append (ws x : List Char) (h : ws.all isspace = true) :
    skip_space (ws ++ x) = skip_space x := by
  induction ws with
  | nil => rfl
  | cons w ws ih =>
    simp only [List.all_cons, Bool.and_eq_true] at h
    simp [skip_space, h.1, ih h.2]

theorem skip_space_written (n x : List Char) (h : is_name n = true) :
    skip_space (written n ++ x) = written n ++ x ∧ written n ++ x ≠ [] := by
  cases n with
  | nil => simp [is_name] at h
  | cons a n =>
    by_cases ha : a = ',' ∨ isspace a = true ∨ a = Char.ofNat 92
    · have hb : isspace (Char.ofNat 92) = false := by decide
      rw [written, written_char, if_pos ha]
      simp [skip_space, hb]
    · have hsp : isspace a = false := by
        cases hs : isspace a
        · rfl
        · exact absurd (Or.inr (Or.inl hs)) ha
      rw [written, written_char, if_neg ha]
      simp [skip_space, hsp]

theorem separator_chars (sp : Separator) (h : sp.ok = true) :
    ∃ c ws, sp.chars = c :: ws ∧ (c = ',' ∨ isspace c = true) ∧ ws.all isspace = true := by
  cases sp with
  | comma spaces => exact ⟨',', spaces, rfl, Or.inl rfl, h⟩
  | blanks first more =>
    simp only [Separator.ok, Bool.and_eq_true] at h
    exact ⟨first, more, rfl, Or.inr h.1, h.2⟩

/-- On a well-formed list `next_item` cuts off the first name, unescaped, and returns the
list of the names after it, `NULL` when there is none. -/
theorem next_item_list_text (n0 : List Char) (r : List (Separator × List Char))
    (t : Option Separator) (h : well_formed n0 r t = true) :
    next_item (list_text n0 r t)
      = (n0, match r with
             | [] => none
             | (_, n1) :: r1 => some (list_text n1 r1 t)) := by
  simp only [well_formed, Bool.and_eq_true] at h
  obtain ⟨⟨-, hr⟩, ht⟩ := h
  cases r with
  | nil =>
    cases t with
    | none =>
      have hs := next_item_scan_written n0 [] (Or.inl rfl)
      rw [List.append_nil] at hs
      simp [next_item, list_text, list_tail_text, hs]
    | some sp =>
      obtain ⟨c, ws, hsp, hc, hws⟩ := separator_chars sp ht
      have hs := next_item_scan_written n0 (c :: ws) (Or.inr ⟨c, ws, rfl, hc⟩)
      have hk : skip_space ws = [] := by
        have := skip_space_append ws [] hws
        simpa [skip_space] using this
      simp [next_item, list_text, list_tail_text, hsp, hs, hk]
  | cons p r1 =>
    obtain ⟨sp, n1⟩ := p
    simp only [List.all_cons, Bool.and_eq_true] at hr
    obtain ⟨⟨hsp, hn1⟩, -⟩ := hr
    obtain ⟨c, ws, hspc, hc, hws⟩ := separator_chars sp hsp
    have hs := next_item_scan_written n0 (c :: (ws ++ (written n1 ++ list_tail_text r1 t)))
      (Or.inr ⟨c, _, rfl, hc⟩)
    obtain ⟨hk, hne⟩ := skip_space_written n1 (list_tail_text r1 t) hn1
    have hk' : skip_space (ws ++ (written n1 ++ list_tail_text r1 t))
        = written n1 ++ list_tail_text r1 t := by
      rw [skip_space_append _ _ hws, hk]
    simp only [next_item, list_text, list_tail_text, hspc, List.cons_append, hs, hk']
    simp [hne]

/-! ## Successive calls of `read_PKIMESSAGE` and `write_PKIMESSAGE` on one list -/

theorem files_opened_append (a b : List Event) :
    files_opened (a ++ b) = files_opened a ++ files_opened b := by
  induction a with
  | nil => rfl
  | cons e a ih => cases e <;> simp [files_opened, ih]

theorem read_PKIMESSAGE_files (env : Env) (tr : List Event) (file : List Char) :
    files_opened (read_PKIMESSAGE env tr (some file)).trace
      = files_opened tr ++ [(next_item file).1] := by
  rcases read_PKIMESSAGE_outcome env tr file with ⟨_, ht⟩ | ht <;>
    rw [ht, files_opened_append] <;> rfl

theorem write_PKIMESSAGE_files (env : Env) (tr : List Event) (m : Msg) (file : List Char) :
    files_opened (write_PKIMESSAGE env tr (some m) (some file)).trace
      = files_opened tr ++ [(next_item file).1] := by
  rcases write_PKIMESSAGE_outcome env tr m file with ⟨_, ht⟩ | ⟨_, ht | ht⟩ <;>
    rw [ht, files_opened_append] <;> rfl

theorem after_reads_none (env : Env) (k : Nat) (tr : List Event) :
    after_reads env k tr none = (tr, none) := by
  induction k with
  | zero => rfl
  | succ k ih => simpa [after_reads, read_PKIMESSAGE] using ih

theorem after_writes_none (env : Env) (msgs : Nat → Msg) (k : Nat) (tr : List Event) :
    after_writes env msgs k tr none = (tr, none) := by
  induction k generalizing msgs with
  | zero => rfl
  | succ k ih => simpa [after_writes, write_PKIMESSAGE] using ih _

theorem well_formed_tail (n0 n1 : List Char) (sp : Separator)
    (r : List (Separator × List Char)) (t : Option Separator)
    (h : well_formed n0 ((sp, n1) :: r) t = true) : well_formed n1 r t = true := by
  simp only [well_formed, List.all_cons, Bool.and_eq_true] at h ⊢
  exact ⟨⟨h.1.2.1.2, h.1.2.2⟩, h.2⟩

theorem after_reads_list (env : Env) (k : Nat) :
    ∀ (tr : List Event) (n0 : List Char) (r : List (Separator × List Char))
      (t : Option Separator), well_formed n0 r t = true →
      files_opened (after_reads env k tr (some (list_text n0 r t))).1
          = files_opened tr ++ (n0 :: r.map Prod.snd).take k
        ∧ (r.length + 1 ≤ k → (after_reads env k tr (some (list_text n0 r t))).2 = none) := by
  induction k with
  | zero => intro tr n0 r t _; simp [after_reads]
  | succ k ih =>
    intro tr n0 r t h
    have hf := read_PKIMESSAGE_files env tr (list_text n0 r t)
    have hp := read_PKIMESSAGE_filenames env tr (list_text n0 r t)
    rw [next_item_list_text n0 r t h] at hf hp
    simp only [after_reads, hp]
    cases r with
    | nil =>
      simp only [after_reads_none]
      simpa using hf
    | cons p r1 =>
      obtain ⟨sp, n1⟩ := p
      obtain ⟨ih1, ih2⟩ := ih (read_PKIMESSAGE env tr (some (list_text n0 ((sp, n1) :: r1) t))).trace
        n1 r1 t (well_formed_tail n0 n1 sp r1 t h)
      refine ⟨?_, fun hk => ih2 (by simpa using hk)⟩
      rw [ih1, hf]
      simp

theorem after_writes_list (env : Env) (k : Nat) :
    ∀ (msgs : Nat → Msg) (tr : List Event) (n0 : List Char)
      (r : List (Separator × List Char)) (t : Option Separator), well_formed n0 r t = true →
      files_opened (after_writes env msgs k tr (some (list_text n0 r t))).1
          = files_opened tr ++ (n0 :: r.map Prod.snd).take k
        ∧ (r.length + 1 ≤ k →
            (after_writes env msgs k tr (some (list_text n0 r t))).2 = none) := by
  induction k with
  | zero => intro msgs tr n0 r t _; simp [after_writes]
  | succ k ih =>
    intro msgs tr n0 r t h
    have hf := write_PKIMESSAGE_files env tr (msgs 0) (list_text n0 r t)
    have hp := write_PKIMESSAGE_filenames env tr (msgs 0) (list_text n0 r t)
    rw [next_item_list_text n0 r t h] at hf hp
    simp only [after_writes, hp]
    cases r with
    | nil =>
      simp only [after_writes_none]
      simpa using hf
    | cons p r1 =>
      obtain ⟨sp, n1⟩ := p
      obtain ⟨ih1, ih2⟩ := ih (fun i => msgs (i + 1))
        (write_PKIMESSAGE env tr (some (msgs 0))
          (some (list_text n0 ((sp, n1) :: r1) t))).trace
        n1 r1 t (well_formed_tail n0 n1 sp r1 t h)
      refine ⟨?_, fun hk => ih2 (by simpa using hk)⟩
      rw [ih1, hf]
      simp

/-- C6: on a list of names `n0, n1, ...` the first `k` calls of `read_PKIMESSAGE`,
and likewise of `write_PKIMESSAGE`, hand exactly the first `k` names to `BIO_new_file`, in
order and whatever the outcome of the file operations; once all names are used the pointer
is `NULL`, on which a call fails with no event at all; and a call whose file cannot be
opened fails. -/
theorem C6_names_consumed_in_order (env : Env) (msgs : Nat → Msg) (tr : List Event)
    (n0 : List Char) (r : List (Separator × List Char)) (t : Option Separator)
    (h : well_formed n0 r t = true) (k : Nat) :
    files_opened (after_reads env k tr (some (list_text n0 r t))).1
        = files_opened tr ++ (n0 :: r.map Prod.snd).take k
    ∧ files_opened (after_writes env msgs k tr (some (list_text n0 r t))).1
        = files_opened tr ++ (n0 :: r.map Prod.snd).take k
    ∧ (r.length + 1 ≤ k →
        (after_reads env k tr (some (list_text n0 r t))).2 = none
        ∧ (after_writes env msgs k tr (some (list_text n0 r t))).2 = none)
    ∧ (∀ tr1, (read_PKIMESSAGE env tr1 none).ret = none
        ∧ (read_PKIMESSAGE env tr1 none).trace = tr1)
    ∧ (∀ tr1 m, (write_PKIMESSAGE env tr1 (some m) none).ret = 0
        ∧ (write_PKIMESSAGE env tr1 (some m) none).trace = tr1)
    ∧ (∀ tr1 fl, env.BIO_new_file_rb tr1 (next_item fl).1 = false →
        (read_PKIMESSAGE env tr1 (some fl)).ret = none)
    ∧ (∀ tr1 fl m, env.BIO_new_file_wb tr1 (next_item fl).1 = false →
        (write_PKIMESSAGE env tr1 (some m) (some fl)).ret = 0) := by
  obtain ⟨hr1, hr2⟩ := after_reads_list env k tr n0 r t h
  obtain ⟨hw1, hw2⟩ := after_writes_list env k msgs tr n0 r t h
  refine ⟨hr1, hw1, fun hk => ⟨hr2 hk, hw2 hk⟩, fun _ => ⟨rfl, rfl⟩, fun _ _ => ⟨rfl, rfl⟩,
    ?_, ?_⟩
  · intro tr1 fl hf
    simp [read_PKIMESSAGE, hf]
  · intro tr1 fl m hf
    simp [write_PKIMESSAGE, hf]


theorem C6_names_consumed_in_order_witness :
    well_formed "req1.der".toList
        [(Separator.comma [' '], "req 2.der".toList),
         (Separator.blanks ' ' [], "req3.der".toList)] (some (Separator.comma [])) = true
    ∧ list_text "req1.der".toList
        [(Separator.comma [' '], "req 2.der".toList),
         (Separator.blanks ' ' [], "req3.der".toList)] (some (Separator.comma []))
      = "req1.der, req\\ 2.der req3.der,".toList
    ∧ files_opened (after_reads quiet_env 2 []
        (some (list_text "req1.der".toList
          [(Separator.comma [' '], "req 2.der".toList),
           (Separator.blanks ' ' [], "req3.der".toList)] (some (Separator.comma []))))).1
      = files_opened [] ++ ("req1.der".toList ::
          ([(Separator.comma [' '], "req 2.der".toList),
            (Separator.blanks ' ' [], "req3.der".toList)].map Prod.snd)).take 2 :=
  ⟨by decide, by decide,
   (C6_names_consumed_in_order quiet_env (fun _ => live_req) [] "req1.der".toList
      [(Separator.comma [' '], "req 2.der".toList),
       (Separator.blanks ' ' [], "req3.der".toList)] (some (Separator.comma []))
      (by decide) 2).1⟩

/-! ## `adjust_format` -/

theorem char_eq_of_toNat_sub (a b : Char) (h : (a.toNat : Int) - (b.toNat : Int) = 0) :
    a = b := by
  have : a.toNat = b.toNat := by omega
  rw [← Char.ofNat_toNat a, ← Char.ofNat_toNat b, this]

/-- Against a pattern of exactly `n` characters, none of them NUL, `strncasecmp` returns
`0` exactly when the first `n` characters agree with the pattern up to case. -/
theorem strncasecmp_eq_zero_iff (n : Nat) :
    ∀ (s p : List Char), p.length = n → (∀ c ∈ p, (tolower c).toNat ≠ 0) →
      (strncasecmp s p n = 0 ↔ (s.take n).map tolower = p.map tolower) := by
  induction n with
  | zero =>
    intro s p hp _
    have : p = [] := List.length_eq_zero.mp hp
    subst this
    simp [strncasecmp]
  | succ n ih =>
    intro s p hp hnz
    cases p with
    | nil => simp at hp
    | cons b p =>
      have hb : (tolower b).toNat ≠ 0 := hnz b (by simp)
      cases s with
      | nil =>
        simp only [strncasecmp, List.take_nil, List.map_nil, List.map_cons]
        constructor
        · intro h; omega
        · intro h; cases h
      | cons a s =>
        simp only [strncasecmp, List.take_succ_cons, List.map_cons, List.cons.injEq]
        by_cases hab : tolower a = tolower b
        · rw [if_pos hab]
          have := ih s p (by simpa using hp) (fun c hc => hnz c (by simp [hc]))
          simp [hab, this]
        · rw [if_neg hab]
          constructor
          · intro h; exact absurd (char_eq_of_toNat_sub _ _ h) hab
          · intro h; exact absurd h.1 hab

theorem strncasecmp_starts (p s : List Char) (hnz : ∀ c ∈ p, (tolower c).toNat ≠ 0) :
    strncasecmp s p p.length = 0 ↔ starts_with_ignoring_case p s = true := by
  rw [strncasecmp_eq_zero_iff p.length s p rfl hnz]
  simp [starts_with_ignoring_case]

theorem strncasecmp_extension (file e : List Char) (he : e.length = 4)
    (hnz : ∀ c ∈ e, (tolower c).toNat ≠ 0) (hlow : e.map tolower = e)
    (hlen : file.length ≥ 4) :
    strncasecmp (file.drop (file.length - 4)) e 4 = 0 ↔ last_four_lower file = e := by
  rw [strncasecmp_eq_zero_iff 4 _ e he hnz, hlow]
  have : (file.drop (file.length - 4)).take 4 = file.drop (file.length - 4) := by
    apply List.take_of_length_le
    simp only [List.length_drop]
    omega
  rw [this, last_four_lower]

/-- Lines 754-769 of `adjust_format` compute the extension table. -/
theorem extension_block (file : List Char) (format : Format) :
    (if file.length ≥ 4 then
      if strncasecmp (file.drop (file.length - 4)) ".crt".toList 4 = 0
          ∨ strncasecmp (file.drop (file.length - 4)) ".pem".toList 4 = 0 then
        (file, FORMAT_PEM)
      else if strncasecmp (file.drop (file.length - 4)) ".cer".toList 4 = 0
          ∨ strncasecmp (file.drop (file.length - 4)) ".der".toList 4 = 0 then
        (file, FORMAT_ASN1)
      else if strncasecmp (file.drop (file.length - 4)) ".p12".toList 4 = 0 then
        (file, FORMAT_PKCS12)
      else (file, format)
    else (file, format)) = (file, format_by_extension file format) := by
  by_cases hlen : file.length ≥ 4
  · rw [if_pos hlen]
    simp only [strncasecmp_extension file ".crt".toList rfl (by decide) (by decide) hlen,
      strncasecmp_extension file ".pem".toList rfl (by decide) (by decide) hlen,
      strncasecmp_extension file ".cer".toList rfl (by decide) (by decide) hlen,
      strncasecmp_extension file ".der".toList rfl (by decide) (by decide) hlen,
      strncasecmp_extension file ".p12".toList rfl (by decide) (by decide) hlen]
    have hlt : ¬ file.length < 4 := by omega
    simp only [format_by_extension, if_neg hlt]
    split_ifs <;> rfl
  · rw [if_neg hlen]
    have hlt : file.length < 4 := by omega
    simp only [format_by_extension, if_pos hlt]

theorem adjust_format_local (path : List Char) (declared : Format) :
    adjust_format path declared 0 = adjust_format_reference path declared := by
  have h7 := strncasecmp_starts "http://".toList path (by decide)
  have h8 := strncasecmp_starts "https://".toList path (by decide)
  have h5 := strncasecmp_starts "file:".toList path (by decide)
  have l7 : "http://".toList.length = 7 := rfl
  have l8 : "https://".toList.length = 8 := rfl
  have l5 : "file:".toList.length = 5 := rfl
  rw [l7] at h7
  rw [l8] at h8
  rw [l5] at h5
  simp only [adjust_format, adjust_format_reference, h7, h8, h5, ne_eq, not_true_eq_false,
    false_and, if_false]
  by_cases hh : starts_with_ignoring_case "http://".toList path = true
      ∨ starts_with_ignoring_case "https://".toList path = true
  · rw [if_pos hh, if_pos hh]
  · rw [if_neg hh, if_neg hh]
    by_cases hf : starts_with_ignoring_case "file:".toList path = true
    · simp only [hf, if_true]
      exact extension_block _ _
    · simp only [hf, if_false]
      exact extension_block _ _

/-- C7: as the loaders call it (`engine_ok = 0`), `adjust_format` equals the reference
written from the specification, for every path and every declared format. -/
theorem C7_adjust_format_refines_reference (path : List Char) (declared : Format) :
    adjust_format path declared 0 = adjust_format_reference path declared :=
  adjust_format_local path declared

theorem starts_with_head (p0 : Char) (p s : List Char)
    (h : starts_with_ignoring_case (p0 :: p) s = true) :
    ∃ a t, s = a :: t ∧ tolower a = tolower p0 := by
  cases s with
  | nil => simp [starts_with_ignoring_case] at h
  | cons a t =>
    simp only [starts_with_ignoring_case, List.length_cons, List.take_succ_cons, List.map_cons,
      List.cons.injEq, decide_eq_true_eq] at h
    exact ⟨a, t, rfl, h.1⟩

/-- C8 as stated fails: called with `engine_ok = 0`, as both loaders do, `adjust_format`
resolves `engine:mykey.pem` to PEM and `engine:mykey.der` to DER, and gives a name without
extension the declared format; the path keeps its `engine:`. -/
theorem C8_engine_uri_not_bypassed :
    adjust_format "engine:mykey.pem".toList FORMAT_ASN1 0
      = ("engine:mykey.pem".toList, FORMAT_PEM)
    ∧ adjust_format "engine:mykey.der".toList FORMAT_PEM 0
      = ("engine:mykey.der".toList, FORMAT_ASN1)
    ∧ adjust_format "engine:mykey".toList FORMAT_PKCS12 0
      = ("engine:mykey".toList, FORMAT_PKCS12) := by
  decide

/-- C8, amended: for a uri that starts with `engine:` (ignoring case) the loaders, which
pass `engine_ok = 0`, get the uri back unchanged with the format of the extension table,
the declared format where the table has no entry; only a caller passing a non-zero
`engine_ok` gets the engine-resident format, with `engine:` removed, whatever the
extension and the declared format. -/
theorem C8_engine_uri_needs_engine_ok (uri : List Char) (declared : Format)
    (h : starts_with_ignoring_case "engine:".toList uri = true) :
    adjust_format uri declared 0 = (uri, format_by_extension uri declared)
    ∧ ∀ engine_ok : Int, engine_ok ≠ 0 →
        adjust_format uri declared engine_ok = (uri.drop 7, FORMAT_ENGINE) := by
  obtain ⟨a, t, rfl, ha⟩ := starts_with_head _ _ _ h
  have hne : ∀ (p0 : Char) (p : List Char), tolower p0 ≠ tolower (Char.ofNat 101) →
      starts_with_ignoring_case (p0 :: p) (a :: t) = false := by
    intro p0 p hp
    cases hs : starts_with_ignoring_case (p0 :: p) (a :: t)
    · rfl
    · obtain ⟨a1, t1, h1, h2⟩ := starts_with_head _ _ _ hs
      cases h1
      exact absurd (h2.symm.trans ha) hp
  have n7 : starts_with_ignoring_case "http://".toList (a :: t) = false := hne _ _ (by decide)
  have n8 : starts_with_ignoring_case "https://".toList (a :: t) = false := hne _ _ (by decide)
  have n5 : starts_with_ignoring_case "file:".toList (a :: t) = false := hne _ _ (by decide)
  constructor
  · rw [adjust_format_local]
    simp only [adjust_format_reference, n7, n8, n5, Bool.false_eq_true, or_self, if_false]
  · intro engine_ok hok
    have h7 := strncasecmp_starts "http://".toList (a :: t) (by decide)
    have h8 := strncasecmp_starts "https://".toList (a :: t) (by decide)
    have he := strncasecmp_starts "engine:".toList (a :: t) (by decide)
    have l7 : "http://".toList.length = 7 := rfl
    have l8 : "https://".toList.length = 8 := rfl
    have le : "engine:".toList.length = 7 := rfl
    rw [l7] at h7
    rw [l8] at h8
    rw [le] at he
    simp only [adjust_format, h7, h8, he, n7, n8, h, hok, ne_eq, not_false_eq_true, and_self,
      Bool.false_eq_true, or_self, if_false, if_true]


theorem C8_engine_uri_needs_engine_ok_witness :
    starts_with_ignoring_case "engine:".toList "Engine:mykey.pem".toList = true
    ∧ adjust_format "Engine:mykey.pem".toList FORMAT_ASN1 0
        = ("Engine:mykey.pem".toList, format_by_extension "Engine:mykey.pem".toList FORMAT_ASN1)
    ∧ ∀ engine_ok : Int, engine_ok ≠ 0 →
        adjust_format "Engine:mykey.pem".toList FORMAT_ASN1 engine_ok
          = ("Engine:mykey.pem".toList.drop 7, FORMAT_ENGINE) :=
  ⟨by decide,
   C8_engine_uri_needs_engine_ok "Engine:mykey.pem".toList FORMAT_ASN1 (by decide)⟩

/-! ## `load_certs_autofmt` -/

/-- For a format other than HTTP the gate of line 876 is passed and the retry of line
885 depends on the first attempt alone. -/
theorem load_certs_autofmt_local (env : LoadEnv) (opt_certsform : Format)
    (infile : List Char) (certs : Option (List X509)) (exclude_http : Int)
    (pass : Option (List Char)) (file : List Char) (fmt : Format)
    (hres : adjust_format infile opt_certsform 0 = (file, fmt)) (hnh : fmt ≠ FORMAT_HTTP) :
    load_certs_autofmt env opt_certsform infile certs exclude_http pass
      = if (load_certs_preliminary env file certs fmt (env.get_passwd pass)).1 = 0 then
          ⟨(load_certs_preliminary env file
              (load_certs_preliminary env file certs fmt (env.get_passwd pass)).2
              (if fmt = FORMAT_PEM then FORMAT_ASN1 else FORMAT_PEM) (env.get_passwd pass)).1,
           (load_certs_preliminary env file
              (load_certs_preliminary env file certs fmt (env.get_passwd pass)).2
              (if fmt = FORMAT_PEM then FORMAT_ASN1 else FORMAT_PEM) (env.get_passwd pass)).2,
           [fmt, if fmt = FORMAT_PEM then FORMAT_ASN1 else FORMAT_PEM]⟩
        else
          ⟨(load_certs_preliminary env file certs fmt (env.get_passwd pass)).1,
           (load_certs_preliminary env file certs fmt (env.get_passwd pass)).2, [fmt]⟩ := by
  simp only [load_certs_autofmt, hres]
  rw [if_neg (fun hc => hnh hc.2)]
  by_cases h0 : (load_certs_preliminary env file certs fmt (env.get_passwd pass)).1 = 0
  · rw [if_pos ⟨h0, hnh⟩, if_pos h0]
  · rw [if_neg (fun hc => h0 hc.1), if_neg h0]

theorem load_certs_preliminary_pem (env : LoadEnv) (file : List Char)
    (certs : Option (List X509)) (pass : Option (List Char)) :
    load_certs_preliminary env file certs FORMAT_PEM pass
      = env.load_certs file certs FORMAT_PEM pass := by
  have h1 : ¬(FORMAT_PEM = FORMAT_PKCS12 ∨ FORMAT_PEM = FORMAT_ASN1) := by decide
  simp only [load_certs_preliminary]
  rw [if_neg h1]

theorem load_certs_preliminary_der (env : LoadEnv) (file : List Char)
    (certs : Option (List X509)) (pass : Option (List Char)) (cert : X509)
    (hder : env.load_cert_pass file pass = some cert)
    (hnew : env.sk_X509_new_null_ok = true) (hins : env.sk_X509_insert_ok = true) :
    (load_certs_preliminary env file certs FORMAT_ASN1 pass).1 ≠ 0
    ∧ ∃ l, (load_certs_preliminary env file certs FORMAT_ASN1 pass).2 = some (cert :: l) := by
  have h2 : ¬ FORMAT_ASN1 = FORMAT_PKCS12 := by decide
  simp only [load_certs_preliminary, h2, if_false, false_or, if_true, hder]
  cases certs with
  | none =>
    simp only [hnew, hins, if_true]
    exact ⟨by simp, [], rfl⟩
  | some l =>
    simp only [hins, if_true]
    exact ⟨by omega, l, rfl⟩

/-- C9: when the resolved format is PEM or DER, the first parse attempt is made in that
format; if it succeeds it is the only one, and if it fails there is exactly one more, in
the other of the two formats, whose outcome is the result; so there are never more than
two attempts.  In particular a file resolved to PEM that does not parse as PEM but does
load as DER is loaded by the second attempt. -/
theorem C9_one_retry_in_complement (env : LoadEnv) (opt_certsform : Format)
    (infile : List Char) (certs : Option (List X509)) (exclude_http : Int)
    (pass : Option (List Char)) (file : List Char) (fmt : Format)
    (hres : adjust_format infile opt_certsform 0 = (file, fmt))
    (h : fmt = FORMAT_PEM ∨ fmt = FORMAT_ASN1) :
    (load_certs_autofmt env opt_certsform infile certs exclude_http pass).attempts.length ≤ 2
    ∧ ((load_certs_preliminary env file certs fmt (env.get_passwd pass)).1 ≠ 0 →
        load_certs_autofmt env opt_certsform infile certs exclude_http pass
          = ⟨(load_certs_preliminary env file certs fmt (env.get_passwd pass)).1,
             (load_certs_preliminary env file certs fmt (env.get_passwd pass)).2, [fmt]⟩)
    ∧ ((load_certs_preliminary env file certs fmt (env.get_passwd pass)).1 = 0 →
        load_certs_autofmt env opt_certsform infile certs exclude_http pass
          = ⟨(load_certs_preliminary env file
                (load_certs_preliminary env file certs fmt (env.get_passwd pass)).2
                (if fmt = FORMAT_PEM then FORMAT_ASN1 else FORMAT_PEM)
                (env.get_passwd pass)).1,
             (load_certs_preliminary env file
                (load_certs_preliminary env file certs fmt (env.get_passwd pass)).2
                (if fmt = FORMAT_PEM then FORMAT_ASN1 else FORMAT_PEM)
                (env.get_passwd pass)).2,
             [fmt, if fmt = FORMAT_PEM then FORMAT_ASN1 else FORMAT_PEM]⟩)
    ∧ ∀ cert : X509, fmt = FORMAT_PEM →
        (env.load_certs file certs FORMAT_PEM (env.get_passwd pass)).1 = 0 →
        env.load_cert_pass file (env.get_passwd pass) = some cert →
        env.sk_X509_new_null_ok = true → env.sk_X509_insert_ok = true →
        (load_certs_autofmt env opt_certsform infile certs exclude_http pass).ret ≠ 0
        ∧ (load_certs_autofmt env opt_certsform infile certs exclude_http pass).attempts
          = [FORMAT_PEM, FORMAT_ASN1]
        ∧ ∃ l, (load_certs_autofmt env opt_certsform infile certs exclude_http pass).certs
          = some (cert :: l) := by
  have hnh : fmt ≠ FORMAT_HTTP := by
    rcases h with h | h <;> rw [h] <;> decide
  rw [load_certs_autofmt_local env opt_certsform infile certs exclude_http pass file fmt
    hres hnh]
  refine ⟨?_, ?_, ?_, ?_⟩
  · split_ifs <;> simp
  · intro h1
    rw [if_neg h1]
  · intro h0
    rw [if_pos h0]
  · intro cert hpem hfail hder hnew hins
    subst hpem
    have htry1 : (load_certs_preliminary env file certs FORMAT_PEM (env.get_passwd pass)).1
        = 0 := by
      rw [load_certs_preliminary_pem]; exact hfail
    rw [if_pos htry1, if_pos rfl]
    obtain ⟨hret, l, hl⟩ := load_certs_preliminary_der env file
      (load_certs_preliminary env file certs FORMAT_PEM (env.get_passwd pass)).2
      (env.get_passwd pass) cert hder hnew hins
    exact ⟨hret, rfl, l, hl⟩

theorem C9_one_retry_in_complement_witness :
    adjust_format "cert.pem".toList FORMAT_PEM 0 = ("cert.pem".toList, FORMAT_PEM)
    ∧ (FORMAT_PEM = FORMAT_PEM ∨ FORMAT_PEM = FORMAT_ASN1)
    ∧ (load_certs_autofmt mislabelled_env FORMAT_PEM "cert.pem".toList none 0
        none).attempts.length ≤ 2
    ∧ (load_certs_autofmt mislabelled_env FORMAT_PEM "cert.pem".toList none 0 none).ret ≠ 0
    ∧ (load_certs_autofmt mislabelled_env FORMAT_PEM "cert.pem".toList none 0 none).attempts
        = [FORMAT_PEM, FORMAT_ASN1]
    ∧ ∃ l, (load_certs_autofmt mislabelled_env FORMAT_PEM "cert.pem".toList none 0 none).certs
        = some (7 :: l) :=
  ⟨by decide, Or.inl rfl,
   (C9_one_retry_in_complement mislabelled_env FORMAT_PEM "cert.pem".toList none 0 none
      "cert.pem".toList FORMAT_PEM (by decide) (Or.inl rfl)).1,
   (C9_one_retry_in_complement mislabelled_env FORMAT_PEM "cert.pem".toList none 0 none
      "cert.pem".toList FORMAT_PEM (by decide) (Or.inl rfl)).2.2.2 7 rfl (by decide)
      (by decide) rfl rfl⟩

/-- C10 as stated fails: `bundle.p12` resolves to PKCS12, the PKCS12 parse fails, and a
second attempt is made in PEM, which here succeeds. -/
theorem C10_pkcs12_retried_as_pem :
    (adjust_format "bundle.p12".toList FORMAT_PEM 0).2 = FORMAT_PKCS12
    ∧ (load_certs_preliminary mislabelled_env "bundle.p12".toList none FORMAT_PKCS12 none).1 = 0
    ∧ load_certs_autofmt mislabelled_env FORMAT_PEM "bundle.p12".toList none 0 none
      = ⟨1, some [11, 12], [FORMAT_PKCS12, FORMAT_PEM]⟩ := by
  decide

/-- C10, amended: when the resolved format is PKCS12 and parsing as PKCS12 fails, exactly
one further attempt is made, in PEM and never in DER, and its outcome is the result; when
parsing as PKCS12 succeeds no further attempt is made. -/
theorem C10_pkcs12_failure_retries_pem_once (env : LoadEnv) (opt_certsform : Format)
    (infile : List Char) (certs : Option (List X509)) (exclude_http : Int)
    (pass : Option (List Char)) (file : List Char)
    (hres : adjust_format infile opt_certsform 0 = (file, FORMAT_PKCS12)) :
    ((load_certs_preliminary env file certs FORMAT_PKCS12 (env.get_passwd pass)).1 = 0 →
      load_certs_autofmt env opt_certsform infile certs exclude_http pass
        = ⟨(load_certs_preliminary env file
              (load_certs_preliminary env file certs FORMAT_PKCS12 (env.get_passwd pass)).2
              FORMAT_PEM (env.get_passwd pass)).1,
           (load_certs_preliminary env file
              (load_certs_preliminary env file certs FORMAT_PKCS12 (env.get_passwd pass)).2
              FORMAT_PEM (env.get_passwd pass)).2,
           [FORMAT_PKCS12, FORMAT_PEM]⟩)
    ∧ ((load_certs_preliminary env file certs FORMAT_PKCS12 (env.get_passwd pass)).1 ≠ 0 →
      load_certs_autofmt env opt_certsform infile certs exclude_http pass
        = ⟨(load_certs_preliminary env file certs FORMAT_PKCS12 (env.get_passwd pass)).1,
           (load_certs_preliminary env file certs FORMAT_PKCS12 (env.get_passwd pass)).2,
           [FORMAT_PKCS12]⟩) := by
  rw [load_certs_autofmt_local env opt_certsform infile certs exclude_http pass file
    FORMAT_PKCS12 hres (by decide)]
  constructor
  · intro h0
    rw [if_pos h0]
    simp
  · intro h1
    rw [if_neg h1]

theorem C10_pkcs12_failure_retries_pem_once_witness :
    adjust_format "bundle.p12".toList FORMAT_ASN1 0 = ("bundle.p12".toList, FORMAT_PKCS12)
    ∧ (load_certs_preliminary mislabelled_env "bundle.p12".toList none FORMAT_PKCS12
        (mislabelled_env.get_passwd none)).1 = 0
    ∧ load_certs_autofmt mislabelled_env FORMAT_ASN1 "bundle.p12".toList none 1 none
        = ⟨(load_certs_preliminary mislabelled_env "bundle.p12".toList
              (load_certs_preliminary mislabelled_env "bundle.p12".toList none FORMAT_PKCS12
                (mislabelled_env.get_passwd none)).2
              FORMAT_PEM (mislabelled_env.get_passwd none)).1,
           (load_certs_preliminary mislabelled_env "bundle.p12".toList
              (load_certs_preliminary mislabelled_env "bundle.p12".toList none FORMAT_PKCS12
                (mislabelled_env.get_passwd none)).2
              FORMAT_PEM (mislabelled_env.get_passwd none)).2,
           [FORMAT_PKCS12, FORMAT_PEM]⟩ :=
  ⟨by decide, by decide,
   (C10_pkcs12_failure_retries_pem_once mislabelled_env FORMAT_ASN1 "bundle.p12".toList none 1
      none "bundle.p12".toList (by decide)).1 (by decide)⟩

/-! ## Walking a list: `next_item` applied again and again -/

theorem walk_list_none (k : Nat) : walk_list k none = ([], none) := by
  cases k <;> rfl

theorem walk_list_text (k : Nat) :
    ∀ (n0 : List Char) (r : List (Separator × List Char)) (t : Option Separator),
      well_formed n0 r t = true →
      (walk_list k (some (list_text n0 r t))).1 = (n0 :: r.map Prod.snd).take k
      ∧ (r.length < k → (walk_list k (some (list_text n0 r t))).2 = none)
      ∧ (k ≤ r.length → (walk_list k (some (list_text n0 r t))).2 ≠ none) := by
  induction k with
  | zero => intro n0 r t _; simp [walk_list]
  | succ k ih =>
    intro n0 r t h
    have hn := next_item_list_text n0 r t h
    simp only [walk_list, hn]
    cases r with
    | nil => simp [walk_list_none]
    | cons p r1 =>
      obtain ⟨sp, n1⟩ := p
      obtain ⟨ih1, ih2, ih3⟩ := ih n1 r1 t (well_formed_tail n0 n1 sp r1 t h)
      refine ⟨?_, fun hk => ih2 (by simpa using hk), fun hk => ih3 (by simpa using hk)⟩
      simp [ih1]

theorem written_plain (n : List Char)
    (h : n.all (fun c => c ≠ Char.ofNat 0 && c ≠ ',' && !isspace c && c ≠ Char.ofNat 92)
      = true) : written n = n := by
  induction n with
  | nil => rfl
  | cons a n ih =>
    simp only [List.all_cons, Bool.and_eq_true, decide_eq_true_eq, Bool.not_eq_true'] at h
    obtain ⟨⟨⟨⟨-, h1⟩, h2⟩, h3⟩, hn⟩ := h
    have hne : ¬(a = ',' ∨ isspace a = true ∨ a = Char.ofNat 92) := by
      simp [h1, h2, h3]
    rw [written, written_char, if_neg hne, ih (by simpa using hn)]
    rfl

theorem plain_name_is_name (n : List Char) (h : is_plain_name n = true) :
    is_name n = true ∧ written n = n := by
  simp only [is_plain_name, Bool.and_eq_true] at h
  refine ⟨?_, written_plain n h.2⟩
  simp only [is_name, Bool.and_eq_true, h.1, true_and]
  rw [List.all_eq_true] at h ⊢
  intro c hc
  have := h.2 c hc
  simp only [Bool.and_eq_true, decide_eq_true_eq] at this ⊢
  exact this.1.1.1

theorem plain_tail_text_eq (r : List (Separator × List Char)) (t : Option Separator)
    (h : r.all (fun p => p.1.ok && is_plain_name p.2) = true) :
    plain_tail_text r t = list_tail_text r t
    ∧ r.all (fun p => p.1.ok && is_name p.2) = true := by
  induction r with
  | nil => cases t <;> exact ⟨rfl, rfl⟩
  | cons p r ih =>
    obtain ⟨sp, nm⟩ := p
    simp only [List.all_cons, Bool.and_eq_true] at h
    obtain ⟨⟨hsp, hnm⟩, hr⟩ := h
    obtain ⟨h1, h2⟩ := ih hr
    obtain ⟨hn1, hn2⟩ := plain_name_is_name nm hnm
    refine ⟨?_, ?_⟩
    · rw [plain_tail_text, list_tail_text, h1, hn2]
    · simp only [List.all_cons, Bool.and_eq_true]
      exact ⟨⟨hsp, hn1⟩, h2⟩

theorem plain_text_eq (n0 : List Char) (r : List (Separator × List Char))
    (t : Option Separator) (h : plain_well_formed n0 r t = true) :
    plain_text n0 r t = list_text n0 r t ∧ well_formed n0 r t = true := by
  simp only [plain_well_formed, Bool.and_eq_true] at h
  obtain ⟨⟨h0, hr⟩, ht⟩ := h
  obtain ⟨h1, h2⟩ := plain_tail_text_eq r t hr
  obtain ⟨hn1, hn2⟩ := plain_name_is_name n0 h0
  refine ⟨?_, ?_⟩
  · rw [plain_text, list_text, h1, hn2]
  · simp only [well_formed, Bool.and_eq_true]
    exact ⟨⟨hn1, h2⟩, ht⟩

/-- C11: on a list of plain names joined by separators, with or without a separator at the
end, the first `k` applications of `next_item` yield the first `k` names, in order; after
all names the pointer is `NULL`, and not before; no name is empty. -/
theorem C11_next_item_yields_the_names (n0 : List Char) (r : List (Separator × List Char))
    (t : Option Separator) (h : plain_well_formed n0 r t = true) (k : Nat) :
    (walk_list k (some (plain_text n0 r t))).1 = (n0 :: r.map Prod.snd).take k
    ∧ ((n0 :: r.map Prod.snd).length ≤ k →
        walk_list k (some (plain_text n0 r t)) = (n0 :: r.map Prod.snd, none))
    ∧ (k < (n0 :: r.map Prod.snd).length →
        (walk_list k (some (plain_text n0 r t))).2 ≠ none)
    ∧ ∀ item ∈ (n0 :: r.map Prod.snd), item ≠ [] := by
  obtain ⟨he, hw⟩ := plain_text_eq n0 r t h
  obtain ⟨h1, h2, h3⟩ := walk_list_text k n0 r t hw
  rw [he]
  refine ⟨h1, ?_, ?_, ?_⟩
  · intro hk
    simp only [List.length_cons, List.length_map] at hk
    have hk2 : r.length < k := by omega
    have htake : (n0 :: r.map Prod.snd).take k = n0 :: r.map Prod.snd := by
      apply List.take_of_length_le
      simp only [List.length_cons, List.length_map]
      omega
    rw [htake] at h1
    exact Prod.ext h1 (h2 hk2)
  · intro hk
    simp only [List.length_cons, List.length_map] at hk
    exact h3 (by omega)
  · intro item hi
    simp only [well_formed, Bool.and_eq_true] at hw
    obtain ⟨⟨hn0, hr⟩, -⟩ := hw
    rcases List.mem_cons.mp hi with rfl | hi
    · intro he0; simp [is_name, he0] at hn0
    · obtain ⟨p, hp, rfl⟩ := List.mem_map.mp hi
      have := (List.all_eq_true.mp hr) p hp
      simp only [Bool.and_eq_true] at this
      intro he0
      simp [is_name, he0] at this

theorem C11_next_item_yields_the_names_witness :
    plain_well_formed "ca1.pem".toList
        [(Separator.comma [' '], "ca2.crt".toList),
         (Separator.blanks ' ' ['\t'], "ca3.der".toList)] (some (Separator.comma [])) = true
    ∧ plain_text "ca1.pem".toList
        [(Separator.comma [' '], "ca2.crt".toList),
         (Separator.blanks ' ' ['\t'], "ca3.der".toList)] (some (Separator.comma []))
      = "ca1.pem, ca2.crt \tca3.der,".toList
    ∧ walk_list 3 (some (plain_text "ca1.pem".toList
        [(Separator.comma [' '], "ca2.crt".toList),
         (Separator.blanks ' ' ['\t'], "ca3.der".toList)] (some (Separator.comma []))))
      = ("ca1.pem".toList ::
          [(Separator.comma [' '], "ca2.crt".toList),
           (Separator.blanks ' ' ['\t'], "ca3.der".toList)].map Prod.snd, none) :=
  ⟨by decide, by decide,
   (C11_next_item_yields_the_names "ca1.pem".toList
      [(Separator.comma [' '], "ca2.crt".toList),
       (Separator.blanks ' ' ['\t'], "ca3.der".toList)] (some (Separator.comma []))
      (by decide) 3).2.1 (by decide)⟩

/-! ## Escaped names -/

theorem next_item_scan_written_append (n rest : List Char) :
    next_item_scan (written n ++ rest)
      = (n ++ (next_item_scan rest).1, (next_item_scan rest).2) := by
  induction n with
  | nil => rfl
  | cons a n ih =>
    by_cases ha : a = ',' ∨ isspace a = true ∨ a = Char.ofNat 92
    · have hb : ¬(Char.ofNat 92 = ',' ∨ isspace (Char.ofNat 92) = true) := by decide
      rw [written, written_char, if_pos ha]
      simp only [List.cons_append, List.nil_append]
      rw [next_item_scan_cons, if_neg hb, if_pos rfl]
      simp only [ih]
    · have hsep : ¬(a = ',' ∨ isspace a = true) := fun h => ha (by tauto)
      have hbs : ¬ a = Char.ofNat 92 := fun h => ha (by tauto)
      rw [written, written_char, if_neg ha]
      simp only [List.cons_append, List.nil_append]
      rw [next_item_scan_cons, if_neg hsep, if_neg hbs, ih]

/-- C12: a name written with a backslash before each of its commas, white space characters
and backslashes comes back unchanged as the current item of `next_item`, whether it ends
the list or is followed by a separator; after a name that ends the list the result is
`NULL`; and a single backslash at the very end of the list is kept. -/
theorem C12_escaped_name_comes_back (name : List Char)
    (_hnul : ∀ c ∈ name, c ≠ Char.ofNat 0) :
    next_item (written name) = (name, none)
    ∧ (∀ (c : Char) (more : List Char), c = ',' ∨ isspace c = true →
        (next_item (written name ++ c :: more)).1 = name
        ∧ (next_item (written name ++ c :: more)).2
          = if skip_space more = [] then none else some (skip_space more))
    ∧ next_item (written name ++ [Char.ofNat 92]) = (name ++ [Char.ofNat 92], none) := by
  refine ⟨?_, ?_, ?_⟩
  · have h := next_item_scan_written_append name []
    rw [List.append_nil] at h
    simp [next_item, h, next_item_scan]
  · intro c more hc
    have h := next_item_scan_written_append name (c :: more)
    rw [next_item_scan_cons, if_pos hc] at h
    simp [next_item, h]
  · have h := next_item_scan_written_append name [Char.ofNat 92]
    have hb : next_item_scan [Char.ofNat 92] = ([Char.ofNat 92], []) := by decide
    rw [hb] at h
    simp [next_item, h]

theorem C12_escaped_name_comes_back_witness :
    (∀ c ∈ "my cert,v2\\.pem".toList, c ≠ Char.ofNat 0)
    ∧ written "my cert,v2\\.pem".toList = "my\\ cert\\,v2\\\\.pem".toList
    ∧ next_item (written "my cert,v2\\.pem".toList) = ("my cert,v2\\.pem".toList, none) :=
  ⟨by decide, by decide, (C12_escaped_name_comes_back "my cert,v2\\.pem".toList (by decide)).1⟩

/-! ## The loops over a list end -/

theorem next_item_scan_length (n : Nat) :
    ∀ s : List Char, s.length ≤ n → (next_item_scan s).2.length ≤ s.length := by
  induction n with
  | zero =>
    intro s hs
    have : s = [] := List.length_eq_zero.mp (by omega)
    subst this
    simp [next_item_scan]
  | succ n ih =>
    intro s hs
    cases s with
    | nil => simp [next_item_scan]
    | cons c cs =>
      rw [next_item_scan_cons]
      simp only [List.length_cons] at hs
      split_ifs with h1 h2
      · simp
      · cases cs with
        | nil => simp
        | cons d ds =>
          simp only [List.length_cons] at hs ⊢
          have := ih ds (by omega)
          omega
      · simp only [List.length_cons]
        have := ih cs (by omega)
        omega

theorem skip_space_length (s : List Char) : (skip_space s).length ≤ s.length := by
  induction s with
  | nil => simp [skip_space]
  | cons c cs ih =>
    simp only [skip_space]
    split_ifs
    · simp only [List.length_cons]; omega
    · simp

/-- The pointer returned by `next_item`, unless `NULL`, points to a text strictly shorter
than the text given. -/
theorem next_item_rest_length (s r : List Char) (h : (next_item s).2 = some r) :
    r.length < s.length := by
  have hl := next_item_scan_length s.length s (le_refl _)
  simp only [next_item] at h
  cases hs : (next_item_scan s).2 with
  | nil => rw [hs] at h; simp at h
  | cons c after =>
    rw [hs] at h hl
    simp only at h
    split_ifs at h with he
    have hr : r = skip_space after := by simpa using h.symm
    have := skip_space_length after
    simp only [List.length_cons] at hl
    rw [hr]
    omega

theorem walk_list_ends (k : Nat) :
    ∀ s : List Char, s.length < k → (walk_list k (some s)).2 = none := by
  induction k with
  | zero => intro s hs; omega
  | succ k ih =>
    intro s hs
    simp only [walk_list]
    cases hr : (next_item s).2 with
    | none => exact congrArg Prod.snd (walk_list_none k)
    | some r =>
      have := next_item_rest_length s r hr
      exact ih r (by omega)

/-! ## `load_certs_multifile` -/

theorem multifile_loop_over_items (env : CertsEnv) (opt_certsform : Format)
    (pass : Option (List Char)) (k : Nat) :
    ∀ (p : Option (List Char)) (result : List X509), (walk_list k p).2 = none →
      load_certs_multifile_loop env opt_certsform pass k p result
        = some (multifile_over_items env opt_certsform pass (walk_list k p).1 result) := by
  induction k with
  | zero =>
    intro p result h
    simp only [walk_list] at h
    subst h
    simp [load_certs_multifile_loop, walk_list, multifile_over_items]
  | succ k ih =>
    intro p result h
    cases p with
    | none => simp [load_certs_multifile_loop, walk_list, multifile_over_items]
    | some files =>
      simp only [walk_list] at h
      simp only [load_certs_multifile_loop, walk_list, multifile_over_items]
      split_ifs with h1 h2
      · rfl
      · rfl
      · split
        · rfl
        · exact ih _ _ h

/-- The call `load_certs_multifile` returns: its loop never runs out of rounds, and its
result is that of the recursion over the items of the list. -/
theorem load_certs_multifile_returns (env : CertsEnv) (opt_certsform : Format)
    (files : List Char) (pass : Option (List Char)) :
    load_certs_multifile env opt_certsform (some files) pass
      = some (if env.load.sk_X509_new_null_ok = false then none
              else multifile_over_items env opt_certsform pass (list_items files) []) := by
  simp only [load_certs_multifile, list_items]
  split_ifs with h
  · rfl
  · exact multifile_loop_over_items env opt_certsform pass _ _ _
      (walk_list_ends _ files (by omega))

theorem add_new_certs_append (sk a b : List X509) :
    add_new_certs sk (a ++ b) = add_new_certs (add_new_certs sk a) b := by
  simp [add_new_certs, List.foldl_append]

theorem add1_certs_loop_all_ok (env : CertsEnv)
    (hup : ∀ c, env.X509_up_ref_ok c = true) (hins : env.load.sk_X509_insert_ok = true)
    (certs : List X509) :
    ∀ sk : List X509, sk_X509_add1_certs_loop env 0 1 0 certs sk
      = (1, add_new_certs sk certs) := by
  induction certs with
  | nil => intro sk; rfl
  | cons c cs ih =>
    intro sk
    have hadd : sk_X509_add1_cert env sk c 1 0 = (1, if c ∈ sk then sk else sk ++ [c]) := by
      simp only [sk_X509_add1_cert, X509_cmp, hup, hins]
      by_cases hm : c ∈ sk
      · have : sk.any (fun x => decide ((if x = c then (0 : Int) else 1) = 0)) = true := by
          rw [List.any_eq_true]
          exact ⟨c, hm, by simp⟩
        simp [this, hm]
      · have : ¬ (sk.any (fun x => decide ((if x = c then (0 : Int) else 1) = 0)) = true) := by
          rw [List.any_eq_true]
          rintro ⟨x, hx, hx2⟩
          by_cases hxc : x = c
          · exact hm (hxc ▸ hx)
          · simp [hxc] at hx2
        simp [this, hm]
    simp only [sk_X509_add1_certs_loop, hadd, true_or, if_true]
    rw [if_neg (by decide)]
    rw [ih]
    simp [add_new_certs]

theorem multifile_over_items_all_ok (env : CertsEnv) (opt_certsform : Format)
    (pass : Option (List Char))
    (hup : ∀ c, env.X509_up_ref_ok c = true) (hins : env.load.sk_X509_insert_ok = true)
    (items : List (List Char)) :
    ∀ result : List X509,
      (∀ f ∈ items, (load_certs_autofmt env.load opt_certsform f none 0 pass).ret ≠ 0) →
      multifile_over_items env opt_certsform pass items result
        = some (add_new_certs result
            ((items.map (fun f =>
              ((load_certs_autofmt env.load opt_certsform f none 0 pass).certs).getD
                [])).flatten)) := by
  induction items with
  | nil => intro result _; simp [multifile_over_items, add_new_certs]
  | cons f fs ih =>
    intro result hall
    have hf := hall f (by simp)
    simp only [multifile_over_items]
    rw [if_neg hf]
    cases hc : (load_certs_autofmt env.load opt_certsform f none 0 pass).certs with
    | none =>
      simp only [sk_X509_add1_certs]
      rw [if_neg (by decide)]
      simp only [List.map_cons, hc, Option.getD_none, List.flatten_cons, List.nil_append]
      exact ih result (fun g hg => hall g (by simp [hg]))
    | some cs =>
      simp only [sk_X509_add1_certs, add1_certs_loop_all_ok env hup hins cs result]
      rw [if_neg (by decide)]
      simp only [List.map_cons, hc, Option.getD_some, List.flatten_cons, add_new_certs_append]
      exact ih _ (fun g hg => hall g (by simp [hg]))

theorem multifile_over_items_fails (env : CertsEnv) (opt_certsform : Format)
    (pass : Option (List Char)) (items : List (List Char)) :
    ∀ result : List X509,
      (∃ f ∈ items, (load_certs_autofmt env.load opt_certsform f none 0 pass).ret = 0) →
      multifile_over_items env opt_certsform pass items result = none := by
  induction items with
  | nil => intro result h; simp at h
  | cons f fs ih =>
    intro result h
    simp only [multifile_over_items]
    split_ifs with h1 h2
    · rfl
    · rfl
    · obtain ⟨g, hg, hg0⟩ := h
      rcases List.mem_cons.mp hg with rfl | hg
      · exact absurd hg0 h1
      · split
        · rfl
        · exact ih _ ⟨g, hg, hg0⟩

theorem add_new_certs_spec (certs : List X509) :
    ∀ sk : List X509, sk.Nodup →
      (add_new_certs sk certs).Nodup
      ∧ (∀ c, c ∈ add_new_certs sk certs ↔ c ∈ sk ∨ c ∈ certs)
      ∧ ∃ more, add_new_certs sk certs = sk ++ more ∧ List.Sublist more certs := by
  induction certs with
  | nil =>
    intro sk hsk
    exact ⟨hsk, by simp [add_new_certs], [], by simp [add_new_certs], List.Sublist.refl _⟩
  | cons c cs ih =>
    intro sk hsk
    have hstep : add_new_certs sk (c :: cs)
        = add_new_certs (if c ∈ sk then sk else sk ++ [c]) cs := by
      simp [add_new_certs]
    rw [hstep]
    by_cases hm : c ∈ sk
    · rw [if_pos hm]
      obtain ⟨h1, h2, more, h3, h4⟩ := ih sk hsk
      refine ⟨h1, ?_, more, h3, List.Sublist.cons c h4⟩
      intro x
      rw [h2 x]
      constructor
      · rintro (h | h)
        · exact Or.inl h
        · exact Or.inr (List.mem_cons_of_mem _ h)
      · rintro (h | h)
        · exact Or.inl h
        · rcases List.mem_cons.mp h with rfl | h
          · exact Or.inl hm
          · exact Or.inr h
    · rw [if_neg hm]
      have hnd : (sk ++ [c]).Nodup := by
        rw [List.nodup_append]
        refine ⟨hsk, List.nodup_singleton c, ?_⟩
        intro a ha hb
        simp at hb
        exact hm (hb ▸ ha)
      obtain ⟨h1, h2, more, h3, h4⟩ := ih (sk ++ [c]) hnd
      refine ⟨h1, ?_, c :: more, ?_, List.Sublist.cons₂ c h4⟩
      · intro x
        rw [h2 x]
        simp only [List.mem_append, List.mem_singleton, List.mem_cons]
        tauto
      · rw [h3]; simp

theorem list_items_text (n0 : List Char) (r : List (Separator × List Char))
    (t : Option Separator) (h : well_formed n0 r t = true) :
    list_items (list_text n0 r t) = n0 :: r.map Prod.snd := by
  have hlen : r.length < (list_text n0 r t).length + 1 := by
    have h1 := (walk_list_text ((list_text n0 r t).length + 1) n0 r t h).2.2
    by_contra hc
    exact h1 (by omega) (walk_list_ends _ _ (by omega))
  rw [list_items, (walk_list_text _ n0 r t h).1]
  apply List.take_of_length_le
  simp only [List.length_cons, List.length_map]
  omega

/-- C13: when every file of the list loads (and no stack operation fails),
`load_certs_multifile` returns the certificates of the files, file after file and within a
file in its order, each one left out that equals one already there: the result has no
certificate twice, has the same certificates as the concatenation, in the same order.
Whether a certificate is self-signed plays no part.  When a file of the list fails to
load, the result is `NULL`. -/
theorem C13_multifile_first_occurrences (env : CertsEnv) (opt_certsform : Format)
    (files : List Char) (pass : Option (List Char)) :
    ((∀ f ∈ list_items files,
        (load_certs_autofmt env.load opt_certsform f none 0 pass).ret ≠ 0) →
      env.load.sk_X509_new_null_ok = true → (∀ c, env.X509_up_ref_ok c = true) →
      env.load.sk_X509_insert_ok = true →
      load_certs_multifile env opt_certsform (some files) pass
        = some (some (first_occurrences
            (((list_items files).map (fun f =>
              ((load_certs_autofmt env.load opt_certsform f none 0 pass).certs).getD
                [])).flatten)))
      ∧ (first_occurrences
            (((list_items files).map (fun f =>
              ((load_certs_autofmt env.load opt_certsform f none 0 pass).certs).getD
                [])).flatten)).Nodup
      ∧ (∀ c, c ∈ first_occurrences
            (((list_items files).map (fun f =>
              ((load_certs_autofmt env.load opt_certsform f none 0 pass).certs).getD
                [])).flatten)
          ↔ c ∈ ((list_items files).map (fun f =>
              ((load_certs_autofmt env.load opt_certsform f none 0 pass).certs).getD
                [])).flatten)
      ∧ List.Sublist
          (first_occurrences
            (((list_items files).map (fun f =>
              ((load_certs_autofmt env.load opt_certsform f none 0 pass).certs).getD
                [])).flatten))
          (((list_items files).map (fun f =>
              ((load_certs_autofmt env.load opt_certsform f none 0 pass).certs).getD
                [])).flatten))
    ∧ ((∃ f ∈ list_items files,
          (load_certs_autofmt env.load opt_certsform f none 0 pass).ret = 0) →
        load_certs_multifile env opt_certsform (some files) pass = some none) := by
  rw [load_certs_multifile_returns]
  constructor
  · intro hall hnew hup hins
    obtain ⟨h1, h2, more, h3, h4⟩ := add_new_certs_spec
      (((list_items files).map (fun f =>
        ((load_certs_autofmt env.load opt_certsform f none 0 pass).certs).getD
          [])).flatten) [] List.nodup_nil
    refine ⟨?_, h1, ?_, ?_⟩
    · rw [if_neg (by simp [hnew]),
        multifile_over_items_all_ok env opt_certsform pass hup hins _ [] hall]
      rfl
    · intro c
      have := h2 c
      simpa using this
    · rw [first_occurrences, h3]
      simpa using h4
  · intro hex
    split_ifs
    · rfl
    · rw [multifile_over_items_fails env opt_certsform pass _ [] hex]

theorem C13_multifile_first_occurrences_witness :
    list_items "a.pem, b.pem c.pem".toList
      = ["a.pem".toList, "b.pem".toList, "c.pem".toList]
    ∧ (∀ f ∈ list_items "a.pem, b.pem c.pem".toList,
        (load_certs_autofmt three_files_env.load FORMAT_PEM f none 0 none).ret ≠ 0)
    ∧ load_certs_multifile three_files_env FORMAT_PEM (some "a.pem, b.pem c.pem".toList) none
        = some (some (first_occurrences
            (((list_items "a.pem, b.pem c.pem".toList).map (fun f =>
              ((load_certs_autofmt three_files_env.load FORMAT_PEM f none 0 none).certs).getD
                [])).flatten)))
    ∧ first_occurrences
        (((list_items "a.pem, b.pem c.pem".toList).map (fun f =>
          ((load_certs_autofmt three_files_env.load FORMAT_PEM f none 0 none).certs).getD
            [])).flatten) = [1, 2, 3, 4]
    ∧ ((∃ f ∈ list_items "a.pem, x.pem".toList,
          (load_certs_autofmt three_files_env.load FORMAT_PEM f none 0 none).ret = 0)
        ∧ load_certs_multifile three_files_env FORMAT_PEM (some "a.pem, x.pem".toList) none
          = some none) :=
  ⟨by decide, by decide,
   ((C13_multifile_first_occurrences three_files_env FORMAT_PEM "a.pem, b.pem c.pem".toList
      none).1 (by decide) rfl (fun _ => rfl) rfl).1,
   by decide,
   ⟨by decide,
    (C13_multifile_first_occurrences three_files_env FORMAT_PEM "a.pem, x.pem".toList
      none).2 (by decide)⟩⟩

/-! ## `load_certstore` -/

theorem certstore_loop_over_items (env : CertsEnv) (opt_certsform : Format)
    (opt_otherpass : Option (List Char)) (k : Nat) :
    ∀ (p : Option (List Char)) (store : Option (List X509)), (walk_list k p).2 = none →
      load_certstore_loop env opt_certsform opt_otherpass k p store
        = some (certstore_over_items env opt_certsform opt_otherpass (walk_list k p).1
            store) := by
  induction k with
  | zero =>
    intro p store h
    simp only [walk_list] at h
    subst h
    simp [load_certstore_loop, walk_list, certstore_over_items]
  | succ k ih =>
    intro p store h
    cases p with
    | none => simp [load_certstore_loop, walk_list, certstore_over_items]
    | some input =>
      simp only [walk_list] at h
      simp only [load_certstore_loop, walk_list, certstore_over_items]
      split_ifs with h1
      · rfl
      · split
        · rfl
        · exact ih _ _ h

/-- The call `load_certstore` returns: its loop never runs out of rounds, and its result is
that of the recursion over the items of the list. -/
theorem load_certstore_returns (env : CertsEnv) (opt_certsform : Format)
    (input : List Char) (opt_otherpass : Option (List Char)) :
    load_certstore env opt_certsform (some input) opt_otherpass
      = some (certstore_over_items env opt_certsform opt_otherpass (list_items input)
          none) := by
  simp only [load_certstore, list_items]
  exact certstore_loop_over_items env opt_certsform opt_otherpass _ _ _
    (walk_list_ends _ input (by omega))

theorem sk_X509_to_store_loop_some (env : CertsEnv) (certs : List X509) :
    ∀ store st : List X509, sk_X509_to_store_loop env certs store = some st →
      st = store ++ certs ∧ ∀ c ∈ certs, env.X509_STORE_add_cert_ok c = true := by
  induction certs with
  | nil =>
    intro store st h
    simp only [sk_X509_to_store_loop, Option.some.injEq] at h
    simp [h]
  | cons c cs ih =>
    intro store st h
    simp only [sk_X509_to_store_loop] at h
    split_ifs at h with hc
    obtain ⟨h1, h2⟩ := ih _ _ h
    refine ⟨by simp [h1, X509_STORE_add_cert], ?_⟩
    intro x hx
    rcases List.mem_cons.mp hx with rfl | hx
    · simpa using hc
    · exact h2 x hx

theorem sk_X509_to_store_some (env : CertsEnv) (store certs : Option (List X509))
    (st : List X509) (h : sk_X509_to_store env store certs = some st) :
    st = store.getD [] ++ certs.getD []
    ∧ ∀ c ∈ certs.getD [], env.X509_STORE_add_cert_ok c = true := by
  simp only [sk_X509_to_store] at h
  cases store with
  | none =>
    by_cases hn : env.X509_STORE_new_ok = true
    · simp only [hn, if_true] at h
      cases certs with
      | none => simp at h; simp [h]
      | some cs => simpa using sk_X509_to_store_loop_some env cs [] st h
    · simp [hn] at h
  | some s0 =>
    cases certs with
    | none => simp at h; simp [h]
    | some cs => simpa using sk_X509_to_store_loop_some env cs s0 st h

theorem certstore_over_items_some (env : CertsEnv) (opt_certsform : Format)
    (opt_otherpass : Option (List Char)) (items : List (List Char)) :
    ∀ (store : Option (List X509)) (st : List X509),
      certstore_over_items env opt_certsform opt_otherpass items store = some st →
      (∀ c ∈ store.getD [], c ∈ st)
      ∧ ∀ f ∈ items,
          (load_certs_autofmt env.load opt_certsform f none 1 opt_otherpass).ret ≠ 0
          ∧ ∀ c ∈ ((load_certs_autofmt env.load opt_certsform f none 1
                opt_otherpass).certs).getD [],
              c ∈ st ∧ env.X509_STORE_add_cert_ok c = true := by
  induction items with
  | nil =>
    intro store st h
    simp only [certstore_over_items] at h
    subst h
    simp
  | cons f fs ih =>
    intro store st h
    simp only [certstore_over_items] at h
    split_ifs at h with h0
    cases hs : sk_X509_to_store env store
        (load_certs_autofmt env.load opt_certsform f none 1 opt_otherpass).certs with
    | none => rw [hs] at h; simp at h
    | some st1 =>
      rw [hs] at h
      simp only at h
      obtain ⟨hst1, hok⟩ := sk_X509_to_store_some env _ _ st1 hs
      obtain ⟨ih1, ih2⟩ := ih (some st1) st h
      simp only [Option.getD_some] at ih1
      refine ⟨fun c hc => ih1 c (by rw [hst1]; exact List.mem_append_left _ hc), ?_⟩
      intro g hg
      rcases List.mem_cons.mp hg with rfl | hg
      · exact ⟨h0, fun c hc =>
          ⟨ih1 c (by rw [hst1]; exact List.mem_append_right _ hc), hok c hc⟩⟩
      · exact ih2 g hg

theorem load_certs_autofmt_http (env : LoadEnv) (opt_certsform : Format) (f : List Char)
    (certs : Option (List X509)) (pass : Option (List Char))
    (h : starts_with_ignoring_case "http://".toList f = true
      ∨ starts_with_ignoring_case "https://".toList f = true) :
    (load_certs_autofmt env opt_certsform f certs 1 pass).ret = 0 := by
  have href : adjust_format_reference f opt_certsform = (f, FORMAT_HTTP) := by
    simp only [adjust_format_reference]
    rw [if_pos h]
  have hres := (adjust_format_local f opt_certsform).trans href
  simp [load_certs_autofmt, hres]

/-- C17: `load_certstore` returns, and what it returns is either no store or a store
holding every certificate loaded from every item of its list; it is no store when the list
is `NULL`, when an item fails to load, when an item starts with `http://` or `https://`
(ignoring case), and when a loaded certificate cannot be added. -/
theorem C17_certstore_all_or_nothing (env : CertsEnv) (opt_certsform : Format)
    (input : List Char) (opt_otherpass : Option (List Char)) :
    (load_certstore env opt_certsform (some input) opt_otherpass = some none
      ∨ ∃ st, load_certstore env opt_certsform (some input) opt_otherpass = some (some st)
          ∧ ∀ f ∈ list_items input,
              ∀ c ∈ ((load_certs_autofmt env.load opt_certsform f none 1
                  opt_otherpass).certs).getD [], c ∈ st)
    ∧ ((∃ f ∈ list_items input,
          (load_certs_autofmt env.load opt_certsform f none 1 opt_otherpass).ret = 0) →
        load_certstore env opt_certsform (some input) opt_otherpass = some none)
    ∧ ((∃ f ∈ list_items input, starts_with_ignoring_case "http://".toList f = true
          ∨ starts_with_ignoring_case "https://".toList f = true) →
        load_certstore env opt_certsform (some input) opt_otherpass = some none)
    ∧ ((∃ f ∈ list_items input,
          ∃ c ∈ ((load_certs_autofmt env.load opt_certsform f none 1
              opt_otherpass).certs).getD [], env.X509_STORE_add_cert_ok c = false) →
        load_certstore env opt_certsform (some input) opt_otherpass = some none)
    ∧ load_certstore env opt_certsform none opt_otherpass = some none := by
  rw [load_certstore_returns]
  have hinv := certstore_over_items_some env opt_certsform opt_otherpass (list_items input)
    none
  have hfail : (∃ f ∈ list_items input,
      (load_certs_autofmt env.load opt_certsform f none 1 opt_otherpass).ret = 0) →
      certstore_over_items env opt_certsform opt_otherpass (list_items input) none
        = none := by
    rintro ⟨f, hf, hf0⟩
    cases hr : certstore_over_items env opt_certsform opt_otherpass (list_items input) none
      with
    | none => rfl
    | some st => exact absurd hf0 ((hinv st hr).2 f hf).1
  refine ⟨?_, ?_, ?_, ?_, rfl⟩
  · cases hr : certstore_over_items env opt_certsform opt_otherpass (list_items input) none
      with
    | none => exact Or.inl rfl
    | some st => exact Or.inr ⟨st, rfl, fun f hf c hc => (((hinv st hr).2 f hf).2 c hc).1⟩
  · intro hex
    rw [hfail hex]
  · rintro ⟨f, hf, hh⟩
    rw [hfail ⟨f, hf, load_certs_autofmt_http env.load opt_certsform f none opt_otherpass hh⟩]
  · rintro ⟨f, hf, c, hc, hc0⟩
    cases hr : certstore_over_items env opt_certsform opt_otherpass (list_items input) none
      with
    | none => rfl
    | some st =>
      have := (((hinv st hr).2 f hf).2 c hc).2
      rw [hc0] at this
      cases this

theorem C17_certstore_all_or_nothing_witness :
    (∃ f ∈ list_items "a.pem, HTTPS://ca.example/b.pem".toList,
        starts_with_ignoring_case "http://".toList f = true
        ∨ starts_with_ignoring_case "https://".toList f = true)
    ∧ load_certstore three_files_env FORMAT_PEM
        (some "a.pem, HTTPS://ca.example/b.pem".toList) none = some none
    ∧ (∃ f ∈ list_items "a.pem, x.pem".toList,
        (load_certs_autofmt three_files_env.load FORMAT_PEM f none 1 none).ret = 0)
    ∧ load_certstore three_files_env FORMAT_PEM (some "a.pem, x.pem".toList) none = some none
    ∧ load_certstore three_files_env FORMAT_PEM (some "a.pem, b.pem c.pem".toList) none
        = some (some [1, 2, 2, 3, 1, 4]) :=
  ⟨by decide,
   (C17_certstore_all_or_nothing three_files_env FORMAT_PEM
      "a.pem, HTTPS://ca.example/b.pem".toList none).2.2.1 (by decide),
   by decide,
   (C17_certstore_all_or_nothing three_files_env FORMAT_PEM "a.pem, x.pem".toList
      none).2.1 (by decide),
   by decide⟩

/-! ## The mock server set up from the options -/

theorem setup_srv_ctx_failurebits (env : SrvEnv) (o : Options) (m : MockServer)
    (h : setup_srv_ctx env o = some m) :
    m.failurebits
      = (if o.opt_failure ≠ INT_MIN ∧ o.opt_failurebits = 0 then 2 ^ o.opt_failure.toNat
         else o.opt_failurebits)
    ∧ m.pollCount = o.opt_poll_count := by
  simp only [setup_srv_ctx] at h
  split_ifs at h <;> cases h <;>
    first
    | exact ⟨by rw [if_pos ‹_›], rfl⟩
    | exact ⟨by rw [if_neg ‹_›], rfl⟩

theorem setup_srv_ctx_some (env : SrvEnv) (o : Options) (fb : Int)
    (hc : env.credentials_ok = true)
    (hf : o.opt_failure = INT_MIN ∨ (0 ≤ o.opt_failure ∧ o.opt_failure ≤ 26))
    (hfb : fb = (if o.opt_failure ≠ INT_MIN ∧ o.opt_failurebits = 0 then
                   2 ^ o.opt_failure.toNat else o.opt_failurebits))
    (hr : fb % 2 ^ 32 ≤ 2 ^ 27 - 1)
    (hs : env.set_statusInfo_ok o.opt_pkistatus fb o.opt_statusstring = true) :
    ∃ m, setup_srv_ctx env o = some m := by
  have h1 : ¬(o.opt_failure ≠ INT_MIN
      ∧ (o.opt_failure < 0 ∨ OSSL_CMP_PKIFAILUREINFO_MAX < o.opt_failure)) := by
    simp only [OSSL_CMP_PKIFAILUREINFO_MAX]
    rcases hf with hf | hf
    · exact fun hh => hh.1 hf
    · rintro ⟨-, hh | hh⟩ <;> omega
  subst hfb
  simp only [setup_srv_ctx, hc, Bool.true_eq_false, if_false]
  rw [if_neg h1, if_neg (by simp only [OSSL_CMP_PKIFAILUREINFO_MAX_BIT_PATTERN]; omega)]
  simp only [hs, Bool.true_eq_false, if_false]
  exact ⟨_, rfl⟩

/-- C14 as stated fails: `-failure -2147483648`, or `failure = -2147483648` in the
configuration file, gives a failure index outside `0..26`, yet option processing succeeds
and so does the setup of the mock server, with no failure bit: `INT_MIN` is the value that
marks `-failure` as not given. -/
theorem C14_failure_index_int_min_accepted :
    (process_options none [CliOption.OPT_FAILURE (some INT_MIN)] 0 default_options).map
        (fun o => o.opt_failure) = some INT_MIN
    ∧ (process_options
        (some { number := fun name => if name = "failure".toList then some INT_MIN else none,
                text := fun _ => none }) [] 0 default_options).map
        (fun o => o.opt_failure) = some INT_MIN
    ∧ (INT_MIN < 0 ∨ 26 < INT_MIN)
    ∧ ((process_options none [CliOption.OPT_FAILURE (some INT_MIN)] 0 default_options).bind
        (setup_srv_ctx willing_srv_env)).map (fun m => m.failurebits) = some 0 := by
  decide

/-- C14, amended: with a failure index `k` in `0..26` and no failure bitmask (the variable
is `0`), the bitmask `2^k` has exactly bit `k` set, passes the range check, and is what a
successful `setup_srv_ctx` hands to the mock server; the setup succeeds whenever the
steps left to the library do.  With a failure index outside `0..26` other than `INT_MIN`,
the mark of an option not given, `setup_srv_ctx` fails. -/
theorem C14_failure_index_sets_one_bit (env : SrvEnv) (o : Options) :
    (0 ≤ o.opt_failure → o.opt_failure ≤ 26 → o.opt_failurebits = 0 →
      (∀ j : Nat, ((2 : Int) ^ o.opt_failure.toNat).toNat.testBit j
          = decide (j = o.opt_failure.toNat))
      ∧ (0 ≤ (2 : Int) ^ o.opt_failure.toNat % 2 ^ 32
          ∧ (2 : Int) ^ o.opt_failure.toNat % 2 ^ 32 ≤ 2 ^ 27 - 1)
      ∧ (∀ m, setup_srv_ctx env o = some m → m.failurebits = 2 ^ o.opt_failure.toNat)
      ∧ (env.credentials_ok = true →
          env.set_statusInfo_ok o.opt_pkistatus (2 ^ o.opt_failure.toNat) o.opt_statusstring
            = true →
          ∃ m, setup_srv_ctx env o = some m))
    ∧ (o.opt_failure ≠ INT_MIN → (o.opt_failure < 0 ∨ 26 < o.opt_failure) →
        setup_srv_ctx env o = none) := by
  constructor
  · intro h0 h26 hfb
    have hne : o.opt_failure ≠ INT_MIN := by simp only [INT_MIN]; omega
    have hle : o.opt_failure.toNat ≤ 26 := by omega
    have hpow : (2 : Int) ^ o.opt_failure.toNat ≤ 2 ^ 26 :=
      pow_le_pow_right₀ (by norm_num) hle
    have hpos : (0 : Int) < 2 ^ o.opt_failure.toNat := by positivity
    have hmod : (2 : Int) ^ o.opt_failure.toNat % 2 ^ 32 = 2 ^ o.opt_failure.toNat := by
      apply Int.emod_eq_of_lt (le_of_lt hpos)
      calc (2 : Int) ^ o.opt_failure.toNat ≤ 2 ^ 26 := hpow
        _ < 2 ^ 32 := by norm_num
    refine ⟨?_, ?_, ?_, ?_⟩
    · intro j
      have hcast : ((2 : Int) ^ o.opt_failure.toNat).toNat = 2 ^ o.opt_failure.toNat := by
        have : ((2 : Int) ^ o.opt_failure.toNat) = ((2 ^ o.opt_failure.toNat : Nat) : Int) := by
          push_cast; rfl
        rw [this, Int.toNat_natCast]
      rw [hcast, Nat.testBit_two_pow]
      by_cases hj : j = o.opt_failure.toNat
      · simp [hj]
      · have : ¬ o.opt_failure.toNat = j := fun h => hj h.symm
        simp [hj, this]
    · rw [hmod]
      refine ⟨le_of_lt hpos, ?_⟩
      calc (2 : Int) ^ o.opt_failure.toNat ≤ 2 ^ 26 := hpow
        _ ≤ 2 ^ 27 - 1 := by norm_num
    · intro m hm
      rw [(setup_srv_ctx_failurebits env o m hm).1, if_pos ⟨hne, hfb⟩]
    · intro hc hs
      refine setup_srv_ctx_some env o (2 ^ o.opt_failure.toNat) hc (Or.inr ⟨h0, h26⟩)
        (by rw [if_pos ⟨hne, hfb⟩]) ?_ hs
      rw [hmod]
      calc (2 : Int) ^ o.opt_failure.toNat ≤ 2 ^ 26 := hpow
        _ ≤ 2 ^ 27 - 1 := by norm_num
  · intro hne hout
    have h2 : o.opt_failure ≠ INT_MIN
        ∧ (o.opt_failure < 0 ∨ OSSL_CMP_PKIFAILUREINFO_MAX < o.opt_failure) :=
      ⟨hne, by simpa [OSSL_CMP_PKIFAILUREINFO_MAX] using hout⟩
    simp only [setup_srv_ctx]
    by_cases h1 : env.credentials_ok = false
    · rw [if_pos h1]
    · rw [if_neg h1, if_pos h2]

theorem C14_failure_index_sets_one_bit_witness :
    (0 : Int) ≤ ({ default_options with opt_failure := 3 } : Options).opt_failure
    ∧ ({ default_options with opt_failure := 3 } : Options).opt_failure ≤ 26
    ∧ ({ default_options with opt_failure := 3 } : Options).opt_failurebits = 0
    ∧ (∀ m, setup_srv_ctx willing_srv_env { default_options with opt_failure := 3 } = some m →
        m.failurebits
          = 2 ^ (({ default_options with opt_failure := 3 } : Options).opt_failure).toNat)
    ∧ (({ default_options with opt_failure := 27 } : Options).opt_failure ≠ INT_MIN
        ∧ ((({ default_options with opt_failure := 27 } : Options).opt_failure < 0
            ∨ 26 < ({ default_options with opt_failure := 27 } : Options).opt_failure))
        ∧ setup_srv_ctx willing_srv_env { default_options with opt_failure := 27 } = none) :=
  ⟨by decide, by decide, by decide,
   ((C14_failure_index_sets_one_bit willing_srv_env
      { default_options with opt_failure := 3 }).1 (by decide) (by decide) (by decide)).2.2.1,
   ⟨by decide, by decide,
    (C14_failure_index_sets_one_bit willing_srv_env
      { default_options with opt_failure := 27 }).2 (by decide) (by decide)⟩⟩

/-- C15 as stated fails: with `-failurebits 0 -failure 3` the bitmask handed to the mock
server is `8`, not the `0` given: a bitmask `0` is the mark of a bitmask not given. -/
theorem C15_explicit_zero_bitmask_replaced :
    process_options none
        [CliOption.OPT_FAILUREBITS (some 0), CliOption.OPT_FAILURE (some 3)] 0 default_options
      = some { default_options with opt_failurebits := 0, opt_failure := 3 }
    ∧ (setup_srv_ctx willing_srv_env
        { default_options with opt_failurebits := 0, opt_failure := 3 }).map
          (fun m => m.failurebits) = some 8 := by
  decide

/-- C15, amended: a failure bitmask `b` in `1..2^27-1` is what a successful `setup_srv_ctx`
hands to the mock server, whether no failure index is given or one in `0..26`; the setup
succeeds whenever the steps left to the library do, and `-failurebits b -failure k` on the
command line, in either order, leaves `b` and `k` in the variables. -/
theorem C15_nonzero_bitmask_kept (env : SrvEnv) (o : Options)
    (hb1 : 1 ≤ o.opt_failurebits) (hb2 : o.opt_failurebits ≤ 2 ^ 27 - 1)
    (hk : o.opt_failure = INT_MIN ∨ (0 ≤ o.opt_failure ∧ o.opt_failure ≤ 26)) :
    (∀ m, setup_srv_ctx env o = some m → m.failurebits = o.opt_failurebits)
    ∧ (env.credentials_ok = true →
        env.set_statusInfo_ok o.opt_pkistatus o.opt_failurebits o.opt_statusstring = true →
        ∃ m, setup_srv_ctx env o = some m)
    ∧ (get_opts_loop [CliOption.OPT_FAILUREBITS (some o.opt_failurebits),
          CliOption.OPT_FAILURE (some o.opt_failure)] default_options).2.opt_failurebits
        = o.opt_failurebits
    ∧ (get_opts_loop [CliOption.OPT_FAILURE (some o.opt_failure),
          CliOption.OPT_FAILUREBITS (some o.opt_failurebits)] default_options).2.opt_failurebits
        = o.opt_failurebits := by
  have hnz : ¬(o.opt_failure ≠ INT_MIN ∧ o.opt_failurebits = 0) := by
    rintro ⟨-, h0⟩; omega
  refine ⟨?_, ?_, rfl, rfl⟩
  · intro m hm
    rw [(setup_srv_ctx_failurebits env o m hm).1, if_neg hnz]
  · intro hc hs
    refine setup_srv_ctx_some env o o.opt_failurebits hc hk (by rw [if_neg hnz]) ?_ hs
    rw [Int.emod_eq_of_lt (by omega) (by omega)]
    exact hb2

theorem C15_nonzero_bitmask_kept_witness :
    (1 : Int) ≤ ({ default_options with opt_failurebits := 5, opt_failure := 3 }
        : Options).opt_failurebits
    ∧ ({ default_options with opt_failurebits := 5, opt_failure := 3 }
        : Options).opt_failurebits ≤ 2 ^ 27 - 1
    ∧ (0 ≤ ({ default_options with opt_failurebits := 5, opt_failure := 3 }
        : Options).opt_failure
      ∧ ({ default_options with opt_failurebits := 5, opt_failure := 3 }
        : Options).opt_failure ≤ 26)
    ∧ ∀ m, setup_srv_ctx willing_srv_env
          { default_options with opt_failurebits := 5, opt_failure := 3 } = some m →
        m.failurebits = ({ default_options with opt_failurebits := 5, opt_failure := 3 }
          : Options).opt_failurebits :=
  ⟨by decide, by decide, by decide,
   (C15_nonzero_bitmask_kept willing_srv_env
      { default_options with opt_failurebits := 5, opt_failure := 3 }
      (by decide) (by decide) (Or.inr (by decide))).1⟩

/-- C20, evaluated where it fails: `-poll_count -5` on the command line, and likewise
`poll_count = -5` in the configuration file, gets through option processing, and
`setup_srv_ctx` hands the poll count `-5` to the mock server.  `opt_nat` complains about
the negative number but returns it, and unlike the cases of `-msg_timeout` and
`-total_timeout` the case of `-poll_count` does not test the sign. -/
theorem C20_negative_poll_count_accepted :
    process_options none [CliOption.OPT_POLL_COUNT (some (-5))] 0 default_options
      = some { default_options with opt_poll_count := -5 }
    ∧ process_options
        (some { number := fun name => if name = "poll_count".toList then some (-5) else none,
                text := fun _ => none }) [] 0 default_options
      = some { default_options with opt_poll_count := -5 }
    ∧ (setup_srv_ctx willing_srv_env { default_options with opt_poll_count := -5 }).map
        (fun m => m.pollCount) = some (-5)
    ∧ process_options none [CliOption.OPT_MSG_TIMEOUT (some (-5))] 0 default_options = none := by
  decide

/-- C19, evaluated where it fails: a configuration file with `popo = 5` and `revreason = 7`
gets through option processing, and `setup_request_ctx` succeeds, handing `5` and `7` to
`OSSL_CMP_CTX_set_option`.  Only the cases of `-popo` and `-revreason` in `get_opts` test
the range; `read_config` stores any `int`. -/
theorem C19_config_file_codes_unchecked :
    process_options (some odd_conf) [] 0 default_options
      = some { default_options with opt_popo := 5, opt_revreason := 7 }
    ∧ setup_request_ctx willing_request_env
        { default_options with opt_popo := 5, opt_revreason := 7 }
      = (1, [(CtxOption.OSSL_CMP_OPT_POPO_METHOD, 5),
             (CtxOption.OSSL_CMP_OPT_REVOCATION_REASON, 7)]) := by
  decide

/-- What does hold of C19: on the command line an out-of-range `-popo` or `-revreason`,
wherever it stands, makes `get_opts` fail or stop, so that option processing fails. -/
theorem command_line_codes_checked (argv : List CliOption) (v : Int) :
    ∀ o : Options,
      (CliOption.OPT_POPO (some v) ∈ argv ∧ (v < -1 ∨ 2 < v))
        ∨ (CliOption.OPT_REVREASON (some v) ∈ argv ∧ (v < -1 ∨ 10 < v ∨ v = 7)) →
      (get_opts_loop argv o).1 ≤ 0 := by
  induction argv with
  | nil => intro o h; simp at h
  | cons c rest ih =>
    intro o h
    have hrest : ∀ o1 : Options, c ≠ CliOption.OPT_POPO (some v) →
        c ≠ CliOption.OPT_REVREASON (some v) → (get_opts_loop rest o1).1 ≤ 0 := by
      intro o1 h1 h2
      apply ih
      rcases h with ⟨hm, hv⟩ | ⟨hm, hv⟩
      · rcases List.mem_cons.mp hm with hm | hm
        · exact absurd hm.symm h1
        · exact Or.inl ⟨hm, hv⟩
      · rcases List.mem_cons.mp hm with hm | hm
        · exact absurd hm.symm h2
        · exact Or.inr ⟨hm, hv⟩
    cases c with
    | OPT_ERR => simp [get_opts_loop]
    | OPT_HELP => simp [get_opts_loop]
    | OPT_POPO arg =>
      cases arg with
      | none => simp [get_opts_loop]
      | some w =>
        simp only [get_opts_loop, OSSL_CRMF_POPO_NONE, OSSL_CRMF_POPO_KEYENC]
        split_ifs with hw
        · simp
        · by_cases hwv : w = v
          · subst hwv
            rcases h with ⟨-, hv⟩ | ⟨hm, hv⟩
            · exact absurd (by omega) hw
            · exact ih _ (Or.inr ⟨by simpa using hm, hv⟩)
          · exact hrest _ (by simpa using hwv) (by simp)
    | OPT_REVREASON arg =>
      cases arg with
      | none => simp [get_opts_loop]
      | some w =>
        simp only [get_opts_loop, CRL_REASON_NONE, CRL_REASON_AA_COMPROMISE]
        split_ifs with hw
        · simp
        · by_cases hwv : w = v
          · subst hwv
            rcases h with ⟨hm, hv⟩ | ⟨-, hv⟩
            · exact ih _ (Or.inl ⟨by simpa using hm, hv⟩)
            · exact absurd (by omega) hw
          · exact hrest _ (by simp) (by simpa using hwv)
    | OPT_MSG_TIMEOUT arg =>
      simp only [get_opts_loop]
      split_ifs
      · simp
      · exact hrest _ (by simp) (by simp)
    | OPT_TOTAL_TIMEOUT arg =>
      simp only [get_opts_loop]
      split_ifs
      · simp
      · exact hrest _ (by simp) (by simp)
    | _ =>
      simp only [get_opts_loop]
      exact hrest _ (by simp) (by simp)

/-! ## The identity expected of a peer -/

/-- C16 as stated fails: the empty host, which `-server :8080` leaves in `opt_server`, is
not `NULL` and no IP address; the call succeeds and no identity check at all is
configured. -/
theorem C16_empty_host_sets_no_check :
    parse_addr ":8080".toList 0 = (8080, [])
    ∧ one_address_env.set1_ip_asc [] = none
    ∧ truststore_set_host_etc one_address_env used_vpm (some [])
        = (1, { hosts := [], ip := none, email := none,
                hostflags := X509_CHECK_FLAG_ALWAYS_CHECK_SUBJECT
                  ||| X509_CHECK_FLAG_NO_PARTIAL_WILDCARDS }) := by
  decide

/-- C16, amended: `truststore_set_host_etc` with a null host succeeds and leaves no expected
host name, IP address or e-mail address, whatever the store held before.  With a host it
succeeds exactly when the host is taken as an IP address, is empty, or can be recorded as a
host name; after a success the e-mail address is gone, the IP address is the one the host
stands for and no host name is expected when the host is an IP literal, and otherwise no IP
address is expected and the host is the only host name expected unless it is empty, in
which case none is.  In all cases of success the host flags are exactly
always-check-subject plus no-partial-wildcards. -/
theorem C16_truststore_identity_reset (env : VpmEnv) (ts_vpm : X509_VERIFY_PARAM) :
    truststore_set_host_etc env ts_vpm none
        = (1, { hosts := [], ip := none, email := none,
                hostflags := X509_CHECK_FLAG_ALWAYS_CHECK_SUBJECT
                  ||| X509_CHECK_FLAG_NO_PARTIAL_WILDCARDS })
    ∧ ∀ host : List Char,
        ((truststore_set_host_etc env ts_vpm (some host)).1 ≠ 0
          ↔ ((env.set1_ip_asc host).isSome = true ∨ host = []
              ∨ env.set1_host_ok host = true))
        ∧ ((truststore_set_host_etc env ts_vpm (some host)).1 ≠ 0 →
            (truststore_set_host_etc env ts_vpm (some host)).2.email = none
            ∧ (truststore_set_host_etc env ts_vpm (some host)).2.hostflags
                = X509_CHECK_FLAG_ALWAYS_CHECK_SUBJECT ||| X509_CHECK_FLAG_NO_PARTIAL_WILDCARDS
            ∧ (∀ octets, env.set1_ip_asc host = some octets →
                (truststore_set_host_etc env ts_vpm (some host)).2.ip = some octets
                ∧ (truststore_set_host_etc env ts_vpm (some host)).2.hosts = [])
            ∧ (env.set1_ip_asc host = none →
                (truststore_set_host_etc env ts_vpm (some host)).2.ip = none
                ∧ (host ≠ [] →
                    (truststore_set_host_etc env ts_vpm (some host)).2.hosts = [host])
                ∧ (host = [] →
                    (truststore_set_host_etc env ts_vpm (some host)).2.hosts = []))) := by
  refine ⟨by simp [truststore_set_host_etc, X509_VERIFY_PARAM_set1_host,
    X509_VERIFY_PARAM_set1_ip_null, X509_VERIFY_PARAM_set1_email_null,
    X509_VERIFY_PARAM_set_hostflags], ?_⟩
  intro host
  cases hip : env.set1_ip_asc host with
  | some octets =>
    simp [truststore_set_host_etc, X509_VERIFY_PARAM_set1_host,
      X509_VERIFY_PARAM_set1_ip_null, X509_VERIFY_PARAM_set1_email_null,
      X509_VERIFY_PARAM_set_hostflags, X509_VERIFY_PARAM_set1_ip_asc, hip]
  | none =>
    by_cases he : host = []
    · subst he
      simp [truststore_set_host_etc, X509_VERIFY_PARAM_set1_host,
        X509_VERIFY_PARAM_set1_ip_null, X509_VERIFY_PARAM_set1_email_null,
        X509_VERIFY_PARAM_set_hostflags, X509_VERIFY_PARAM_set1_ip_asc, hip]
    · by_cases hok : env.set1_host_ok host = true
      · simp [truststore_set_host_etc, X509_VERIFY_PARAM_set1_host,
          X509_VERIFY_PARAM_set1_ip_null, X509_VERIFY_PARAM_set1_email_null,
          X509_VERIFY_PARAM_set_hostflags, X509_VERIFY_PARAM_set1_ip_asc, hip, hok, he]
      · simp [truststore_set_host_etc, X509_VERIFY_PARAM_set1_host,
          X509_VERIFY_PARAM_set1_ip_null, X509_VERIFY_PARAM_set1_email_null,
          X509_VERIFY_PARAM_set_hostflags, X509_VERIFY_PARAM_set1_ip_asc, hip, hok, he]

theorem C16_truststore_identity_reset_witness :
    (truststore_set_host_etc one_address_env used_vpm (some "ca.example".toList)).1 ≠ 0
    ∧ one_address_env.set1_ip_asc "ca.example".toList = none
    ∧ (truststore_set_host_etc one_address_env used_vpm (some "ca.example".toList)).2.ip = none
    ∧ (truststore_set_host_etc one_address_env used_vpm (some "ca.example".toList)).2.hosts
        = ["ca.example".toList]
    ∧ one_address_env.set1_ip_asc "192.0.2.1".toList = some [192, 0, 2, 1]
    ∧ (truststore_set_host_etc one_address_env used_vpm (some "192.0.2.1".toList)).2.ip
        = some [192, 0, 2, 1]
    ∧ (truststore_set_host_etc one_address_env used_vpm (some "192.0.2.1".toList)).2.hosts
        = [] :=
  ⟨by decide, by decide,
   ((((C16_truststore_identity_reset one_address_env used_vpm).2 "ca.example".toList).2
      (by decide)).2.2.2 (by decide)).1,
   ((((C16_truststore_identity_reset one_address_env used_vpm).2 "ca.example".toList).2
      (by decide)).2.2.2 (by decide)).2.1 (by decide),
   by decide,
   ((((C16_truststore_identity_reset one_address_env used_vpm).2 "192.0.2.1".toList).2
      (by decide)).2.2.1 [192, 0, 2, 1] (by decide)).1,
   ((((C16_truststore_identity_reset one_address_env used_vpm).2 "192.0.2.1".toList).2
      (by decide)).2.2.1 [192, 0, 2, 1] (by decide)).2⟩

/-! ## Protection of the requests -/

/-- C18: when no shared secret is given and exactly one of the client certificate and its
key is given, `setup_protection_ctx` returns `0` without having fetched a password, loaded
a key or certificates, or set anything in the context; `setup_client_ctx` then fails, and
`cmp_main` starts no session. -/
theorem C18_cert_and_key_go_together (env : ClientEnv) (o : ProtectionOptions)
    (opt_repeat : Int) (hsecret : o.opt_secret = none)
    (hone : (o.opt_cert = none ∧ o.opt_key ≠ none) ∨ (o.opt_cert ≠ none ∧ o.opt_key = none)) :
    setup_protection_ctx env.protection o = some (0, [])
    ∧ (∃ tr, setup_client_ctx env o = some (0, tr) ∧ ∀ ev ∈ tr, ev.is_load = false)
    ∧ cmp_main_client env o opt_repeat = some [] := by
  have h3 : o.opt_secret = none ∧ o.opt_cert.isNone ≠ o.opt_key.isNone := by
    refine ⟨hsecret, ?_⟩
    rcases hone with ⟨hc, hk⟩ | ⟨hc, hk⟩
    · cases hkey : o.opt_key with
      | none => exact absurd hkey hk
      | some k => simp [hc]
    · cases hcert : o.opt_cert with
      | none => exact absurd hcert hc
      | some c => simp [hk]
  have hp : setup_protection_ctx env.protection o = some (0, []) := by
    simp only [setup_protection_ctx]
    by_cases h1 : o.opt_unprotected_requests = 0 ∧ o.opt_secret = none ∧ o.opt_cert = none
    · rw [if_pos h1]
    · rw [if_neg h1]
      by_cases h2 : o.opt_ref = none ∧ o.opt_cert = none ∧ o.opt_subject = none
      · rw [if_pos h2]
      · rw [if_neg h2, if_pos h3]
  have hc : setup_client_ctx env o = some (0, []) := by
    simp only [setup_client_ctx, hp]
    by_cases hb : env.before_protection_ok = false
    · rw [if_pos hb]
    · rw [if_neg hb]
      simp
  refine ⟨hp, ⟨[], hc, by simp⟩, ?_⟩
  simp [cmp_main_client, hc]

theorem C18_cert_and_key_go_together_witness :
    ({ bare_protection_options with opt_cert := some "cl.pem".toList }
        : ProtectionOptions).opt_secret = none
    ∧ (({ bare_protection_options with opt_cert := some "cl.pem".toList }
        : ProtectionOptions).opt_cert ≠ none
      ∧ ({ bare_protection_options with opt_cert := some "cl.pem".toList }
        : ProtectionOptions).opt_key = none)
    ∧ setup_protection_ctx willing_client_env.protection
        { bare_protection_options with opt_cert := some "cl.pem".toList } = some (0, [])
    ∧ cmp_main_client willing_client_env
        { bare_protection_options with opt_cert := some "cl.pem".toList } 2 = some [] :=
  ⟨by decide, by decide,
   (C18_cert_and_key_go_together willing_client_env
      { bare_protection_options with opt_cert := some "cl.pem".toList } 2
      (by decide) (Or.inr (by decide))).1,
   (C18_cert_and_key_go_together willing_client_env
      { bare_protection_options with opt_cert := some "cl.pem".toList } 2
      (by decide) (Or.inr (by decide))).2.2⟩

/-- With both the certificate and its key given, the same world lets `setup_protection_ctx`
load the key and the certificates and lets `cmp_main` start its sessions. -/
theorem cert_with_key_gets_through :
    setup_protection_ctx willing_client_env.protection
        { bare_protection_options with
          opt_cert := some "cl.pem".toList
          opt_key := some "cl.key".toList }
      = some (1, [ProtectionEvent.OSSL_CMP_CTX_set1_referenceValue "ref".toList,
                  ProtectionEvent.get_passwd none, ProtectionEvent.load_key "cl.key".toList,
                  ProtectionEvent.OSSL_CMP_CTX_set1_pkey 5,
                  ProtectionEvent.load_certs_autofmt "cl.pem".toList,
                  ProtectionEvent.OSSL_CMP_CTX_set1_cert 7,
                  ProtectionEvent.add_untrusted_certs [8]])
    ∧ cmp_main_client willing_client_env
        { bare_protection_options with
          opt_cert := some "cl.pem".toList
          opt_key := some "cl.key".toList } 2 = some [0, 1] := by
  decide

/-! ## How far `next_item` moves -/

theorem next_item_scan_fits (n : Nat) :
    ∀ s : List Char, s.length ≤ n →
      (next_item_scan s).1.length + (next_item_scan s).2.length ≤ s.length
      ∧ (next_item_scan s).2 <:+ s := by
  induction n with
  | zero =>
    intro s hs
    have : s = [] := List.length_eq_zero.mp (by omega)
    subst this
    simp [next_item_scan]
  | succ n ih =>
    intro s hs
    cases s with
    | nil => simp [next_item_scan]
    | cons c cs =>
      rw [next_item_scan_cons]
      simp only [List.length_cons] at hs
      split_ifs with h1 h2
      · simp
      · cases cs with
        | nil => simp
        | cons d ds =>
          simp only [List.length_cons]
          obtain ⟨h3, h4⟩ := ih ds (by simp only [List.length_cons] at hs; omega)
          refine ⟨by omega, ?_⟩
          exact h4.trans ((List.suffix_cons d ds).trans (List.suffix_cons c (d :: ds)))
      · simp only [List.length_cons]
        obtain ⟨h3, h4⟩ := ih cs (by omega)
        exact ⟨by omega, h4.trans (List.suffix_cons c cs)⟩

theorem skip_space_suffix (s : List Char) : skip_space s <:+ s := by
  induction s with
  | nil => simp [skip_space]
  | cons c cs ih =>
    simp only [skip_space]
    split_ifs
    · exact ih.trans (List.suffix_cons c cs)
    · exact List.suffix_refl _

/-- The pointer returned by `next_item`, unless `NULL`, points to a text that is not empty,
is an end piece of the text given, and leaves room before it for the item and the
separator. -/
theorem next_item_some (s r : List Char) (h : (next_item s).2 = some r) :
    r ≠ [] ∧ r <:+ s ∧ (next_item s).1.length + 1 + r.length ≤ s.length := by
  obtain ⟨hl, hsuf⟩ := next_item_scan_fits s.length s (le_refl _)
  simp only [next_item] at h ⊢
  cases hs : (next_item_scan s).2 with
  | nil => rw [hs] at h; simp at h
  | cons c after =>
    rw [hs] at h hl hsuf
    simp only at h ⊢
    split_ifs at h with he
    have hr : r = skip_space after := by simpa using h.symm
    have h1 := skip_space_length after
    have h2 := skip_space_suffix after
    simp only [List.length_cons] at hl
    subst hr
    refine ⟨he, (h2.trans (List.suffix_cons c after)).trans hsuf, by omega⟩

theorem next_item_length (s : List Char) : (next_item s).1.length ≤ s.length := by
  have hl := (next_item_scan_fits s.length s (le_refl _)).1
  simp only [next_item]
  cases hs : (next_item_scan s).2 with
  | nil => simp only; omega
  | cons c after => simp only; omega

theorem walk_list_ends_nonempty (k : Nat) :
    ∀ s : List Char, s ≠ [] → s.length ≤ k → (walk_list k (some s)).2 = none := by
  induction k with
  | zero =>
    intro s hne hs
    exact absurd (List.length_eq_zero.mp (by omega)) hne
  | succ k ih =>
    intro s _ hs
    simp only [walk_list]
    cases hr : (next_item s).2 with
    | none => exact congrArg Prod.snd (walk_list_none k)
    | some r =>
      obtain ⟨h1, _, h3⟩ := next_item_some s r hr
      exact ih r h1 (by omega)

theorem walk_list_stable (k : Nat) :
    ∀ (s : List Char) (j : Nat), s.length < k → s.length < j →
      walk_list k (some s) = walk_list j (some s) := by
  induction k with
  | zero => intro s j hk; omega
  | succ k ih =>
    intro s j hk hj
    cases j with
    | zero => omega
    | succ j =>
      simp only [walk_list]
      cases hr : (next_item s).2 with
      | none => rw [walk_list_none, walk_list_none]
      | some r =>
        have := next_item_rest_length s r hr
        rw [ih r j (by omega) (by omega)]

theorem list_items_cons (s r : List Char) (h : (next_item s).2 = some r) :
    list_items s = (next_item s).1 :: list_items r := by
  have hlen := next_item_rest_length s r h
  have h1 : list_items s = (next_item s).1 :: (walk_list s.length (next_item s).2).1 := rfl
  rw [h1, h, walk_list_stable s.length r (r.length + 1) hlen (by omega)]
  rfl

theorem list_items_last (s : List Char) (h : (next_item s).2 = none) :
    list_items s = [(next_item s).1] := by
  have h1 : list_items s = (next_item s).1 :: (walk_list s.length (next_item s).2).1 := rfl
  rw [h1, h, walk_list_none]

/-- The call of `next_item` on a name that needs no escaping followed by a separator
character. -/
theorem next_item_plain_sep (a more : List Char) (c : Char)
    (ha : a.all (fun c => c ≠ Char.ofNat 0 && c ≠ ',' && !isspace c && c ≠ Char.ofNat 92)
      = true)
    (hc : c = ',' ∨ isspace c = true) :
    next_item (a ++ c :: more)
      = (a, if skip_space more = [] then none else some (skip_space more)) := by
  have h := next_item_scan_written_append a (c :: more)
  rw [written_plain a ha, next_item_scan_cons, if_pos hc] at h
  simp [next_item, h]

/-- The call of `next_item` on a name that needs no escaping and ends the list. -/
theorem next_item_plain_end (a : List Char)
    (ha : a.all (fun c => c ≠ Char.ofNat 0 && c ≠ ',' && !isspace c && c ≠ Char.ofNat 92)
      = true) :
    next_item a = (a, none) := by
  have h := next_item_scan_written_append a []
  rw [written_plain a ha, List.append_nil] at h
  simp [next_item, h, next_item_scan]

theorem skip_space_plain (b x : List Char) (hb : is_plain_name b = true) :
    skip_space (b ++ x) = b ++ x ∧ b ++ x ≠ [] := by
  cases b with
  | nil => simp [is_plain_name] at hb
  | cons c cs =>
    simp only [is_plain_name, List.all_cons, Bool.and_eq_true] at hb
    have hsp : isspace c = false := by
      have := hb.2.1
      simp only [Bool.and_eq_true, Bool.not_eq_true', decide_eq_true_eq] at this
      exact this.1.2
    simp [skip_space, hsp]

theorem walk_list_done (k : Nat) :
    ∀ (p : Option (List Char)) (j : Nat), (walk_list k p).2 = none → k ≤ j →
      walk_list j p = walk_list k p := by
  induction k with
  | zero =>
    intro p j h _
    simp only [walk_list] at h
    subst h
    rw [walk_list_none, walk_list_none]
  | succ k ih =>
    intro p j h hj
    cases p with
    | none => rw [walk_list_none, walk_list_none]
    | some s =>
      cases j with
      | zero => omega
      | succ j =>
        simp only [walk_list] at h ⊢
        rw [ih (next_item s).2 j h (by omega)]

theorem walk_list_length (k : Nat) :
    ∀ p : Option (List Char), (walk_list k p).1.length ≤ k := by
  induction k with
  | zero => intro p; simp [walk_list]
  | succ k ih =>
    intro p
    cases p with
    | none => simp [walk_list]
    | some s =>
      simp only [walk_list, List.length_cons]
      have := ih (next_item s).2
      omega

/-- The empty string, which `opt_str` and `read_config` turn into `NULL` and `next_item`
never returns, would take the loop `while (p != NULL) p = next_item(p)` one call, which
yields the empty item. -/
theorem walk_list_empty_string :
    ([] : List Char).length = 0
    ∧ walk_list 0 (some []) = ([], some [])
    ∧ walk_list 1 (some []) = ([[]], none)
    ∧ (list_items []).length = 1 := by
  decide

/-- C30: `next_item` returns `NULL` or a text that is not empty, is an end piece of the
text given, and is shorter than it by at least the length of the item and one separator
character; the item is never longer than the text given.  So the loop over a list of
length `L`, a text that is not empty, is through after at most `L` calls.  (The empty
string, which no option is left holding and `next_item` never returns, has the one empty
item.) -/
theorem C30_next_item_moves_on (s : List Char) :
    (∀ r, (next_item s).2 = some r →
        r ≠ [] ∧ r <:+ s ∧ (next_item s).1.length + 1 + r.length ≤ s.length
        ∧ r.length < s.length)
    ∧ (next_item s).1.length ≤ s.length
    ∧ (s ≠ [] →
        (walk_list s.length (some s)).2 = none
        ∧ (walk_list s.length (some s)).1 = list_items s
        ∧ (list_items s).length ≤ s.length)
    ∧ (s = [] → list_items s = [[]])
    ∧ opt_str [] = none := by
  refine ⟨?_, next_item_length s, ?_, ?_, by decide⟩
  · intro r hr
    obtain ⟨h1, h2, h3⟩ := next_item_some s r hr
    exact ⟨h1, h2, h3, by omega⟩
  · intro hne
    have hend := walk_list_ends_nonempty s.length s hne (le_refl _)
    have hsame : (walk_list s.length (some s)).1 = list_items s := by
      rw [list_items, walk_list_done s.length (some s) (s.length + 1) hend (by omega)]
    refine ⟨hend, hsame, ?_⟩
    rw [← hsame]
    exact walk_list_length s.length (some s)
  · intro he
    subst he
    decide

theorem C30_next_item_moves_on_witness :
    (next_item "ab, c".toList).2 = some "c".toList
    ∧ ("c".toList ≠ [] ∧ "c".toList <:+ "ab, c".toList
        ∧ (next_item "ab, c".toList).1.length + 1 + "c".toList.length ≤ "ab, c".toList.length
        ∧ "c".toList.length < "ab, c".toList.length)
    ∧ "ab, c".toList ≠ []
    ∧ (walk_list "ab, c".toList.length (some "ab, c".toList)).2 = none :=
  ⟨by decide,
   (C30_next_item_moves_on "ab, c".toList).1 "c".toList (by decide),
   by decide,
   ((C30_next_item_moves_on "ab, c".toList).2.2.1 (by decide)).1⟩

/-! ## White space before a comma, and two commas -/

/-- C27: `next_item` does not do what its header comment says ("in list separated by comma
and/or space", cmp.c 654): on `a ,b` three calls yield the items `a`, the empty item and
`b`; likewise on `a , b` and on `a,,b`. -/
theorem C27_space_before_comma_gives_empty_item :
    list_items "a ,b".toList = ["a".toList, [], "b".toList]
    ∧ list_items "a , b".toList = ["a".toList, [], "b".toList]
    ∧ list_items "a,,b".toList = ["a".toList, [], "b".toList]
    ∧ (next_item "a ,b".toList).2 = some ",b".toList
    ∧ next_item ",b".toList = ([], some "b".toList) := by
  decide

/-- What `next_item` does take as one separator: for names `a` and `b` that need no
escaping, a comma optionally followed by white space, and a run of white space, separate
`a` from `b`: repeated `next_item`
yields the two items `a` and `b`.  White space followed by a comma, and two commas, are
two separators: repeated `next_item` yields `a`, the empty item and `b`. -/
theorem next_item_separators (a b ws ws2 : List Char) (w : Char)
    (ha : is_plain_name a = true) (hb : is_plain_name b = true)
    (hw : isspace w = true) (hws : ws.all isspace = true) (hws2 : ws2.all isspace = true) :
    list_items (a ++ ',' :: (ws2 ++ b)) = [a, b]
    ∧ list_items (a ++ w :: (ws ++ b)) = [a, b]
    ∧ list_items (a ++ w :: (ws ++ ',' :: (ws2 ++ b))) = [a, [], b]
    ∧ list_items (a ++ ',' :: ',' :: (ws2 ++ b)) = [a, [], b] := by
  have hpa : a.all (fun c => c ≠ Char.ofNat 0 && c ≠ ',' && !isspace c && c ≠ Char.ofNat 92)
      = true := by
    simp only [is_plain_name, Bool.and_eq_true] at ha
    exact ha.2
  have hpb : b.all (fun c => c ≠ Char.ofNat 0 && c ≠ ',' && !isspace c && c ≠ Char.ofNat 92)
      = true := by
    simp only [is_plain_name, Bool.and_eq_true] at hb
    exact hb.2
  have hb1 : skip_space b = b ∧ b ≠ [] := by
    have := skip_space_plain b [] hb
    simpa using this
  have hlast : list_items b = [b] := by
    rw [list_items_last b (by rw [next_item_plain_end b hpb]), next_item_plain_end b hpb]
  -- from a separator character on, with white space up to `b`
  have hstep : ∀ (x : List Char) (c : Char), c = ',' ∨ isspace c = true →
      x.all (fun c => c ≠ Char.ofNat 0 && c ≠ ',' && !isspace c && c ≠ Char.ofNat 92) = true →
      ∀ (sp rest : List Char), sp.all isspace = true → skip_space rest = rest → rest ≠ [] →
      list_items (x ++ c :: (sp ++ rest)) = x :: list_items rest := by
    intro x c hc hx sp rest hsp hrest hne
    have hn : next_item (x ++ c :: (sp ++ rest)) = (x, some rest) := by
      rw [next_item_plain_sep x (sp ++ rest) c hx hc, skip_space_append sp rest hsp, hrest,
        if_neg hne]
    rw [list_items_cons _ rest (by rw [hn]), hn]
  have hcomma : skip_space (',' :: (ws2 ++ b)) = ',' :: (ws2 ++ b) := by
    simp [skip_space, isspace]
  have hempty : list_items (',' :: (ws2 ++ b)) = [[], b] := by
    have := hstep [] ',' (Or.inl rfl) (by simp) ws2 b hws2 hb1.1 hb1.2
    simpa [hlast] using this
  refine ⟨?_, ?_, ?_, ?_⟩
  · rw [hstep a ',' (Or.inl rfl) hpa ws2 b hws2 hb1.1 hb1.2, hlast]
  · rw [hstep a w (Or.inr hw) hpa ws b hws hb1.1 hb1.2, hlast]
  · rw [hstep a w (Or.inr hw) hpa ws (',' :: (ws2 ++ b)) hws hcomma (by simp), hempty]
  · have := hstep a ',' (Or.inl rfl) hpa [] (',' :: (ws2 ++ b)) (by simp) hcomma (by simp)
    simp only [List.nil_append] at this
    rw [this, hempty]

theorem next_item_separators_example :
    is_plain_name "a.pem".toList = true ∧ is_plain_name "b.pem".toList = true
    ∧ isspace ' ' = true
    ∧ list_items ("a.pem".toList ++ ',' :: (" ".toList ++ "b.pem".toList))
        = ["a.pem".toList, "b.pem".toList]
    ∧ list_items ("a.pem".toList ++ ' ' :: ([] ++ ',' :: (" ".toList ++ "b.pem".toList)))
        = ["a.pem".toList, [], "b.pem".toList] :=
  ⟨by decide, by decide, by decide,
   (next_item_separators "a.pem".toList "b.pem".toList [] " ".toList ' '
      (by decide) (by decide) (by decide) (by decide) (by decide)).1,
   (next_item_separators "a.pem".toList "b.pem".toList [] " ".toList ' '
      (by decide) (by decide) (by decide) (by decide) (by decide)).2.2.1⟩

/-! ## Numbers and addresses -/

theorem strtol_digits_eq (u : List Char) :
    ∀ acc : Nat, strtol_digits u acc
      = ((u.takeWhile isdigit).foldl (fun acc c => 10 * acc + (c.toNat - 48)) acc,
         u.dropWhile isdigit) := by
  induction u with
  | nil => intro acc; simp [strtol_digits]
  | cons c cs ih =>
    intro acc
    simp only [strtol_digits]
    by_cases hc : isdigit c = true
    · rw [if_pos hc, ih]
      simp [List.takeWhile_cons, List.dropWhile_cons, hc]
    · rw [if_neg hc]
      simp [List.takeWhile_cons, List.dropWhile_cons, hc]

theorem dropWhile_isdigit_nil (u : List Char) :
    u.dropWhile isdigit = [] ↔ u.all isdigit = true := by
  induction u with
  | nil => simp
  | cons c cs ih =>
    by_cases hc : isdigit c = true
    · simp [List.dropWhile_cons, hc, ih]
    · simp [List.dropWhile_cons, hc]

theorem takeWhile_isdigit_all (u : List Char) (h : u.all isdigit = true) :
    u.takeWhile isdigit = u := by
  induction u with
  | nil => simp
  | cons c cs ih =>
    simp only [List.all_cons, Bool.and_eq_true] at h
    simp [List.takeWhile_cons, h.1, ih h.2]

/-- What `atoint` makes of the digits that follow the white space and the sign. -/
theorem atoint_of_digits (str u : List Char) (negative : Bool)
    (hs : strtol str
      = match u with
        | [] => (0, str)
        | d :: _ =>
          if isdigit d = false then (0, str)
          else
            ((if (if negative = true then -((strtol_digits u 0).1 : Int)
                  else ((strtol_digits u 0).1 : Int)) < LONG_MIN then LONG_MIN
              else if (if negative = true then -((strtol_digits u 0).1 : Int)
                  else ((strtol_digits u 0).1 : Int)) > LONG_MAX then LONG_MAX
              else (if negative = true then -((strtol_digits u 0).1 : Int)
                  else ((strtol_digits u 0).1 : Int))),
             (strtol_digits u 0).2))
    (hne : str ≠ []) :
    atoint str
      = if (!u.isEmpty && u.all isdigit) = true
            ∧ INT_MIN ≤ (if negative = true then -(digits_value u : Int) else (digits_value u : Int))
            ∧ (if negative = true then -(digits_value u : Int) else (digits_value u : Int))
                ≤ INT_MAX
        then (if negative = true then -(digits_value u : Int) else (digits_value u : Int))
        else INT_MIN := by
  cases u with
  | nil =>
    simp only at hs
    simp [atoint, hs, hne]
  | cons d ds =>
    simp only at hs
    by_cases hd : isdigit d = true
    · rw [if_neg (by simp [hd])] at hs
      by_cases hall : (d :: ds).all isdigit = true
      · have hv : (strtol_digits (d :: ds) 0) = (digits_value (d :: ds), []) := by
          rw [strtol_digits_eq, takeWhile_isdigit_all _ hall,
            (dropWhile_isdigit_nil _).mpr hall]
          rfl
        rw [hv] at hs
        simp only at hs
        simp only [atoint, hs, hall, List.isEmpty_cons, Bool.not_false, Bool.and_self, true_and,
          ne_eq, not_true_eq_false, false_or]
        generalize (if negative = true then -(digits_value (d :: ds) : Int)
          else (digits_value (d :: ds) : Int)) = v
        simp only [INT_MIN, INT_MAX, LONG_MIN, LONG_MAX]
        split_ifs <;> omega
      · have htail : (strtol_digits (d :: ds) 0).2 ≠ [] := by
          rw [strtol_digits_eq]
          simp only
          intro h
          exact hall ((dropWhile_isdigit_nil _).mp h)
        have : (strtol str).2 ≠ [] := by rw [hs]; exact htail
        simp only [atoint]
        rw [if_pos (Or.inl this), if_neg]
        rintro ⟨h1, -⟩
        simp only [Bool.and_eq_true] at h1
        exact hall h1.2
    · have hd2 : isdigit d = false := by simpa using hd
      rw [if_pos hd2] at hs
      simp only [atoint, hs]
      rw [if_pos (Or.inl hne), if_neg]
      rintro ⟨h1, -⟩
      simp [hd2] at h1

/-- What holds of `atoint`: on every string but the empty one it returns the value of a
well-formed decimal integer that fits an `int`, and `INT_MIN` on anything else. -/
theorem atoint_spec (s : List Char) (hne : s ≠ []) :
    atoint s
      = if is_decimal_integer s = true ∧ INT_MIN ≤ decimal_value s ∧ decimal_value s ≤ INT_MAX
        then decimal_value s else INT_MIN := by
  cases ht : s.dropWhile isspace with
  | nil =>
    have h := atoint_of_digits s [] false (by simp [strtol, ht]) hne
    simpa [is_decimal_integer, decimal_value, ht] using h
  | cons c r =>
    by_cases hm : c = '-'
    · subst hm
      have h := atoint_of_digits s r true (by simp only [strtol, ht]) hne
      simpa [is_decimal_integer, decimal_value, ht] using h
    · by_cases hp : c = '+'
      · subst hp
        have h := atoint_of_digits s r false (by simp only [strtol, ht]; rfl) hne
        simpa [is_decimal_integer, decimal_value, ht] using h
      · have h1 : (match c :: r with
            | '-' :: _ => true
            | _ => false) = false := by
          split
          · rename_i heq; simp only [List.cons.injEq] at heq; exact absurd heq.1 hm
          · rfl
        have h2 : (match c :: r with
            | '-' :: r => r
            | '+' :: r => r
            | _ => c :: r) = c :: r := by
          split
          · rename_i heq; simp only [List.cons.injEq] at heq; exact absurd heq.1 hm
          · rename_i heq; simp only [List.cons.injEq] at heq; exact absurd heq.1 hp
          · rfl
        have h3 : (match c :: r with
            | '-' :: r => -(digits_value r : Int)
            | '+' :: r => (digits_value r : Int)
            | t => (digits_value t : Int)) = (digits_value (c :: r) : Int) := by
          split
          · rename_i heq; simp only [List.cons.injEq] at heq; exact absurd heq.1 hm
          · rename_i heq; simp only [List.cons.injEq] at heq; exact absurd heq.1 hp
          · rfl
        have h := atoint_of_digits s (c :: r) false
          (by simp only [strtol, ht, h1, h2]) hne
        simp only [is_decimal_integer, decimal_value, ht, h2, h3]
        simpa using h
theorem strrchr_none (c : Char) (s : List Char) : strrchr s c = none ↔ c ∉ s := by
  induction s with
  | nil => simp [strrchr]
  | cons x xs ih =>
    simp only [strrchr]
    cases h : strrchr xs c with
    | some k =>
      have : ¬ c ∉ xs := fun hn => by rw [ih.mpr hn] at h; cases h
      simp only [reduceCtorEq, false_iff]
      intro hn
      exact this (fun hm => hn (List.mem_cons_of_mem x hm))
    | none =>
      have hxs := ih.mp h
      by_cases hx : x = c
      · simp [hx]
      · simp only [if_neg hx, true_iff]
        intro hm
        rcases List.mem_cons.mp hm with hm | hm
        · exact hx hm.symm
        · exact hxs hm

theorem strrchr_split (c : Char) (addr p : List Char) (hp : c ∉ p) :
    strrchr (addr ++ c :: p) c = some addr.length := by
  induction addr with
  | nil => simp [strrchr, (strrchr_none c p).mpr hp]
  | cons x xs ih => simp [strrchr, ih]

theorem http_not_https (s : List Char)
    (h : starts_with_ignoring_case "http://".toList s = true) :
    starts_with_ignoring_case "https://".toList s = false := by
  by_contra hc
  have hc : starts_with_ignoring_case "https://".toList s = true := by simpa using hc
  simp only [starts_with_ignoring_case, decide_eq_true_eq] at h hc
  have h1 := congrArg (List.take 5) h
  have h2 := congrArg (List.take 5) hc
  simp only [← List.map_take, List.take_take] at h1 h2
  have h3 : (List.map tolower (List.take 5 s)) = List.take 5 (List.map tolower "http://".toList) := by
    simpa using h1
  have h4 : (List.map tolower (List.take 5 s)) = List.take 5 (List.map tolower "https://".toList) := by
    simpa using h2
  rw [h3] at h4
  revert h4
  decide

/-- The first step of `parse_addr`: the text after the scheme, and the default port. -/
theorem parse_addr_stripped (s : List Char) (port : Int) :
    (if strncasecmp s OSSL_HTTP_PREFIX OSSL_HTTP_PREFIX.length = 0 then
        (s.drop OSSL_HTTP_PREFIX.length, port)
      else if strncasecmp s OSSL_HTTPS_PREFIX OSSL_HTTPS_PREFIX.length = 0 then
        (s.drop OSSL_HTTPS_PREFIX.length, if port = 0 then 443 else port)
      else (s, port))
      = (address_and_port s, port_by_default s port) := by
  have e1 := strncasecmp_starts "http://".toList s (by decide)
  have e2 := strncasecmp_starts "https://".toList s (by decide)
  simp only [OSSL_HTTP_PREFIX, OSSL_HTTPS_PREFIX, address_and_port, port_by_default]
  by_cases h1 : starts_with_ignoring_case "http://".toList s = true
  · have h2 := http_not_https s h1
    rw [if_pos (e1.mpr h1), if_pos h1,
      if_neg (fun h => Bool.false_ne_true (h2.symm.trans h.1))]
    rfl
  · rw [if_neg (fun h => h1 (e1.mp h)), if_neg h1]
    by_cases h2 : starts_with_ignoring_case "https://".toList s = true
    · rw [if_pos (e2.mpr h2), if_pos h2]
      by_cases hp : port = 0
      · rw [if_pos hp, if_pos ⟨h2, hp⟩]
        rfl
      · rw [if_neg hp, if_neg (fun h => hp h.2)]
        rfl
    · rw [if_neg (fun h => h2 (e2.mp h)), if_neg h2, if_neg (fun h => h2 h.1)]

/-- C24: `parse_addr` on a server string whose part after the scheme holds no colon returns
the default port (`443` for `https://` with default `0`) and leaves that part as the
address; when the part is `addr:p` with no colon in `p`, it cuts the address down to `addr`
and returns what `atoint` makes of `p` if that is in `1..65535`, else `-1`: the value of `p`
when `p` is a well-formed decimal integer in `1..65535`, and `-1` on any other `p`. -/
theorem C24_parse_addr_port (s : List Char) (port : Int) :
    (':' ∉ address_and_port s →
        parse_addr s port = (port_by_default s port, address_and_port s))
    ∧ ∀ addr p : List Char, address_and_port s = addr ++ ':' :: p → ':' ∉ p →
        parse_addr s port
          = (if 1 ≤ atoint p ∧ atoint p ≤ 65535 then atoint p else -1, addr)
        ∧ ((parse_addr s port).1 ≠ -1 →
            1 ≤ (parse_addr s port).1 ∧ (parse_addr s port).1 ≤ 65535)
        ∧ (is_decimal_integer p = true → 1 ≤ decimal_value p → decimal_value p ≤ 65535 →
            (parse_addr s port).1 = decimal_value p)
        ∧ (¬(is_decimal_integer p = true ∧ 1 ≤ decimal_value p ∧ decimal_value p ≤ 65535) →
            (parse_addr s port).1 = -1) := by
  have hst := parse_addr_stripped s port
  constructor
  · intro hno
    simp only [parse_addr, hst, (strrchr_none ':' _).mpr hno]
  · intro addr p hsplit hp
    have hk := strrchr_split ':' addr p hp
    have hmain : parse_addr s port
        = (if 1 ≤ atoint p ∧ atoint p ≤ 65535 then atoint p else -1, addr) := by
      simp only [parse_addr, hst, hsplit, hk]
      have hd : List.drop (addr.length + 1) (addr ++ ':' :: p) = p := by
        simp
      have htk : List.take addr.length (addr ++ ':' :: p) = addr := by simp
      rw [hd, htk]
      by_cases hr : 1 ≤ atoint p ∧ atoint p ≤ 65535
      · rw [if_neg (by omega), if_pos hr]
      · rw [if_pos (by omega), if_neg hr]
    have hval : atoint p
        = if is_decimal_integer p = true ∧ INT_MIN ≤ decimal_value p
              ∧ decimal_value p ≤ INT_MAX
          then decimal_value p else (if p = [] then 0 else INT_MIN) := by
      by_cases he : p = []
      · subst he; decide
      · rw [atoint_spec p he, if_neg he]
    refine ⟨hmain, ?_, ?_, ?_⟩
    · intro hne
      rw [hmain] at hne ⊢
      by_cases hr : 1 ≤ atoint p ∧ atoint p ≤ 65535
      · rw [if_pos hr]; exact hr
      · rw [if_neg hr] at hne; exact absurd rfl hne
    · intro hd h1 h2
      have : atoint p = decimal_value p := by
        rw [hval, if_pos ⟨hd, by simp only [INT_MIN]; omega, by simp only [INT_MAX]; omega⟩]
      rw [hmain, this, if_pos ⟨h1, h2⟩]
    · intro hnot
      rw [hmain]
      apply if_neg
      rintro ⟨h1, h2⟩
      rw [hval] at h1 h2
      split_ifs at h1 h2 with ha hb
      · exact hnot ⟨ha.1, h1, h2⟩
      · omega
      · simp only [INT_MIN] at h1; omega

theorem C24_parse_addr_port_witness :
    address_and_port "https://ca.example:8443".toList = "ca.example".toList ++ ':' :: "8443".toList
    ∧ ':' ∉ "8443".toList
    ∧ parse_addr "https://ca.example:8443".toList 0
        = (if 1 ≤ atoint "8443".toList ∧ atoint "8443".toList ≤ 65535 then
            atoint "8443".toList else -1, "ca.example".toList)
    ∧ atoint "8443".toList = 8443
    ∧ ':' ∉ address_and_port "HTTPS://ca.example".toList
    ∧ parse_addr "HTTPS://ca.example".toList 0
        = (port_by_default "HTTPS://ca.example".toList 0,
           address_and_port "HTTPS://ca.example".toList)
    ∧ port_by_default "HTTPS://ca.example".toList 0 = 443 :=
  ⟨by decide, by decide,
   ((C24_parse_addr_port "https://ca.example:8443".toList 0).2 "ca.example".toList
      "8443".toList (by decide) (by decide)).1,
   by decide, by decide,
   (C24_parse_addr_port "HTTPS://ca.example".toList 0).1 (by decide),
   by decide⟩

/-- What `atoint` returns on some strings: a number with white space and a sign before it
is taken, trailing characters and numbers beyond an `int` give `INT_MIN`. -/
theorem atoint_samples :
    atoint "80".toList = 80 ∧ atoint " +80".toList = 80 ∧ atoint "-7".toList = -7
    ∧ atoint "80a".toList = INT_MIN ∧ atoint "a".toList = INT_MIN
    ∧ atoint " ".toList = INT_MIN ∧ atoint "-".toList = INT_MIN
    ∧ atoint "2147483647".toList = 2147483647 ∧ atoint "2147483648".toList = INT_MIN
    ∧ atoint "99999999999999999999".toList = INT_MIN
    ∧ atoint "-2147483648".toList = -2147483648 := by
  decide

/-- C25, evaluated where it fails: on the empty string `strtol` converts nothing, returns `0`
and leaves `tailptr` at the start, where the NUL stands; `atoint` tests only the character
at `tailptr`, so it returns `0`, not `INT_MIN`. -/
theorem C25_atoint_of_empty_string :
    strtol [] = (0, [])
    ∧ atoint [] = 0
    ∧ atoint [] ≠ INT_MIN
    ∧ is_decimal_integer [] = false := by
  decide

/-! ## Sections of the configuration file -/

theorem getD_middle (x n junk : List Char) (k : Nat) (hk : k < n.length) :
    (x ++ n ++ junk).getD (x.length + k) (Char.ofNat 0) ∈ n := by
  rw [List.append_assoc, List.getD_append_right _ _ _ _ (by omega)]
  rw [List.getD_append _ _ _ _ (by omega)]
  rw [List.getD_eq_getElem _ _ (by omega)]
  exact List.getElem_mem _

theorem getD_last (x' junk : List Char) (c : Char) :
    (x' ++ [c] ++ junk).getD x'.length (Char.ofNat 0) = c := by
  rw [List.append_assoc, List.getD_append_right _ _ _ _ (le_refl _)]
  simp

theorem prev_item_begin_name (x n junk : List Char)
    (hx : x = [] ∨ ∃ x' c, x = x' ++ [c] ∧ (c = ',' ∨ isspace c = true))
    (hn : ∀ c ∈ n, ¬(c = ',' ∨ isspace c = true)) :
    ∀ k, k ≤ n.length → prev_item_begin (x ++ n ++ junk) (x.length + k) = x.length := by
  intro k
  induction k with
  | zero =>
    intro _
    rcases hx with hx | ⟨x', c, hx, hc⟩
    · subst hx; simp [prev_item_begin]
    · subst hx
      have hl : (x' ++ [c]).length + 0 = x'.length + 1 := by simp
      rw [hl, prev_item_begin]
      have hg : (x' ++ [c] ++ n ++ junk).getD x'.length (Char.ofNat 0) = c := by
        rw [List.append_assoc (x' ++ [c])]
        exact getD_last x' (n ++ junk) c
      rw [hg, if_pos hc]
      simp
  | succ k ih =>
    intro hk
    have hl : x.length + (k + 1) = (x.length + k) + 1 := by omega
    rw [hl, prev_item_begin]
    have hm := getD_middle x n junk k (by omega)
    rw [if_neg (hn _ hm)]
    exact ih (by omega)

theorem prev_item_skip_run (p sep junk : List Char)
    (hp : p = [] ∨ ∃ p' c, p = p' ++ [c] ∧ ¬(c = ',' ∨ isspace c = true))
    (hsep : ∀ c ∈ sep, c = ',' ∨ isspace c = true) :
    ∀ k, k ≤ sep.length → prev_item_skip (p ++ sep ++ junk) (p.length + k) = p.length := by
  intro k
  induction k with
  | zero =>
    intro _
    rcases hp with hp | ⟨p', c, hp, hc⟩
    · subst hp; simp [prev_item_skip]
    · subst hp
      have hl : (p' ++ [c]).length + 0 = p'.length + 1 := by simp
      rw [hl, prev_item_skip]
      have hg : (p' ++ [c] ++ sep ++ junk).getD p'.length (Char.ofNat 0) = c := by
        rw [List.append_assoc (p' ++ [c])]
        exact getD_last p' (sep ++ junk) c
      rw [hg, if_neg hc]
      simp
  | succ k ih =>
    intro hk
    have hl : p.length + (k + 1) = (p.length + k) + 1 := by omega
    rw [hl, prev_item_skip]
    have hm := getD_middle p sep junk k (by omega)
    rw [if_pos (hsep _ hm)]
    exact ih (by omega)

theorem separator_run_last (sep : List Char) (hne : sep ≠ [])
    (hsep : ∀ c ∈ sep, c = ',' ∨ isspace c = true) (p : List Char) :
    ∃ x' c, p ++ sep = x' ++ [c] ∧ (c = ',' ∨ isspace c = true) := by
  refine ⟨p ++ sep.dropLast, sep.getLast hne, ?_, hsep _ (List.getLast_mem hne)⟩
  rw [List.append_assoc, List.dropLast_append_getLast hne]

/-- One call of `prev_item` at the end of a name `n` that follows the text `p` and the
separators `sep`: the name is the item and the result points to the end of `p`. -/
theorem prev_item_name (p sep n junk : List Char)
    (hp : p = [] ∨ ∃ p' c, p = p' ++ [c] ∧ ¬(c = ',' ∨ isspace c = true))
    (hsep : ∀ c ∈ sep, c = ',' ∨ isspace c = true) (hfirst : sep ≠ [] ∨ p = [])
    (hn : ∀ c ∈ n, ¬(c = ',' ∨ isspace c = true)) (hne : n ≠ []) :
    prev_item (p ++ sep ++ n ++ junk) (p.length + sep.length + n.length)
      = some
          { ret := p.length
            opt_item := n.take SECTION_NAME_MAX
            warned := false } := by
  have hx : p ++ sep = [] ∨ ∃ x' c, p ++ sep = x' ++ [c] ∧ (c = ',' ∨ isspace c = true) := by
    by_cases hs : sep = []
    · rcases hfirst with h | h
      · exact absurd hs h
      · left; simp [hs, h]
    · exact Or.inr (separator_run_last sep hs hsep p)
  have hbeg := prev_item_begin_name (p ++ sep) n junk hx hn n.length (le_refl _)
  rw [List.length_append] at hbeg
  have hskip : prev_item_skip (p ++ sep ++ n ++ junk) (p.length + sep.length) = p.length := by
    have := prev_item_skip_run p sep (n ++ junk) hp hsep sep.length (le_refl _)
    rwa [← List.append_assoc] at this
  have hpos : p.length + sep.length + n.length ≠ 0 := by
    have : 0 < n.length := List.length_pos.mpr hne
    omega
  simp only [prev_item, if_neg hpos, hbeg, hskip]
  have hdrop : List.drop (p.length + sep.length) (p ++ sep ++ n ++ junk) = n ++ junk := by
    rw [List.append_assoc (p ++ sep), ← List.length_append]
    exact List.drop_left _ _
  rw [hdrop]
  have hlen : p.length + sep.length + n.length - (p.length + sep.length) = n.length := by omega
  rw [hlen]
  by_cases hl : n.length > SECTION_NAME_MAX
  · have e1 : List.take SECTION_NAME_MAX (n ++ junk) = List.take SECTION_NAME_MAX n :=
      List.take_append_of_le_length (by omega)
    simp [hl, e1]
  · have e1 : List.take n.length (n ++ junk) = n := List.take_left' rfl
    have e2 : List.take SECTION_NAME_MAX n = n := List.take_of_length_le (by omega)
    simp [hl, e1, e2]

theorem section_name_facts (n : List Char) (h : is_section_name n = true) :
    n ≠ [] ∧ (∀ c ∈ n, ¬(c = ',' ∨ isspace c = true)) ∧ n.take SECTION_NAME_MAX = n := by
  simp only [is_section_name, Bool.and_eq_true, decide_eq_true_eq] at h
  obtain ⟨⟨h1, h2⟩, h3⟩ := h
  refine ⟨by intro he; simp [he] at h1, ?_, List.take_of_length_le h3⟩
  intro c hc
  have := List.all_eq_true.mp h2 c hc
  simp only [Bool.and_eq_true, Bool.not_eq_true', decide_eq_true_eq] at this
  rintro (h | h)
  · exact this.1 h
  · rw [this.2] at h; exact Bool.false_ne_true h

theorem separator_run_facts (l : List Char) (h : is_separator_run l = true) :
    l ≠ [] ∧ ∀ c ∈ l, c = ',' ∨ isspace c = true := by
  simp only [is_separator_run, Bool.and_eq_true] at h
  refine ⟨by intro he; simp [he] at h, ?_⟩
  intro c hc
  have := List.all_eq_true.mp h.2 c hc
  simpa using this

theorem sections_text_snoc (first : List Char) (more : List (List Char × List Char))
    (sep n : List Char) :
    sections_text first (more ++ [(sep, n)]) = sections_text first more ++ sep ++ n := by
  simp [sections_text, List.append_assoc]

theorem sections_text_last (first : List Char) (more : List (List Char × List Char))
    (h : sections_well_formed first more = true) :
    ∃ p' c, sections_text first more = p' ++ [c] ∧ ¬(c = ',' ∨ isspace c = true) := by
  induction more using List.reverseRecOn with
  | nil =>
    simp only [sections_well_formed, List.all_nil, Bool.and_true] at h
    obtain ⟨h1, h2, _⟩ := section_name_facts first h
    refine ⟨first.dropLast, first.getLast h1, ?_, h2 _ (List.getLast_mem h1)⟩
    simp [sections_text, List.dropLast_append_getLast h1]
  | append_singleton more q _ =>
    simp only [sections_well_formed, List.all_append, List.all_cons, List.all_nil,
      Bool.and_true, Bool.and_eq_true] at h
    obtain ⟨h1, h2, _⟩ := section_name_facts q.2 h.2.2.2
    refine ⟨sections_text first more ++ q.1 ++ q.2.dropLast, q.2.getLast h1, ?_,
      h2 _ (List.getLast_mem h1)⟩
    rw [show more ++ [q] = more ++ [(q.1, q.2)] from rfl, sections_text_snoc,
      List.append_assoc _ q.2.dropLast, List.dropLast_append_getLast h1]

/-- The loop of `conf_get_string` from the end of a well-formed list of sections: the
value in the last section that has one. -/
theorem conf_get_string_loop_sections
    (conf : List Char → List Char → Option (List Char)) (name first : List Char) :
    ∀ (more : List (List Char × List Char)) (junk : List Char) (k : Nat),
      sections_well_formed first more = true →
      (sections_text first more).length < k →
      conf_get_string_loop conf (sections_text first more ++ junk) name k
          (sections_text first more).length
        = some ((first :: more.map Prod.snd).reverse.findSome? (fun s => conf s name)) := by
  intro more
  induction more using List.reverseRecOn with
  | nil =>
    intro junk k h hk
    simp only [sections_well_formed, List.all_nil, Bool.and_true] at h
    obtain ⟨h1, h2, h3⟩ := section_name_facts first h
    have hstep := prev_item_name [] [] first junk (Or.inl rfl) (by simp) (Or.inr rfl) h2 h1
    simp only [List.nil_append, List.length_nil, Nat.zero_add, h3] at hstep
    have htext : sections_text first [] = first := by simp [sections_text]
    rw [htext] at hk ⊢
    have hpos : 0 < first.length := List.length_pos.mpr h1
    obtain ⟨k1, rfl⟩ : ∃ k1, k = k1 + 1 := ⟨k - 1, by omega⟩
    obtain ⟨k2, rfl⟩ : ∃ k2, k1 = k2 + 1 := ⟨k1 - 1, by omega⟩
    simp only [conf_get_string_loop, hstep, List.map_nil, List.reverse_singleton,
      List.findSome?_cons, List.findSome?_nil]
    cases conf first name with
    | some v => rfl
    | none => simp [prev_item]
  | append_singleton more q ih =>
    intro junk k h hk
    have hwf : sections_well_formed first more = true
        ∧ is_separator_run q.1 = true ∧ is_section_name q.2 = true := by
      simp only [sections_well_formed, List.all_append, List.all_cons, List.all_nil,
        Bool.and_true, Bool.and_eq_true] at h ⊢
      exact ⟨⟨h.1, h.2.1⟩, h.2.2.1, h.2.2.2⟩
    obtain ⟨hw1, hw2, hw3⟩ := hwf
    obtain ⟨h1, h2, h3⟩ := section_name_facts q.2 hw3
    obtain ⟨s1, s2⟩ := separator_run_facts q.1 hw2
    have hlast := sections_text_last first more hw1
    have htext : sections_text first (more ++ [q])
        = sections_text first more ++ q.1 ++ q.2 :=
      sections_text_snoc first more q.1 q.2
    have hstep := prev_item_name (sections_text first more) q.1 q.2 junk (Or.inr hlast) s2
      (Or.inl s1) h2 h1
    rw [h3] at hstep
    rw [htext] at hk ⊢
    have hlen : (sections_text first more ++ q.1 ++ q.2).length
        = (sections_text first more).length + q.1.length + q.2.length := by
      rw [List.length_append, List.length_append]
    rw [hlen] at hk ⊢
    obtain ⟨k1, rfl⟩ : ∃ k1, k = k1 + 1 := ⟨k - 1, by omega⟩
    simp only [conf_get_string_loop, hstep]
    have hrev : (first :: (more ++ [q]).map Prod.snd).reverse
        = q.2 :: (first :: more.map Prod.snd).reverse := by
      simp
    rw [hrev, List.findSome?_cons]
    cases conf q.2 name with
    | some v => rfl
    | none =>
      simp only
      have hq : 0 < q.1.length := List.length_pos.mpr s1
      have := ih (q.1 ++ q.2 ++ junk) k1 hw1 (by omega)
      simpa [List.append_assoc] using this
theorem prev_item_begin_le (opt : List Char) : ∀ b, prev_item_begin opt b ≤ b := by
  intro b
  induction b with
  | zero => simp [prev_item_begin]
  | succ b ih =>
    simp only [prev_item_begin]
    split_ifs
    · exact le_refl _
    · omega

theorem prev_item_skip_le (opt : List Char) : ∀ b, prev_item_skip opt b ≤ b := by
  intro b
  induction b with
  | zero => simp [prev_item_skip]
  | succ b ih =>
    simp only [prev_item_skip]
    split_ifs
    · omega
    · exact le_refl _

theorem prev_item_begin_stays (opt : List Char) (b : Nat)
    (h : prev_item_begin opt (b + 1) = b + 1) :
    opt.getD b (Char.ofNat 0) = ',' ∨ isspace (opt.getD b (Char.ofNat 0)) = true := by
  simp only [prev_item_begin] at h
  split_ifs at h with hc
  · exact hc
  · have := prev_item_begin_le opt b
    omega

/-- Every call of `prev_item` that does not return `NULL` returns an offset below the one
it was given. -/
theorem prev_item_ret_lt (opt : List Char) (end_ : Nat) (r : PrevItem)
    (h : prev_item opt end_ = some r) : r.ret < end_ := by
  simp only [prev_item] at h
  split_ifs at h with h0 h1
  all_goals
    simp only [Option.some.injEq] at h
    subst h
    simp only
    obtain ⟨e, rfl⟩ : ∃ e, end_ = e + 1 := ⟨end_ - 1, by omega⟩
    have hb := prev_item_begin_le opt (e + 1)
    have hs := prev_item_skip_le opt (prev_item_begin opt (e + 1))
    by_cases heq : prev_item_begin opt (e + 1) = e + 1
    · have hc := prev_item_begin_stays opt e heq
      rw [heq]
      simp only [prev_item_skip, if_pos hc]
      have := prev_item_skip_le opt e
      omega
    · omega

theorem conf_get_string_loop_returns
    (conf : List Char → List Char → Option (List Char)) (groups name : List Char) :
    ∀ (k end_ : Nat), end_ < k → conf_get_string_loop conf groups name k end_ ≠ none := by
  intro k
  induction k with
  | zero => intro end_ h; omega
  | succ k ih =>
    intro end_ h
    simp only [conf_get_string_loop]
    cases hp : prev_item groups end_ with
    | none => simp
    | some r =>
      simp only
      cases conf r.opt_item name with
      | some v => simp
      | none =>
        simp only
        exact ih r.ret (by have := prev_item_ret_lt groups end_ r hp; omega)

/-- The call `conf_get_string` returns on every list of sections. -/
theorem conf_get_string_returns (conf : List Char → List Char → Option (List Char))
    (groups name : List Char) : conf_get_string conf groups name ≠ none :=
  conf_get_string_loop_returns conf groups name (groups.length + 1) groups.length (by omega)

/-- What `NCONF_get_string` gives when the section `default` does not define the name: the
value that the section itself defines. -/
theorem NCONF_get_string_no_default (conf : List Char → List Char → Option (List Char))
    (name : List Char) (h : conf "default".toList name = none) (s : List Char) :
    NCONF_get_string conf s name = conf s name := by
  simp only [NCONF_get_string]
  cases hs : conf s name with
  | some v => rfl
  | none => exact h

/-- What `NCONF_get_string` gives when the section `default` defines the name: the value
that the section itself defines, and otherwise that of `default`. -/
theorem NCONF_get_string_default (conf : List Char → List Char → Option (List Char))
    (name d : List Char) (h : conf "default".toList name = some d) (s : List Char) :
    NCONF_get_string conf s name = some ((conf s name).getD d) := by
  simp only [NCONF_get_string]
  cases hs : conf s name with
  | some v => rfl
  | none => exact h

/-- C23 as stated fails: with `-section "cmp, ca1"`, the name `server` is defined by `cmp`
alone among the listed sections, yet its value is taken from the section `default`, in
which the look-up in `ca1` ends; and `path`, which no listed section defines, still has a
value, that of `default`. -/
theorem C23_default_section_shadows :
    sections_well_formed "cmp".toList [(", ".toList, "ca1".toList)] = true
    ∧ sections_text "cmp".toList [(", ".toList, "ca1".toList)] = "cmp, ca1".toList
    ∧ default_section_conf "cmp".toList "server".toList = some "a.example".toList
    ∧ default_section_conf "ca1".toList "server".toList = none
    ∧ conf_get_string (NCONF_get_string default_section_conf) "cmp, ca1".toList
        "server".toList = some (some "d.example".toList)
    ∧ default_section_conf "cmp".toList "path".toList = none
    ∧ default_section_conf "ca1".toList "path".toList = none
    ∧ conf_get_string (NCONF_get_string default_section_conf) "cmp, ca1".toList
        "path".toList = some (some "pkix/".toList) := by
  decide

/-- C23, amended: on a `-section` list of section names separated by commas and/or white
space, `conf_get_string` returns what `NCONF_get_string` gives for the last of the listed
sections for which it gives a value.  When the section `default` does not define the name,
this is the value that the last of the listed sections defining the name gives it, and
`NULL` exactly when no listed section defines the name.  When `default` defines the name,
it is the value that the section listed last gives it, or else that of `default`.  The
result is `NULL` exactly when neither a listed section nor `default` defines the name. -/
theorem C23_later_sections_override (conf : List Char → List Char → Option (List Char))
    (name first : List Char) (more : List (List Char × List Char))
    (h : sections_well_formed first more = true) :
    conf_get_string (NCONF_get_string conf) (sections_text first more) name
      = some ((first :: more.map Prod.snd).reverse.findSome?
          (fun s => NCONF_get_string conf s name))
    ∧ (conf "default".toList name = none →
        conf_get_string (NCONF_get_string conf) (sections_text first more) name
          = some ((first :: more.map Prod.snd).reverse.findSome? (fun s => conf s name))
        ∧ (conf_get_string (NCONF_get_string conf) (sections_text first more) name = some none
            ↔ ∀ s ∈ first :: more.map Prod.snd, conf s name = none)
        ∧ ∀ (before : List (List Char)) (s : List Char) (after : List (List Char))
            (v : List Char),
            first :: more.map Prod.snd = before ++ s :: after → conf s name = some v →
            (∀ t ∈ after, conf t name = none) →
            conf_get_string (NCONF_get_string conf) (sections_text first more) name
              = some (some v))
    ∧ (∀ (d : List Char) (before : List (List Char)) (last : List Char),
        conf "default".toList name = some d →
        first :: more.map Prod.snd = before ++ [last] →
        conf_get_string (NCONF_get_string conf) (sections_text first more) name
          = some (some ((conf last name).getD d)))
    ∧ (conf_get_string (NCONF_get_string conf) (sections_text first more) name = some none
        ↔ (∀ s ∈ first :: more.map Prod.snd, conf s name = none)
          ∧ conf "default".toList name = none) := by
  have hmain : conf_get_string (NCONF_get_string conf) (sections_text first more) name
      = some ((first :: more.map Prod.snd).reverse.findSome?
          (fun s => NCONF_get_string conf s name)) := by
    have := conf_get_string_loop_sections (NCONF_get_string conf) name first more []
      ((sections_text first more).length + 1) h (by omega)
    simpa [conf_get_string] using this
  have hplain : conf "default".toList name = none →
      conf_get_string (NCONF_get_string conf) (sections_text first more) name
        = some ((first :: more.map Prod.snd).reverse.findSome? (fun s => conf s name)) := by
    intro hd
    rw [hmain]
    have : (fun s => NCONF_get_string conf s name) = (fun s => conf s name) :=
      funext (NCONF_get_string_no_default conf name hd)
    rw [this]
  refine ⟨hmain, ?_, ?_, ?_⟩
  · intro hd
    refine ⟨hplain hd, ?_, ?_⟩
    · rw [hplain hd]
      simp only [Option.some.injEq, List.findSome?_eq_none_iff, List.mem_reverse]
    · intro before s after v hsplit hs hafter
      rw [hplain hd, hsplit]
      have hnone : after.reverse.findSome? (fun s => conf s name) = none := by
        rw [List.findSome?_eq_none_iff]
        intro t ht
        exact hafter t (List.mem_reverse.mp ht)
      simp [List.findSome?_append, hnone, hs]
  · intro d before last hd hsplit
    rw [hmain, hsplit]
    simp [NCONF_get_string_default conf name d hd]
  · cases hd : conf "default".toList name with
    | none =>
      rw [hplain hd]
      simp only [Option.some.injEq, List.findSome?_eq_none_iff, List.mem_reverse, and_true]
    | some d =>
      rw [hmain]
      constructor
      · intro hn
        have hn1 := Option.some.inj hn
        rw [List.findSome?_eq_none_iff] at hn1
        have hf := hn1 first (by simp)
        rw [NCONF_get_string_default conf name d hd] at hf
        cases hf
      · intro hc
        cases hc.2

theorem C23_later_sections_override_witness :
    sections_well_formed "cmp".toList [(", ".toList, "ca1".toList)] = true
    ∧ two_sections_conf "default".toList "server".toList = none
    ∧ "cmp".toList :: [(", ".toList, "ca1".toList)].map Prod.snd
        = ["cmp".toList] ++ "ca1".toList :: []
    ∧ two_sections_conf "ca1".toList "server".toList = some "b.example".toList
    ∧ conf_get_string (NCONF_get_string two_sections_conf)
        (sections_text "cmp".toList [(", ".toList, "ca1".toList)]) "server".toList
      = some (some "b.example".toList)
    ∧ default_section_conf "default".toList "server".toList = some "d.example".toList
    ∧ conf_get_string (NCONF_get_string default_section_conf)
        (sections_text "cmp".toList [(", ".toList, "ca1".toList)]) "server".toList
      = some (some ((default_section_conf "ca1".toList "server".toList).getD
          "d.example".toList)) :=
  ⟨by decide, by decide, by decide, by decide,
   ((C23_later_sections_override two_sections_conf "server".toList "cmp".toList
      [(", ".toList, "ca1".toList)] (by decide)).2.1 (by decide)).2.2
      ["cmp".toList] "ca1".toList [] "b.example".toList (by decide) (by decide)
      (fun _ ht => absurd ht (List.not_mem_nil _)),
   by decide,
   (C23_later_sections_override default_section_conf "server".toList "cmp".toList
      [(", ".toList, "ca1".toList)] (by decide)).2.2.1 "d.example".toList ["cmp".toList]
      "ca1".toList (by decide) (by decide)⟩

/-- The warning of `prev_item` is never issued: the length is cut down to
`SECTION_NAME_MAX` before it is compared with `SECTION_NAME_MAX`. -/
theorem prev_item_never_warns (opt : List Char) (end_ : Nat) (r : PrevItem)
    (h : prev_item opt end_ = some r) : r.warned = false := by
  simp only [prev_item] at h
  split_ifs at h with h0 h1
  · simp only [Option.some.injEq] at h
    subst h
    simp
  · simp only [Option.some.injEq] at h
    subst h
    simpa using h1

/-- C29, evaluated where it fails: on the `-section` list `cmp,` followed by a name of 41
characters, `prev_item` makes the first 40 characters of that name the current section
name, and does not issue the warning. -/
theorem C29_long_section_name_not_warned :
    "a234567890b234567890c234567890d234567890X".toList.length = 41
    ∧ prev_item "cmp,a234567890b234567890c234567890d234567890X".toList 45
      = some
          { ret := 3
            opt_item := "a234567890b234567890c234567890d234567890".toList
            warned := false }
    ∧ "a234567890b234567890c234567890d234567890".toList.length = SECTION_NAME_MAX := by
  decide

/-! ## Saving certificates -/

/-- What the loop of `save_certs` leaves behind: all certificates written, or those before
the first that could not be written, and the failed attempt. -/
theorem save_certs_loop_spec (env : MainEnv) (opt_certform : Format) (file : List Char) :
    ∀ (certs : List X509) (tr : List MainEvent),
      ((save_certs_loop env opt_certform file certs tr).1 = true →
        (save_certs_loop env opt_certform file certs tr).2
          = tr ++ certs.map (fun c => MainEvent.write_cert file c true))
      ∧ ((save_certs_loop env opt_certform file certs tr).1 = false →
        ∃ written c rest, certs = written ++ c :: rest
          ∧ (save_certs_loop env opt_certform file certs tr).2
            = tr ++ written.map (fun c => MainEvent.write_cert file c true)
                ++ [MainEvent.write_cert file c false]) := by
  intro certs
  induction certs with
  | nil => intro tr; simp [save_certs_loop]
  | cons cert rest ih =>
    intro tr
    simp only [save_certs_loop]
    by_cases hw : write_cert env opt_certform tr file cert = 0
    · rw [if_pos hw]
      refine ⟨by simp, fun _ => ⟨[], cert, rest, rfl, by simp⟩⟩
    · rw [if_neg hw]
      obtain ⟨h1, h2⟩ := ih (tr ++ [MainEvent.write_cert file cert true])
      refine ⟨fun h => by rw [h1 h]; simp, fun h => ?_⟩
      obtain ⟨written, c, rest2, e1, e2⟩ := h2 h
      exact ⟨cert :: written, c, rest2, by rw [e1]; rfl, by rw [e2]; simp⟩

theorem save_certs_loop_ok (env : MainEnv) (opt_certform : Format) (file : List Char)
    (hw : ∀ tr cert, write_cert env opt_certform tr file cert ≠ 0) :
    ∀ (certs : List X509) (tr : List MainEvent),
      (save_certs_loop env opt_certform file certs tr).1 = true := by
  intro certs
  induction certs with
  | nil => intro tr; rfl
  | cons cert rest ih =>
    intro tr
    simp only [save_certs_loop]
    rw [if_neg (hw tr cert)]
    exact ih _

/-- C26: `save_certs` does not do what its header comment says ("Returns number of written
certificates on success, 0 on error", cmp.c 2257-2262): a destination that cannot be
opened, and a certificate that cannot be written, make it return `-1`, not `0`. -/
theorem C26_failed_save_returns_minus_one :
    save_certs three_rounds_env FORMAT_PEM [] (some [1, 2]) (some "ro.pem".toList)
      = (-1, [MainEvent.BIO_write_filename "ro.pem".toList false])
    ∧ save_certs three_rounds_env FORMAT_PEM [] (some [1, 2]) (some "full.pem".toList)
      = (-1, [MainEvent.BIO_write_filename "full.pem".toList true,
              MainEvent.write_cert "full.pem".toList 1 false])
    ∧ (-1 : Int) ≠ 0 := by
  decide

/-- What `save_certs` does return: on a list of certificates and a destination it returns
the length of the list or `-1`.  When it returns the length, the file was opened and all
certificates were written to it, in order; when it returns `-1`, no BIO could be made, or
the file could not be opened, or the certificates before the first that could not be
written were written and nothing after it.  If the file can be opened and every
certificate can be written, in PEM or in DER form and whatever the number of certificates,
the result is the length; if the file cannot be opened, the result is `-1`. -/
theorem save_certs_result (env : MainEnv) (opt_certform : Format) (tr : List MainEvent)
    (certs : List X509) (file : List Char) :
    ((save_certs env opt_certform tr (some certs) (some file)).1 = certs.length
      ∨ (save_certs env opt_certform tr (some certs) (some file)).1 = -1)
    ∧ ((save_certs env opt_certform tr (some certs) (some file)).1 = certs.length →
        (save_certs env opt_certform tr (some certs) (some file)).2
          = tr ++ MainEvent.BIO_write_filename file true
              :: certs.map (fun c => MainEvent.write_cert file c true))
    ∧ ((save_certs env opt_certform tr (some certs) (some file)).1 = -1 →
        (save_certs env opt_certform tr (some certs) (some file)).2 = tr
        ∨ (save_certs env opt_certform tr (some certs) (some file)).2
            = tr ++ [MainEvent.BIO_write_filename file false]
        ∨ ∃ written c rest, certs = written ++ c :: rest
            ∧ (save_certs env opt_certform tr (some certs) (some file)).2
              = tr ++ MainEvent.BIO_write_filename file true
                  :: written.map (fun c => MainEvent.write_cert file c true)
                  ++ [MainEvent.write_cert file c false])
    ∧ (env.BIO_new_ok tr = true → env.BIO_write_filename_ok tr file = true →
        (∀ tr1 cert, write_cert env opt_certform tr1 file cert ≠ 0) →
        (save_certs env opt_certform tr (some certs) (some file)).1 = certs.length)
    ∧ (env.BIO_write_filename_ok tr file = false →
        (save_certs env opt_certform tr (some certs) (some file)).1 = -1) := by
  obtain ⟨l1, l2⟩ := save_certs_loop_spec env opt_certform file certs
    (tr ++ [MainEvent.BIO_write_filename file true])
  have hlen : (certs.length : Int) ≠ -1 := by omega
  by_cases h1 : env.BIO_new_ok tr = false
  · have e : save_certs env opt_certform tr (some certs) (some file) = (-1, tr) := by
      simp [save_certs, h1]
    rw [e]
    refine ⟨Or.inr rfl, fun h => absurd h.symm hlen, fun _ => Or.inl rfl, ?_, fun _ => rfl⟩
    intro hb
    rw [hb] at h1
    exact absurd h1 (by decide)
  · by_cases h2 : env.BIO_write_filename_ok tr file = false
    · have e : save_certs env opt_certform tr (some certs) (some file)
          = (-1, tr ++ [MainEvent.BIO_write_filename file false]) := by
        simp [save_certs, h1, h2]
      rw [e]
      refine ⟨Or.inr rfl, fun h => absurd h.symm hlen, fun _ => Or.inr (Or.inl rfl), ?_,
        fun _ => rfl⟩
      intro _ hb
      rw [hb] at h2
      exact absurd h2 (by decide)
    · cases hl : (save_certs_loop env opt_certform file certs
          (tr ++ [MainEvent.BIO_write_filename file true])).1 with
      | true =>
        have e : save_certs env opt_certform tr (some certs) (some file)
            = ((certs.length : Int), tr ++ MainEvent.BIO_write_filename file true
                :: certs.map (fun c => MainEvent.write_cert file c true)) := by
          simp only [save_certs, sk_X509_num, if_neg h1, if_neg h2, Option.getD_some, hl,
            if_true, l1 hl]
          simp
        rw [e]
        refine ⟨Or.inl rfl, fun _ => rfl, fun h => absurd h hlen, fun _ _ _ => rfl, ?_⟩
        intro hb
        exact absurd hb h2
      | false =>
        obtain ⟨written, c, rest, e1, e2⟩ := l2 hl
        have e : save_certs env opt_certform tr (some certs) (some file)
            = (-1, tr ++ MainEvent.BIO_write_filename file true
                :: written.map (fun c => MainEvent.write_cert file c true)
                ++ [MainEvent.write_cert file c false]) := by
          simp only [save_certs, sk_X509_num, if_neg h1, if_neg h2, Option.getD_some, hl, e2]
          simp
        rw [e]
        refine ⟨Or.inr rfl, fun h => absurd h.symm hlen,
          fun _ => Or.inr (Or.inr ⟨written, c, rest, e1, rfl⟩), ?_, fun _ => rfl⟩
        intro _ _ hw
        have := save_certs_loop_ok env opt_certform file hw certs
          (tr ++ [MainEvent.BIO_write_filename file true])
        rw [hl] at this
        exact absurd this (by decide)

theorem save_certs_result_example :
    three_rounds_env.BIO_new_ok [] = true
    ∧ three_rounds_env.BIO_write_filename_ok [] "ca.der".toList = true
    ∧ (∀ tr1 cert, write_cert three_rounds_env FORMAT_ASN1 tr1 "ca.der".toList cert ≠ 0)
    ∧ (save_certs three_rounds_env FORMAT_ASN1 [] (some [1, 2]) (some "ca.der".toList)).1
        = ([1, 2] : List X509).length
    ∧ three_rounds_env.BIO_write_filename_ok [] "ro.pem".toList = false
    ∧ (save_certs three_rounds_env FORMAT_PEM [] (some [1, 2]) (some "ro.pem".toList)).1 = -1 :=
  ⟨by decide, by decide, fun _ _ => by simp [write_cert, three_rounds_env],
   (save_certs_result three_rounds_env FORMAT_ASN1 [] [1, 2] "ca.der".toList).2.2.2.1
      (by decide) (by decide) (fun _ _ => by simp [write_cert, three_rounds_env]),
   by decide,
   (save_certs_result three_rounds_env FORMAT_PEM [] [1, 2] "ro.pem".toList).2.2.2.2
      (by decide)⟩

/-- What `save_certs` makes of the list `NULL`: `sk_X509_num` gives `-1`, which is returned
although the file was opened and nothing failed. -/
theorem save_certs_null_list :
    save_certs three_rounds_env FORMAT_PEM [] none (some "ca.pem".toList)
      = (-1, [MainEvent.BIO_write_filename "ca.pem".toList true]) := by
  decide

/-- C22: a destination with nothing to save is passed over.  With no CA certificates (the
list is `NULL` or empty) the step for `-cacertsout` succeeds without an event, likewise
the step for `-extracertsout`, and the step for `-certout` when there is no new
certificate; a round in which all three have nothing to save consists of the command and
the re-initialisation of the context, and opens and writes no file. -/
theorem C22_nothing_to_save_is_passed_over (env : MainEnv) (o : MainOptions)
    (tr : List MainEvent) (newcert : Option X509) :
    (sk_X509_num (env.get1_caPubs tr) ≤ 0 → save_cacerts env o tr = (1, tr))
    ∧ (sk_X509_num (env.get1_extraCertsIn tr) ≤ 0 → save_extracerts env o tr = (1, tr))
    ∧ save_newcert env o none tr = (1, tr)
    ∧ ((perform_command env o tr newcert).1 ≠ 0 →
        (perform_command env o tr newcert).2 = none →
        sk_X509_num (env.get1_caPubs (tr ++ [MainEvent.command true])) ≤ 0 →
        sk_X509_num (env.get1_extraCertsIn (tr ++ [MainEvent.command true])) ≤ 0 →
        cmp_main_round env o newcert tr
          = ⟨if env.OSSL_CMP_CTX_reinit_ok (tr ++ [MainEvent.command true]) = true then 1
              else 0,
             none,
             tr ++ [MainEvent.command true,
                    MainEvent.OSSL_CMP_CTX_reinit
                      (env.OSSL_CMP_CTX_reinit_ok (tr ++ [MainEvent.command true]))]⟩) := by
  have hca : ∀ t, sk_X509_num (env.get1_caPubs t) ≤ 0 → save_cacerts env o t = (1, t) := by
    intro t h
    simp only [save_cacerts]
    cases o.opt_cacertsout with
    | none => rfl
    | some file => simp only; rw [if_neg (by omega)]
  have hex : ∀ t, sk_X509_num (env.get1_extraCertsIn t) ≤ 0 →
      save_extracerts env o t = (1, t) := by
    intro t h
    simp only [save_extracerts]
    cases o.opt_extracertsout with
    | none => rfl
    | some file => simp only; rw [if_neg (by omega)]
  have hnew : ∀ t, save_newcert env o none t = (1, t) := by
    intro t
    simp only [save_newcert]
    cases o.opt_certout <;> rfl
  refine ⟨hca tr, hex tr, hnew tr, ?_⟩
  intro hc hn h1 h2
  have hd : decide ((perform_command env o tr newcert).1 ≠ 0) = true := by simpa using hc
  simp only [cmp_main_round, hd, if_neg hc, hn, hca _ h1, hex _ h2, hnew]
  cases hr : env.OSSL_CMP_CTX_reinit_ok (tr ++ [MainEvent.command true]) <;> simp

theorem C22_nothing_to_save_is_passed_over_witness :
    sk_X509_num (three_rounds_env.get1_extraCertsIn []) ≤ 0
    ∧ save_extracerts three_rounds_env three_rounds_options [] = (1, []) :=
  ⟨by decide,
   (C22_nothing_to_save_is_passed_over three_rounds_env three_rounds_options [] none).2.1
      (by decide)⟩

theorem read_config_walk_append (l2 : List OptRow) :
    ∀ (l1 : List OptRow) (i : Nat),
      read_config_walk (l1 ++ l2) i
        = match read_config_walk l1 i with
          | none => none
          | some r1 =>
            match read_config_walk l2 r1.2 with
            | none => none
            | some r2 => some (r1.1 ++ r2.1, r2.2) := by
  intro l1
  induction l1 with
  | nil =>
    intro i
    simp only [List.nil_append, read_config_walk]
    cases read_config_walk l2 i with
    | none => rfl
    | some r2 => simp
  | cons row rest ih =>
    intro i
    cases row with
    | header => exact ih i
    | more => exact ih i
    | provider valtype =>
      rw [List.cons_append]
      simp only [read_config_walk]
      split
      · split_ifs
        · exact ih _
        · rfl
      · rfl
    | verification valtype =>
      rw [List.cons_append]
      simp only [read_config_walk]
      split
      · split_ifs
        · exact ih _
        · rfl
      · rfl
    | plain name valtype =>
      rw [List.cons_append]
      simp only [read_config_walk]
      split
      · split_ifs
        · rw [ih]
          cases read_config_walk rest (i + 1) with
          | none => rfl
          | some r1 =>
            simp only
            cases read_config_walk l2 r1.2 with
            | none => rfl
            | some r2 => simp
        · rfl
      · rfl

/-- Rows that are no plain options leave the index where it is, provided it stands after
an entry of `cmp_vars`. -/
theorem read_config_walk_asides (i : Nat) (h1 : 1 ≤ i) (h2 : i ≤ cmp_vars.length) :
    ∀ l : List OptRow, (∀ r ∈ l, r.is_aside = true) → read_config_walk l i = some ([], i) := by
  have hat : ∃ v, cmp_vars_before i = some (some v) := by
    have hlt : i - 1 < cmp_vars.length := by omega
    refine ⟨cmp_vars[i - 1], ?_⟩
    simp only [cmp_vars_before, if_neg (show ¬ i = 0 by omega), cmp_vars_at, if_pos hlt,
      List.getElem?_eq_getElem hlt]
  obtain ⟨v, hv⟩ := hat
  intro l
  induction l with
  | nil => intro _; rfl
  | cons row rest ih =>
    intro h
    have hrest := ih (fun r hr => h r (List.mem_cons_of_mem _ hr))
    have hrow := h row (List.mem_cons_self _ _)
    cases row with
    | header => simp only [read_config_walk, hrest]
    | more => simp only [read_config_walk, hrest]
    | provider valtype =>
      simp only [OptRow.is_aside] at hrow
      simp only [read_config_walk, hv, hrow, if_true, hrest]
    | verification valtype =>
      simp only [OptRow.is_aside] at hrow
      simp only [read_config_walk, hv, hrow, if_true, hrest]
    | plain name valtype => simp [OptRow.is_aside] at hrow

theorem read_config_walk_client :
    read_config_walk cmp_options_client (OPT_SECTION - OPT_HELP)
      = some (read_config_found cmp_options_client (OPT_SECTION - OPT_HELP), 53) := by
  decide

theorem read_config_walk_tls_and_mock :
    read_config_walk cmp_options_tls_and_mock 53
      = some (read_config_found cmp_options_tls_and_mock 53, cmp_vars.length) := by
  decide

/-- C28: whatever rows the macros `OPT_PROV_OPTIONS` and `OPT_V_OPTIONS` stand for, as long
as they are section headers, continuations of help texts, provider options and
verification options, the walk of `read_config` over `cmp_options` from the row after
`-section` ends without an internal error; it finds the plain options in the order of the
table, and the index of each selects in `cmp_vars`, before the terminating `NULL` entry,
the variable of that option, an `int` for the value types `'-'` and `'n'` and a string
for `'s'`. -/
theorem C28_tables_in_lockstep (prov_options v_options : List OptRow)
    (hp : ∀ r ∈ prov_options, r.is_aside = true)
    (hv : ∀ r ∈ v_options, r.is_aside = true) :
    read_config_indices prov_options v_options
      = some (read_config_found cmp_options_client (OPT_SECTION - OPT_HELP)
                ++ read_config_found cmp_options_tls_and_mock 53, cmp_vars.length)
    ∧ (read_config_found cmp_options_client (OPT_SECTION - OPT_HELP)
          ++ read_config_found cmp_options_tls_and_mock 53).map (fun found => found.1)
        = (cmp_options_client ++ cmp_options_tls_and_mock).filterMap OptRow.plain_name
    ∧ ∀ found ∈ read_config_found cmp_options_client (OPT_SECTION - OPT_HELP)
          ++ read_config_found cmp_options_tls_and_mock 53,
        found.2.2 < cmp_vars.length
        ∧ cmp_vars[found.2.2]? = some (variable_of found.1)
        ∧ in_lockstep found = true := by
  refine ⟨?_, by decide, by decide⟩
  have hdrop : (cmp_options prov_options v_options).drop OPT_SECTION
      = cmp_options_client ++ (prov_options ++ (cmp_options_tls_and_mock ++ v_options)) := by
    simp only [cmp_options, List.append_assoc]
    exact List.drop_left' (by decide)
  have h1 := read_config_walk_client
  have h2 := read_config_walk_asides 53 (by omega) (by decide) prov_options hp
  have h3 := read_config_walk_tls_and_mock
  have h4 := read_config_walk_asides cmp_vars.length (by decide) (le_refl _) v_options hv
  simp only [read_config_indices, hdrop]
  rw [read_config_walk_append, h1]
  simp only
  rw [read_config_walk_append, h2]
  simp only
  rw [read_config_walk_append, h3]
  simp only
  rw [h4]
  simp

theorem C28_tables_in_lockstep_witness :
    (∀ r ∈ [OptRow.header, OptRow.provider 's', OptRow.provider 's'], r.is_aside = true)
    ∧ (∀ r ∈ [OptRow.header, OptRow.verification 's', OptRow.more, OptRow.verification '-'],
        r.is_aside = true)
    ∧ (read_config_indices [OptRow.header, OptRow.provider 's', OptRow.provider 's']
        [OptRow.header, OptRow.verification 's', OptRow.more, OptRow.verification '-']).map
          Prod.snd = some cmp_vars.length :=
  ⟨by decide, by decide,
   congrArg (Option.map Prod.snd)
     (C28_tables_in_lockstep [OptRow.header, OptRow.provider 's', OptRow.provider 's']
        [OptRow.header, OptRow.verification 's', OptRow.more, OptRow.verification '-']
        (by decide) (by decide)).1⟩

end Cmp
